import Mathlib

/-!
# Plan management of kismatic: node admission, migration and defaulting

A shallow embedding of `pkg/install/plan.go` and `pkg/cli/add_node.go`.

* Go structs are Lean structures with the Go field names.
* A Go pointer field (`*bool`, `*CNI`, ...) is an `Option`; `nil` is `none`.
* A Go `map[string]string` is `StrMap`: `none` is the nil map, `some kvs` an
  allocated map given by its entries.  Reading a nil map succeeds, writing
  to it is a runtime error, so every function that writes a map entry returns
  an `Option`.
* A Go `error` result is `Option String`: `none` is `nil`, `some msg` the
  error with message `msg`.
* Go `int` fields are `Int`; the code only compares them with `0`, copies
  them and prints them.

The struct declarations of package `install` and the constants
`kubernetesVersionString`, `cniProviderCalico` and `cniProviderWeave` are not
among the sources at hand.  The structures below carry every field that
`plan.go` and `add_node.go` read or write, and the three constants are the
fields of `PackageConstants`, over which every statement is quantified.
-/

set_option autoImplicit false

namespace Kismatic

/-! ## Go maps -/

/-- Go `map[string]string`; `none` is the nil map. -/
abbrev StrMap := Option (List (String × String))

/-- Entry lookup in an association list. -/
def lookupKV (k : String) : List (String × String) → Option String
  | [] => none
  | (k', v) :: rest => if k' = k then some v else lookupKV k rest

/-- Go `v, ok := m[k]`; on the nil map `ok` is false. -/
def StrMap.get? (m : StrMap) (k : String) : Option String :=
  match m with
  | none => none
  | some kvs => lookupKV k kvs

/-- Go `len(m)`; the nil map has length 0. -/
def StrMap.len (m : StrMap) : Nat :=
  match m with
  | none => 0
  | some kvs => kvs.length

/-- Replace the value of key `k`, or append the entry when `k` is absent. -/
def insertKV (k v : String) : List (String × String) → List (String × String)
  | [] => [(k, v)]
  | (k', v') :: rest => if k' = k then (k, v) :: rest else (k', v') :: insertKV k v rest

/-- Go `m[k] = v`; a runtime error (`none`) on the nil map. -/
def StrMap.set (m : StrMap) (k v : String) : Option StrMap :=
  match m with
  | none => none
  | some kvs => some (some (insertKV k v kvs))

/-! ## Data model (package `install`) -/

/-- Go `install.Node`. -/
structure Node where
  Host : String := ""
  IP : String := ""
  InternalIP : String := ""
  Labels : StrMap := none
  deriving DecidableEq, Repr

/-- A node pool: `{ExpectedCount, Nodes}`. -/
structure NodeGroup where
  ExpectedCount : Int := 0
  Nodes : List Node := []
  deriving DecidableEq, Repr

/-- Go `p.Cluster.SSH`. -/
structure SSHConfig where
  User : String := ""
  Key : String := ""
  Port : Int := 0
  deriving DecidableEq, Repr

/-- Go `p.Cluster.Networking`; `Type_` is the Go field `Type` (the networking
type of KET < v1.5.0), renamed because `Type` is a Lean keyword. -/
structure NetworkConfig where
  Type_ : String := ""
  PodCIDRBlock : String := ""
  ServiceCIDRBlock : String := ""
  UpdateHostsFiles : Bool := false
  deriving DecidableEq, Repr

/-- Go `p.Cluster.Certificates`. -/
structure CertsConfig where
  Expiry : String := ""
  CAExpiry : String := ""
  deriving DecidableEq, Repr

/-- Go `p.Cluster`. -/
structure Cluster where
  Name : String := ""
  Version : String := ""
  AdminPassword : String := ""
  DisablePackageInstallation : Bool := false
  AllowPackageInstallation : Option Bool := none
  DisconnectedInstallation : Bool := false
  Networking : NetworkConfig := {}
  Certificates : CertsConfig := {}
  SSH : SSHConfig := {}
  deriving DecidableEq, Repr

/-- Go `install.DockerLogs`. -/
structure DockerLogs where
  Driver : String := ""
  Opts : StrMap := none
  deriving DecidableEq, Repr

/-- Deprecated `p.Docker.Storage.DirectLVM` sub-document. -/
structure DockerStorageDirectLVMDeprecated where
  Enabled : Bool := false
  BlockDevice : String := ""
  EnableDeferredDeletion : Bool := false
  deriving DecidableEq, Repr

/-- Go `p.Docker.Storage.DirectLVMBlockDevice`. -/
structure DirectLVMBlockDevice where
  Path : String := ""
  ThinpoolPercent : String := ""
  ThinpoolMetaPercent : String := ""
  ThinpoolAutoextendThreshold : String := ""
  ThinpoolAutoextendPercent : String := ""
  deriving DecidableEq, Repr

/-- Go `p.Docker.Storage`. -/
structure DockerStorage where
  Driver : String := ""
  Opts : StrMap := none
  DirectLVMBlockDevice : DirectLVMBlockDevice := {}
  DirectLVM : Option DockerStorageDirectLVMDeprecated := none
  deriving DecidableEq, Repr

/-- Go `p.Docker`. -/
structure Docker where
  Disable : Bool := false
  Logs : DockerLogs := {}
  Storage : DockerStorage := {}
  deriving DecidableEq, Repr

/-- Go `p.DockerRegistry`; `Address` and `Port` are the deprecated pair. -/
structure DockerRegistry where
  Server : String := ""
  Address : String := ""
  Port : Int := 0
  CAPath : String := ""
  Username : String := ""
  Password : String := ""
  deriving DecidableEq, Repr

/-- Go `p.AddOns.CNI.Options.Calico`. -/
structure CalicoOptions where
  Mode : String := ""
  LogLevel : String := ""
  WorkloadMTU : Int := 0
  FelixInputMTU : Int := 0
  IPAutodetectionMethod : String := ""
  deriving DecidableEq, Repr

/-- Go `p.AddOns.CNI.Options`. -/
structure CNIOptions where
  Calico : CalicoOptions := {}
  deriving DecidableEq, Repr

/-- Go `install.CNI`. -/
structure CNI where
  Provider : String := ""
  Options : CNIOptions := {}
  deriving DecidableEq, Repr

/-- Go `p.AddOns.DNS`. -/
structure DNS where
  Provider : String := ""
  deriving DecidableEq, Repr

/-- Go `p.AddOns.HeapsterMonitoring.Options.Heapster`. -/
structure Heapster where
  Replicas : Int := 0
  ServiceType : String := ""
  Sink : String := ""
  deriving DecidableEq, Repr

/-- Go `p.AddOns.HeapsterMonitoring.Options.InfluxDB`. -/
structure InfluxDB where
  PVCName : String := ""
  deriving DecidableEq, Repr

/-- Go `p.AddOns.HeapsterMonitoring.Options`; `HeapsterReplicas` and
`InfluxDBPVCName` are the fields of KET < v1.5.0. -/
structure HeapsterOptions where
  Heapster : Heapster := {}
  InfluxDB : InfluxDB := {}
  HeapsterReplicas : Int := 0
  InfluxDBPVCName : String := ""
  deriving DecidableEq, Repr

/-- Go `install.HeapsterMonitoring`. -/
structure HeapsterMonitoring where
  Options : HeapsterOptions := {}
  deriving DecidableEq, Repr

/-- Go `p.AddOns.PackageManager.Options.Helm`. -/
structure HelmOptions where
  Namespace : String := ""
  deriving DecidableEq, Repr

/-- Go `p.AddOns.PackageManager.Options`. -/
structure PackageManagerOptions where
  Helm : HelmOptions := {}
  deriving DecidableEq, Repr

/-- Go `p.AddOns.PackageManager`. -/
structure PackageManager where
  Disable : Bool := false
  Provider : String := ""
  Options : PackageManagerOptions := {}
  deriving DecidableEq, Repr

/-- Go `install.Dashboard`. -/
structure Dashboard where
  Disable : Bool := false
  deriving DecidableEq, Repr

/-- Deprecated `p.AddOns.DashboardDeprecated` toggle. -/
structure DashboardDeprecated where
  Disable : Bool := false
  deriving DecidableEq, Repr

/-- Go `p.AddOns`. -/
structure AddOns where
  CNI : Option CNI := none
  DNS : DNS := {}
  HeapsterMonitoring : Option HeapsterMonitoring := none
  Dashboard : Option Dashboard := none
  PackageManager : PackageManager := {}
  DashboardDeprecated : Option DashboardDeprecated := none
  deriving DecidableEq, Repr

/-- Deprecated `p.Features.PackageManager`. -/
structure DeprecatedPackageManager where
  Enabled : Bool := false
  deriving DecidableEq, Repr

/-- Deprecated `p.Features` block. -/
structure Features where
  PackageManager : Option DeprecatedPackageManager := none
  deriving DecidableEq, Repr

/-- Go `install.NFSVolume`. -/
structure NFSVolume where
  Host : String := ""
  Path : String := ""
  deriving DecidableEq, Repr

/-- Go `p.NFS`. -/
structure NFS where
  Volumes : List NFSVolume := []
  deriving DecidableEq, Repr

/-- Go `p.Provisioner`. -/
structure Provisioner where
  Provider : String := ""
  deriving DecidableEq, Repr

/-- Go `install.Plan`, the root entity. -/
structure Plan where
  Cluster : Cluster := {}
  Docker : Docker := {}
  DockerRegistry : DockerRegistry := {}
  AddOns : AddOns := {}
  Features : Option Features := none
  Provisioner : Provisioner := {}
  Etcd : NodeGroup := {}
  Master : NodeGroup := {}
  Worker : NodeGroup := {}
  Ingress : NodeGroup := {}
  Storage : NodeGroup := {}
  NFS : NFS := {}
  deriving DecidableEq, Repr

/-- Package-level constants of `install` declared outside `plan.go`. -/
structure PackageConstants where
  kubernetesVersionString : String
  cniProviderCalico : String
  cniProviderWeave : String
  deriving DecidableEq, Repr

/-! ## Node admission (`pkg/cli/add_node.go`) -/

/-- One `for _, n := range <pool>.Nodes` loop of `ensureNodeIsNew`; `role` is
the pool word of the three messages of that loop. -/
def ensureNodeIsNew.loop (role : String) (newNode : Node) : List Node → Option String
  | [] => none
  | n :: rest =>
    if n.Host = newNode.Host then
      some ("according to the plan file, the host name of the new node is already being used by another "
        ++ role ++ " node")
    else if n.IP = newNode.IP then
      some ("according to the plan file, the IP of the new node is already being used by another "
        ++ role ++ " node")
    else if newNode.InternalIP ≠ "" ∧ n.InternalIP = newNode.InternalIP then
      some ("according to the plan file, the internal IP of the new node is already being used by another "
        ++ role ++ " node")
    else ensureNodeIsNew.loop role newNode rest

/-- Go `ensureNodeIsNew(plan, newNode)`: `none` is the `nil` error. -/
def ensureNodeIsNew (plan : Plan) (newNode : Node) : Option String :=
  match ensureNodeIsNew.loop "worker" newNode plan.Worker.Nodes with
  | some err => some err
  | none =>
    match ensureNodeIsNew.loop "ingress" newNode plan.Ingress.Nodes with
    | some err => some err
    | none => ensureNodeIsNew.loop "storage" newNode plan.Storage.Nodes

/-- Go `cli.addNodeOpts`. -/
structure addNodeOpts where
  Roles : List String := []
  NodeLabels : List String := []
  GeneratedAssetsDirectory : String := ""
  RestartServices : Bool := false
  OutputFormat : String := ""
  Verbose : Bool := false
  SkipPreFlight : Bool := false
  deriving DecidableEq, Repr

/-- What the external collaborators of `doAddNode` answer.  A validation
collaborator answers with its list of errors (`errs != nil` is `errs ≠ []`),
the others with their `error` or their result. -/
structure Collaborators where
  NewExecutor : Option String
  Read : Except String Plan
  ValidateNode : Node → List String
  ValidatePlan : Plan → List String
  ValidateSSHConnection : SSHConfig → Node → List String
  RunNewNodePreFlightCheck : Plan → Node → Option String
  AddNode : Plan → Node → List String → Bool → Except String Plan
  Write : Plan → Option String

/-- The calls `doAddNode` makes, recorded in the order they are made. -/
inductive Call where
  | NewExecutor
  | PlannerRead
  | ValidateNode
  | ValidatePlan
  | ValidateSSHConnection
  | PrintValidationErrors
  | ensureNodeIsNew
  | PrintHeader
  | RunNewNodePreFlightCheck
  | AddNode
  | PlannerWrite
  deriving DecidableEq, Repr

/-- Go `doAddNode(out, planner, opts, newNode)`: the trace of the calls made
and the returned `error`. -/
def doAddNode (env : Collaborators) (opts : addNodeOpts) (newNode : Node) :
    List Call × Option String :=
  let t := [Call.NewExecutor]
  match env.NewExecutor with
  | some err => (t, some err)
  | none =>
  let t := t ++ [Call.PlannerRead]
  match env.Read with
  | .error err => (t, some ("failed to read plan file: " ++ err))
  | .ok plan =>
  let t := t ++ [Call.ValidateNode]
  if env.ValidateNode newNode ≠ [] then
    (t ++ [Call.PrintValidationErrors], some "information provided about the new node is invalid")
  else
  let t := t ++ [Call.ValidatePlan]
  if env.ValidatePlan plan ≠ [] then
    (t ++ [Call.PrintValidationErrors], some "the plan file failed validation")
  else
  let t := t ++ [Call.ValidateSSHConnection]
  if env.ValidateSSHConnection plan.Cluster.SSH newNode ≠ [] then
    (t ++ [Call.PrintValidationErrors], some "could not establish SSH connection to the new node")
  else
  let t := t ++ [Call.ensureNodeIsNew]
  match ensureNodeIsNew plan newNode with
  | some err => (t, some err)
  | none =>
  let pre : List Call × Option String :=
    if !opts.SkipPreFlight then
      (t ++ [Call.PrintHeader, Call.RunNewNodePreFlightCheck], env.RunNewNodePreFlightCheck plan newNode)
    else (t, none)
  match pre with
  | (t, some err) => (t, some err)
  | (t, none) =>
  let t := t ++ [Call.AddNode]
  match env.AddNode plan newNode opts.Roles opts.RestartServices with
  | .error err => (t, some err)
  | .ok updatedPlan =>
  let t := t ++ [Call.PlannerWrite]
  match env.Write updatedPlan with
  | some err => (t, some ("error updating plan file to include the new node: " ++ err))
  | none => (t, none)

/-! ## Migration and defaulting (`pkg/install/plan.go`) -/

/-- Go constant `ket133PackageManagerProvider`. -/
def ket133PackageManagerProvider : String := "helm"

/-- Go constant `defaultCAExpiry`. -/
def defaultCAExpiry : String := "17520h"

/-- Go `fmt.Sprintf("%d", n)`: decimal digits, with a leading `-` when negative. -/
def sprintfD (n : Int) : String := toString n

/-- Go `fmt.Sprintf("%t", b)`. -/
def sprintfT (b : Bool) : String := if b then "true" else "false"

/-- Go `readDeprecatedFields(p)`: the plan `p` points to afterwards. -/
def readDeprecatedFields (p : Plan) : Plan :=
  -- package_manager moved from features: to add_ons: after KET v1.3.3
  let p : Plan :=
    match p.Features with
    | none => p
    | some features =>
      match features.PackageManager with
      | none => p
      | some pm =>
        let p := { p with AddOns.PackageManager.Disable := !pm.Enabled }
        { p with AddOns.PackageManager.Provider := ket133PackageManagerProvider }
  -- allow_package_installation renamed to disable_package_installation after KET v1.4.0
  let p : Plan :=
    match p.Cluster.AllowPackageInstallation with
    | none => p
    | some allow => { p with Cluster.DisablePackageInstallation := !allow }
  -- Only read the deprecated dashboard field if the new one is not set
  let p : Plan :=
    match p.AddOns.DashboardDeprecated with
    | none => p
    | some dep =>
      if p.AddOns.Dashboard = none then
        { p with AddOns.Dashboard := some { Disable := dep.Disable } }
      else p
  let p : Plan :=
    if p.DockerRegistry.Server = "" ∧ p.DockerRegistry.Address ≠ "" ∧ p.DockerRegistry.Port ≠ 0 then
      { p with DockerRegistry.Server :=
          p.DockerRegistry.Address ++ ":" ++ sprintfD p.DockerRegistry.Port }
    else p
  let p : Plan :=
    match p.Docker.Storage.DirectLVM with
    | none => p
    | some lvm =>
      if lvm.Enabled = true ∧ (p.Docker.Storage.Opts = none ∨ p.Docker.Storage.Opts.len = 0) then
        let p := { p with Docker.Storage.Driver := "devicemapper" }
        let p := { p with Docker.Storage.Opts := some [
          ("dm.thinpooldev", "/dev/mapper/docker-thinpool"),
          ("dm.use_deferred_removal", "true"),
          ("dm.use_deferred_deletion", sprintfT lvm.EnableDeferredDeletion)] }
        let p := { p with Docker.Storage.DirectLVMBlockDevice.Path := lvm.BlockDevice }
        let p := { p with Docker.Storage.DirectLVMBlockDevice.ThinpoolPercent := "95" }
        let p := { p with Docker.Storage.DirectLVMBlockDevice.ThinpoolMetaPercent := "1" }
        let p := { p with Docker.Storage.DirectLVMBlockDevice.ThinpoolAutoextendThreshold := "80" }
        let p := { p with Docker.Storage.DirectLVMBlockDevice.ThinpoolAutoextendPercent := "20" }
        { p with Docker.Storage.DirectLVM := none }
      else p
  p

/-- The guarded write `if _, ok := m[k]; !ok { m[k] = v }` of `setDefaults`;
`none` is the runtime error of writing to the nil map. -/
def setIfAbsent (m : StrMap) (k v : String) : Option StrMap :=
  if (m.get? k).isNone then m.set k v else some m

/-- Lines 152-155 of `setDefaults`: the cluster version. -/
def setDefaults.version (c : PackageConstants) (p : Plan) : Plan :=
  if p.Cluster.Version = "" then { p with Cluster.Version := c.kubernetesVersionString } else p

/-- Lines 157-163 of `setDefaults`: the Docker log driver and options. -/
def setDefaults.logs (p : Plan) : Plan :=
  if p.Docker.Logs.Driver = "" then
    let p := { p with Docker.Logs.Driver := "json-file" }
    { p with Docker.Logs.Opts := some [("max-size", "50m"), ("max-file", "1")] }
  else p

/-- Lines 165-177 of `setDefaults`: the device-mapper storage options, set
when creating a block device; `none` is the runtime error of writing to the
nil map. -/
def setDefaults.storageOpts (p : Plan) : Option Plan :=
  if p.Docker.Storage.Driver = "devicemapper" ∧ p.Docker.Storage.DirectLVMBlockDevice.Path ≠ "" then do
    let opts ← setIfAbsent p.Docker.Storage.Opts "dm.thinpooldev" "/dev/mapper/docker-thinpool"
    let opts ← setIfAbsent opts "dm.use_deferred_removal" "true"
    let opts ← setIfAbsent opts "dm.use_deferred_deletion" "false"
    pure { p with Docker.Storage.Opts := opts }
  else pure p

/-- Lines 178-189 of `setDefaults`: the four thin-pool percentages. -/
def setDefaults.thinpool (p : Plan) : Plan :=
  let p : Plan :=
    if p.Docker.Storage.DirectLVMBlockDevice.ThinpoolPercent = "" then
      { p with Docker.Storage.DirectLVMBlockDevice.ThinpoolPercent := "95" } else p
  let p : Plan :=
    if p.Docker.Storage.DirectLVMBlockDevice.ThinpoolMetaPercent = "" then
      { p with Docker.Storage.DirectLVMBlockDevice.ThinpoolMetaPercent := "1" } else p
  let p : Plan :=
    if p.Docker.Storage.DirectLVMBlockDevice.ThinpoolAutoextendThreshold = "" then
      { p with Docker.Storage.DirectLVMBlockDevice.ThinpoolAutoextendThreshold := "80" } else p
  let p : Plan :=
    if p.Docker.Storage.DirectLVMBlockDevice.ThinpoolAutoextendPercent = "" then
      { p with Docker.Storage.DirectLVMBlockDevice.ThinpoolAutoextendPercent := "20" } else p
  p

/-- Lines 191-214 of `setDefaults`: the CNI add-on; `cni` is the struct
`p.AddOns.CNI` points to. -/
def setDefaults.cni (c : PackageConstants) (p : Plan) : Plan :=
  let cni : CNI :=
    match p.AddOns.CNI with
    | none =>
      let cni : CNI := {}
      let cni := { cni with Provider := c.cniProviderCalico }
      let cni := { cni with Options.Calico.Mode := "overlay" }
      let cni := { cni with Options.Calico.LogLevel := "info" }
      -- read KET <v1.5.0 plan option
      if p.Cluster.Networking.Type_ ≠ "" then
        { cni with Options.Calico.Mode := p.Cluster.Networking.Type_ }
      else cni
    | some cni => cni
  let cni : CNI :=
    if cni.Options.Calico.LogLevel = "" then { cni with Options.Calico.LogLevel := "info" } else cni
  let cni : CNI :=
    if cni.Options.Calico.FelixInputMTU = 0 then { cni with Options.Calico.FelixInputMTU := 1440 } else cni
  let cni : CNI :=
    if cni.Options.Calico.WorkloadMTU = 0 then { cni with Options.Calico.WorkloadMTU := 1500 } else cni
  let cni : CNI :=
    if cni.Options.Calico.IPAutodetectionMethod = "" then
      { cni with Options.Calico.IPAutodetectionMethod := "first-found" } else cni
  { p with AddOns.CNI := some cni }

/-- Lines 216-218 of `setDefaults`: the DNS provider. -/
def setDefaults.dns (p : Plan) : Plan :=
  if p.AddOns.DNS.Provider = "" then { p with AddOns.DNS.Provider := "kubedns" } else p

/-- Lines 220-238 of `setDefaults`: the heapster add-on; `hm` is the struct
`p.AddOns.HeapsterMonitoring` points to. -/
def setDefaults.heapster (p : Plan) : Plan :=
  let hm : HeapsterMonitoring :=
    match p.AddOns.HeapsterMonitoring with
    | none => {}
    | some hm => hm
  let hm : HeapsterMonitoring :=
    if hm.Options.Heapster.Replicas = 0 then { hm with Options.Heapster.Replicas := 2 } else hm
  -- read field from KET < v1.5.0
  let hm : HeapsterMonitoring :=
    if hm.Options.HeapsterReplicas ≠ 0 then
      { hm with Options.Heapster.Replicas := hm.Options.HeapsterReplicas } else hm
  let hm : HeapsterMonitoring :=
    if hm.Options.Heapster.Sink = "" then
      { hm with Options.Heapster.Sink := "influxdb:http://heapster-influxdb.kube-system.svc:8086" }
    else hm
  let hm : HeapsterMonitoring :=
    if hm.Options.Heapster.ServiceType = "" then
      { hm with Options.Heapster.ServiceType := "ClusterIP" } else hm
  let hm : HeapsterMonitoring :=
    if hm.Options.InfluxDBPVCName ≠ "" then
      { hm with Options.InfluxDB.PVCName := hm.Options.InfluxDBPVCName } else hm
  { p with AddOns.HeapsterMonitoring := some hm }

/-- Lines 240-242 of `setDefaults`: the CA expiry. -/
def setDefaults.caExpiry (p : Plan) : Plan :=
  if p.Cluster.Certificates.CAExpiry = "" then
    { p with Cluster.Certificates.CAExpiry := defaultCAExpiry } else p

/-- Lines 244-246 of `setDefaults`: the dashboard add-on. -/
def setDefaults.dashboard (p : Plan) : Plan :=
  if p.AddOns.Dashboard = none then { p with AddOns.Dashboard := some {} } else p

/-- Lines 248-250 of `setDefaults`: the helm namespace. -/
def setDefaults.helmNamespace (p : Plan) : Plan :=
  if p.AddOns.PackageManager.Options.Helm.Namespace = "" then
    { p with AddOns.PackageManager.Options.Helm.Namespace := "kube-system" } else p

/-- Go `setDefaults(p)`: the plan `p` points to afterwards, or `none` when the
function stops with a runtime error (an entry written to a nil map).  The
statements of the Go function are the blocks above, run in source order. -/
def setDefaults (c : PackageConstants) (p : Plan) : Option Plan := do
  let p := setDefaults.version c p
  let p := setDefaults.logs p
  let p ← setDefaults.storageOpts p
  let p := setDefaults.thinpool p
  let p := setDefaults.cni c p
  let p := setDefaults.dns p
  let p := setDefaults.heapster p
  let p := setDefaults.caExpiry p
  let p := setDefaults.dashboard p
  let p := setDefaults.helmNamespace p
  pure p

/-- The load pipeline of `FilePlanner.Read` after unmarshalling:
`readDeprecatedFields(p)` then `setDefaults(p)`. -/
def readPipeline (c : PackageConstants) (p : Plan) : Option Plan :=
  setDefaults c (readDeprecatedFields p)

/-! ## Blocks and closed forms of `readDeprecatedFields` and `setDefaults`

The blocks of `readDeprecatedFields` below are its five statements, each as a
function of the plan; `readDeprecatedFields` is their composition.  The closed
forms give the value of every field of the result of `readDeprecatedFields`
and of `setDefaults` in terms of the fields of the input. -/

/-- Block of `readDeprecatedFields`: the legacy `features.package_manager`. -/
def readDeprecatedFields.packageManager (p : Plan) : Plan :=
  match p.Features with
  | none => p
  | some features =>
    match features.PackageManager with
    | none => p
    | some pm =>
      let p := { p with AddOns.PackageManager.Disable := !pm.Enabled }
      { p with AddOns.PackageManager.Provider := ket133PackageManagerProvider }

/-- Block of `readDeprecatedFields`: the legacy `allow_package_installation`. -/
def readDeprecatedFields.allowPackageInstallation (p : Plan) : Plan :=
  match p.Cluster.AllowPackageInstallation with
  | none => p
  | some allow => { p with Cluster.DisablePackageInstallation := !allow }

/-- Block of `readDeprecatedFields`: the deprecated dashboard toggle. -/
def readDeprecatedFields.dashboard (p : Plan) : Plan :=
  match p.AddOns.DashboardDeprecated with
  | none => p
  | some dep =>
    if p.AddOns.Dashboard = none then
      { p with AddOns.Dashboard := some { Disable := dep.Disable } }
    else p

/-- Block of `readDeprecatedFields`: the registry address and port. -/
def readDeprecatedFields.registry (p : Plan) : Plan :=
  if p.DockerRegistry.Server = "" ∧ p.DockerRegistry.Address ≠ "" ∧ p.DockerRegistry.Port ≠ 0 then
    { p with DockerRegistry.Server :=
        p.DockerRegistry.Address ++ ":" ++ sprintfD p.DockerRegistry.Port }
  else p

/-- Block of `readDeprecatedFields`: the legacy direct-LVM options. -/
def readDeprecatedFields.directLVM (p : Plan) : Plan :=
  match p.Docker.Storage.DirectLVM with
  | none => p
  | some lvm =>
    if lvm.Enabled = true ∧ (p.Docker.Storage.Opts = none ∨ p.Docker.Storage.Opts.len = 0) then
      let p := { p with Docker.Storage.Driver := "devicemapper" }
      let p := { p with Docker.Storage.Opts := some [
        ("dm.thinpooldev", "/dev/mapper/docker-thinpool"),
        ("dm.use_deferred_removal", "true"),
        ("dm.use_deferred_deletion", sprintfT lvm.EnableDeferredDeletion)] }
      let p := { p with Docker.Storage.DirectLVMBlockDevice.Path := lvm.BlockDevice }
      let p := { p with Docker.Storage.DirectLVMBlockDevice.ThinpoolPercent := "95" }
      let p := { p with Docker.Storage.DirectLVMBlockDevice.ThinpoolMetaPercent := "1" }
      let p := { p with Docker.Storage.DirectLVMBlockDevice.ThinpoolAutoextendThreshold := "80" }
      let p := { p with Docker.Storage.DirectLVMBlockDevice.ThinpoolAutoextendPercent := "20" }
      { p with Docker.Storage.DirectLVM := none }
    else p

/-- Closed form: the package-manager add-on after migration. -/
def migratePackageManager (f : Option Features) (pm : PackageManager) : PackageManager :=
  match f with
  | none => pm
  | some features =>
    match features.PackageManager with
    | none => pm
    | some d => { pm with Disable := !d.Enabled, Provider := ket133PackageManagerProvider }

/-- Closed form: `DisablePackageInstallation` after migration. -/
def migrateDisable (cl : Cluster) : Bool :=
  match cl.AllowPackageInstallation with
  | none => cl.DisablePackageInstallation
  | some allow => !allow

/-- Closed form: the dashboard pointer after migration. -/
def migrateDashboard (a : AddOns) : Option Dashboard :=
  match a.DashboardDeprecated with
  | none => a.Dashboard
  | some dep => if a.Dashboard = none then some { Disable := dep.Disable } else a.Dashboard

/-- Closed form: the registry server after migration. -/
def migrateServer (r : DockerRegistry) : String :=
  if r.Server = "" ∧ r.Address ≠ "" ∧ r.Port ≠ 0 then r.Address ++ ":" ++ sprintfD r.Port
  else r.Server

/-- Closed form: the Docker storage block after migration. -/
def migrateStorage (s : DockerStorage) : DockerStorage :=
  match s.DirectLVM with
  | none => s
  | some lvm =>
    if lvm.Enabled = true ∧ (s.Opts = none ∨ s.Opts.len = 0) then
      { Driver := "devicemapper",
        Opts := some [
          ("dm.thinpooldev", "/dev/mapper/docker-thinpool"),
          ("dm.use_deferred_removal", "true"),
          ("dm.use_deferred_deletion", sprintfT lvm.EnableDeferredDeletion)],
        DirectLVMBlockDevice :=
          { Path := lvm.BlockDevice, ThinpoolPercent := "95", ThinpoolMetaPercent := "1",
            ThinpoolAutoextendThreshold := "80", ThinpoolAutoextendPercent := "20" },
        DirectLVM := none }
    else s

/-- Closed form of `readDeprecatedFields`. -/
def readDeprecatedFields.closedForm (p : Plan) : Plan :=
  { p with
    Cluster := { p.Cluster with DisablePackageInstallation := migrateDisable p.Cluster },
    Docker := { p.Docker with Storage := migrateStorage p.Docker.Storage },
    DockerRegistry := { p.DockerRegistry with Server := migrateServer p.DockerRegistry },
    AddOns := { p.AddOns with
      PackageManager := migratePackageManager p.Features p.AddOns.PackageManager,
      Dashboard := migrateDashboard p.AddOns } }

/-- Closed form: the value a string field gets from its guarded default. -/
def orDefault (v d : String) : String := if v = "" then d else v

/-- Closed form: the value an integer field gets from its guarded default. -/
def orDefaultInt (v d : Int) : Int := if v = 0 then d else v

/-- Closed form: the Docker log block after defaulting. -/
def defaultLogs (l : DockerLogs) : DockerLogs :=
  if l.Driver = "" then
    { Driver := "json-file", Opts := some [("max-size", "50m"), ("max-file", "1")] }
  else l

/-- Closed form: the storage options after defaulting; `none` is the runtime
error of writing to the nil map. -/
def defaultStorageOpts (s : DockerStorage) : Option StrMap :=
  if s.Driver = "devicemapper" ∧ s.DirectLVMBlockDevice.Path ≠ "" then
    (setIfAbsent s.Opts "dm.thinpooldev" "/dev/mapper/docker-thinpool").bind fun opts =>
    (setIfAbsent opts "dm.use_deferred_removal" "true").bind fun opts =>
    setIfAbsent opts "dm.use_deferred_deletion" "false"
  else some s.Opts

/-- Closed form: the block device after defaulting. -/
def defaultBlockDevice (b : DirectLVMBlockDevice) : DirectLVMBlockDevice :=
  { Path := b.Path,
    ThinpoolPercent := orDefault b.ThinpoolPercent "95",
    ThinpoolMetaPercent := orDefault b.ThinpoolMetaPercent "1",
    ThinpoolAutoextendThreshold := orDefault b.ThinpoolAutoextendThreshold "80",
    ThinpoolAutoextendPercent := orDefault b.ThinpoolAutoextendPercent "20" }

/-- Closed form: the CNI add-on after defaulting; `ty` is the legacy
`Cluster.Networking.Type`. -/
def defaultCNI (c : PackageConstants) (ty : String) (o : Option CNI) : CNI :=
  match o with
  | none =>
    { Provider := c.cniProviderCalico,
      Options := { Calico :=
        { Mode := if ty ≠ "" then ty else "overlay",
          LogLevel := "info",
          WorkloadMTU := 1500,
          FelixInputMTU := 1440,
          IPAutodetectionMethod := "first-found" } } }
  | some cni =>
    { Provider := cni.Provider,
      Options := { Calico :=
        { Mode := cni.Options.Calico.Mode,
          LogLevel := orDefault cni.Options.Calico.LogLevel "info",
          WorkloadMTU := orDefaultInt cni.Options.Calico.WorkloadMTU 1500,
          FelixInputMTU := orDefaultInt cni.Options.Calico.FelixInputMTU 1440,
          IPAutodetectionMethod := orDefault cni.Options.Calico.IPAutodetectionMethod "first-found" } } }

/-- Closed form: the heapster options after defaulting. -/
def defaultHeapsterOptions (o : HeapsterOptions) : HeapsterOptions :=
  { Heapster :=
      { Replicas := if o.HeapsterReplicas ≠ 0 then o.HeapsterReplicas
          else orDefaultInt o.Heapster.Replicas 2,
        ServiceType := orDefault o.Heapster.ServiceType "ClusterIP",
        Sink := orDefault o.Heapster.Sink "influxdb:http://heapster-influxdb.kube-system.svc:8086" },
    InfluxDB := { PVCName := if o.InfluxDBPVCName ≠ "" then o.InfluxDBPVCName else o.InfluxDB.PVCName },
    HeapsterReplicas := o.HeapsterReplicas,
    InfluxDBPVCName := o.InfluxDBPVCName }

/-- Closed form: the heapster add-on after defaulting. -/
def defaultHeapster (o : Option HeapsterMonitoring) : HeapsterMonitoring :=
  match o with
  | none => { Options := defaultHeapsterOptions {} }
  | some hm => { Options := defaultHeapsterOptions hm.Options }

/-- Closed form: the dashboard add-on after defaulting. -/
def defaultDashboard (o : Option Dashboard) : Dashboard :=
  match o with
  | none => {}
  | some d => d

/-- Closed form of `setDefaults` on a plan whose storage options come out as
`opts`. -/
def setDefaults.closedForm (c : PackageConstants) (p : Plan) (opts : StrMap) : Plan :=
  { p with
    Cluster := { p.Cluster with
      Version := if p.Cluster.Version = "" then c.kubernetesVersionString else p.Cluster.Version,
      Certificates := { p.Cluster.Certificates with
        CAExpiry := orDefault p.Cluster.Certificates.CAExpiry defaultCAExpiry } },
    Docker := { p.Docker with
      Logs := defaultLogs p.Docker.Logs,
      Storage := { p.Docker.Storage with
        Opts := opts,
        DirectLVMBlockDevice := defaultBlockDevice p.Docker.Storage.DirectLVMBlockDevice } },
    AddOns := { p.AddOns with
      CNI := some (defaultCNI c p.Cluster.Networking.Type_ p.AddOns.CNI),
      DNS := { p.AddOns.DNS with Provider := orDefault p.AddOns.DNS.Provider "kubedns" },
      HeapsterMonitoring := some (defaultHeapster p.AddOns.HeapsterMonitoring),
      Dashboard := some (defaultDashboard p.AddOns.Dashboard),
      PackageManager := { p.AddOns.PackageManager with
        Options := { p.AddOns.PackageManager.Options with
          Helm := { p.AddOns.PackageManager.Options.Helm with
            Namespace := orDefault p.AddOns.PackageManager.Options.Helm.Namespace "kube-system" } } } } }

/-! ## Specification-side definitions -/

/-- The identity field a duplicate-node error names. -/
inductive Field where
  | hostName
  | IP
  | internalIP
  deriving DecidableEq, Repr

/-- The pool a duplicate-node error names. -/
inductive Pool where
  | worker
  | ingress
  | storage
  deriving DecidableEq, Repr

/-- The words by which an error message names a field. -/
def Field.words : Field → String
  | .hostName => "host name"
  | .IP => "IP"
  | .internalIP => "internal IP"

/-- The word by which an error message names a pool. -/
def Pool.words : Pool → String
  | .worker => "worker"
  | .ingress => "ingress"
  | .storage => "storage"

/-- The duplicate-node error naming field `f` and pool `r`. -/
def duplicateNodeMessage (f : Field) (r : Pool) : String :=
  "according to the plan file, the " ++ f.words
    ++ " of the new node is already being used by another " ++ r.words ++ " node"

/-- From the specification: the first failing check of the candidate against
the existing node `n`, in the order host name, IP, internal IP (the last only
for a candidate with a non-empty internal IP). -/
def firstFailingCheck (newNode n : Node) : Option Field :=
  if n.Host = newNode.Host then some .hostName
  else if n.IP = newNode.IP then some .IP
  else if newNode.InternalIP ≠ "" ∧ n.InternalIP = newNode.InternalIP then some .internalIP
  else none

/-- From the specification: the existing node `n` collides with the candidate. -/
def collidesWith (newNode n : Node) : Bool :=
  (firstFailingCheck newNode n).isSome

/-- From the specification: the field and pool of the first collision.  The
pool is the first of worker, ingress, storage that contains a colliding node,
the field the first failing check on the first colliding node of that pool. -/
def firstCollision (plan : Plan) (newNode : Node) : Option (Field × Pool) :=
  match [(Pool.worker, plan.Worker.Nodes), (Pool.ingress, plan.Ingress.Nodes),
      (Pool.storage, plan.Storage.Nodes)].find? (fun pr => pr.2.any (collidesWith newNode)) with
  | none => none
  | some (pool, nodes) =>
    match nodes.find? (collidesWith newNode) with
    | none => none
    | some n => (firstFailingCheck newNode n).map (fun f => (f, pool))

/-- Two nodes share a `Host`, an `IP`, or a non-empty `InternalIP`. -/
def sharesIdentity (a b : Node) : Prop :=
  a.Host = b.Host ∨ a.IP = b.IP ∨ (a.InternalIP ≠ "" ∧ a.InternalIP = b.InternalIP)

/-- Cross-pool uniqueness: no two nodes in the union of the Worker, Ingress
and Storage pools share an identity field. -/
def crossPoolUnique (plan : Plan) : Prop :=
  (plan.Worker.Nodes ++ plan.Ingress.Nodes ++ plan.Storage.Nodes).Pairwise
    (fun a b => ¬ sharesIdentity a b)

/-- The field reported for a pool: the first failing check on its first
colliding node. -/
def poolCollision (newNode : Node) (nodes : List Node) : Option Field :=
  (nodes.find? (collidesWith newNode)).bind (firstFailingCheck newNode)

/-- A plan with one worker and one ingress node, used as a concrete input. -/
def examplePlan : Plan :=
  { Worker := { Nodes := [{ Host := "a", IP := "1.1.1.1" }] },
    Ingress := { Nodes := [{ Host := "i", IP := "1.1.1.2", InternalIP := "10.0.0.2" }] } }

/-- A candidate node that collides with no node of `examplePlan`. -/
def exampleNode : Node := { Host := "b", IP := "3.3.3.3", InternalIP := "10.0.0.3" }

/-- Collaborators that all succeed, reading `examplePlan`; used as a concrete
input. -/
def exampleCollaborators : Collaborators :=
  { NewExecutor := none,
    Read := .ok examplePlan,
    ValidateNode := fun _ => [],
    ValidatePlan := fun _ => [],
    ValidateSSHConnection := fun _ _ => [],
    RunNewNodePreFlightCheck := fun _ _ => none,
    AddNode := fun plan _ _ _ => .ok plan,
    Write := fun _ => none }

/-- Sample values for the package constants, used as a concrete input. -/
def exampleConstants : PackageConstants :=
  { kubernetesVersionString := "v1.10.5", cniProviderCalico := "calico", cniProviderWeave := "weave" }

/-- A plan as unmarshalled from a document that sets a device-mapper block
device with one storage option, the DNS provider and the legacy networking
type; used as a concrete input. -/
def exampleRawPlan : Plan :=
  { Cluster := { Name := "kubernetes", Networking := { Type_ := "routed" } },
    Docker := { Storage :=
      { Driver := "devicemapper", Opts := some [("dm.use_deferred_deletion", "true")],
        DirectLVMBlockDevice := { Path := "/dev/sdb" } } },
    AddOns := { DNS := { Provider := "coredns" } },
    Worker := { ExpectedCount := 1, Nodes := [{ Host := "a", IP := "1.1.1.1" }] } }

/-- The plan `setDefaults` makes of `exampleRawPlan` under `exampleConstants`. -/
def exampleDefaultedPlan : Plan :=
  { Cluster :=
      { Name := "kubernetes", Version := "v1.10.5", Networking := { Type_ := "routed" },
        Certificates := { CAExpiry := "17520h" } },
    Docker :=
      { Logs := { Driver := "json-file", Opts := some [("max-size", "50m"), ("max-file", "1")] },
        Storage :=
          { Driver := "devicemapper",
            Opts := some [("dm.use_deferred_deletion", "true"),
              ("dm.thinpooldev", "/dev/mapper/docker-thinpool"), ("dm.use_deferred_removal", "true")],
            DirectLVMBlockDevice :=
              { Path := "/dev/sdb", ThinpoolPercent := "95", ThinpoolMetaPercent := "1",
                ThinpoolAutoextendThreshold := "80", ThinpoolAutoextendPercent := "20" } } },
    AddOns :=
      { CNI := some { Provider := "calico", Options := { Calico :=
          { Mode := "routed", LogLevel := "info", WorkloadMTU := 1500, FelixInputMTU := 1440,
            IPAutodetectionMethod := "first-found" } } },
        DNS := { Provider := "coredns" },
        HeapsterMonitoring := some { Options := { Heapster :=
          { Replicas := 2, ServiceType := "ClusterIP",
            Sink := "influxdb:http://heapster-influxdb.kube-system.svc:8086" } } },
        Dashboard := some {},
        PackageManager := { Options := { Helm := { Namespace := "kube-system" } } } },
    Worker := { ExpectedCount := 1, Nodes := [{ Host := "a", IP := "1.1.1.1" }] } }

/-- A plan whose CNI block is present and names only the provider; used as a
concrete input. -/
def exampleWeavePlan : Plan := { AddOns := { CNI := some { Provider := "weave" } } }

/-- The plan `setDefaults` makes of `exampleWeavePlan` under `exampleConstants`. -/
def exampleDefaultedWeavePlan : Plan :=
  { Cluster := { Version := "v1.10.5", Certificates := { CAExpiry := "17520h" } },
    Docker :=
      { Logs := { Driver := "json-file", Opts := some [("max-size", "50m"), ("max-file", "1")] },
        Storage := { DirectLVMBlockDevice :=
          { ThinpoolPercent := "95", ThinpoolMetaPercent := "1",
            ThinpoolAutoextendThreshold := "80", ThinpoolAutoextendPercent := "20" } } },
    AddOns :=
      { CNI := some { Provider := "weave", Options := { Calico :=
          { LogLevel := "info", WorkloadMTU := 1500, FelixInputMTU := 1440,
            IPAutodetectionMethod := "first-found" } } },
        DNS := { Provider := "kubedns" },
        HeapsterMonitoring := some { Options := { Heapster :=
          { Replicas := 2, ServiceType := "ClusterIP",
            Sink := "influxdb:http://heapster-influxdb.kube-system.svc:8086" } } },
        Dashboard := some {},
        PackageManager := { Options := { Helm := { Namespace := "kube-system" } } } } }

/-- A plan as unmarshalled from a legacy document: every deprecated field is
set; used as a concrete input. -/
def exampleLegacyPlan : Plan :=
  { Cluster := { AllowPackageInstallation := some true, DisablePackageInstallation := true },
    Docker :=
      { Storage :=
          { DirectLVM :=
              some { Enabled := true, BlockDevice := "/dev/sdb", EnableDeferredDeletion := true } } },
    DockerRegistry := { Address := "registry.local", Port := 8443 },
    AddOns :=
      { PackageManager := { Disable := true },
        DashboardDeprecated := some { Disable := true } },
    Features := some { PackageManager := some { Enabled := true } } }

/-- A plan whose package-manager add-on is set by the user while the legacy
feature flag is present too; used as a concrete input. -/
def exampleUserPackageManagerPlan : Plan :=
  { AddOns := { PackageManager := { Disable := true, Provider := "tiller" } },
    Features := some { PackageManager := some { Enabled := true } } }

/-! ## Reading a plan (`FilePlanner.Read`) -/

/-- Go `install.InstallOpts`. -/
structure InstallOpts where
  PlanFile : String := ""
  GeneratedDir : String := ""
  deriving DecidableEq, Repr

/-- Go `type FilePlanner = InstallOpts`. -/
abbrev FilePlanner := InstallOpts

/-- What the libraries `FilePlanner.Read` calls answer: `ioutil.ReadFile` on a
path gives the file's content or an error, `yaml.Unmarshal` of a content into
an empty `Plan` gives the filled plan or an error. -/
structure ReadCollaborators where
  ReadFile : String → Except String String
  Unmarshal : String → Except String Plan

/-- Go `(fp *FilePlanner) Read()`: `some (plan, err)` is the returned pair
(`none` for a nil plan or a nil error); the outer `none` is the runtime error
`setDefaults` can stop with. -/
def FilePlanner.Read (env : ReadCollaborators) (c : PackageConstants) (fp : FilePlanner) :
    Option (Option Plan × Option String) :=
  match env.ReadFile fp.PlanFile with
  | .error err => some (none, some ("could not read file: " ++ err))
  | .ok d =>
    match env.Unmarshal d with
    | .error err => some (none, some ("failed to unmarshal plan: " ++ err))
    | .ok p =>
      -- read deprecated fields and set it the new version of the cluster file
      let p := readDeprecatedFields p
      -- set nil values to defaults
      match setDefaults c p with
      | none => none
      | some p => some (some p, none)

/-- A file system holding one plan file, whose document unmarshals to
`exampleLegacyPlan`; used as a concrete input. -/
def exampleReadCollaborators : ReadCollaborators :=
  { ReadFile := fun path =>
      if path = "clusters/kubernetes/kismatic-cluster.yaml" then .ok "legacy document"
      else .error "open: no such file or directory",
    Unmarshal := fun d =>
      if d = "legacy document" then .ok exampleLegacyPlan
      else .error "yaml: unmarshal errors" }

/-! ## Writing a plan (`FilePlanner.Write`): the scan loop -/

/-- Go `map[string][]string`, the type of `commentMap`, by its entries. -/
abbrev CommentTable := List (String × List String)

/-- Go `v, ok := m[k]` on a comment table. -/
def CommentTable.get? (m : CommentTable) (k : String) : Option (List String) :=
  match m with
  | [] => none
  | (k', v) :: rest => if k' = k then some v else CommentTable.get? rest k

/-- Go `delete(m, k)` on a comment table. -/
def CommentTable.delete (m : CommentTable) (k : String) : CommentTable :=
  m.filter (fun e => e.1 ≠ k)

/-- The character class `[a-zA-Z]`. -/
def isLetter (c : Char) : Bool :=
  (decide ('a' ≤ c) && decide (c ≤ 'z')) || (decide ('A' ≤ c) && decide (c ≤ 'Z'))

/-- The character class `[a-z_\-A-Z.\d]` of the capture group of `yamlKeyRE`. -/
def isKeyChar (c : Char) : Bool :=
  isLetter c || c = '_' || c = '-' || c = '.' || (decide ('0' ≤ c) && decide (c ≤ '9'))

/-- The tail `([a-z_\-A-Z.\d]+)[ ]*:` of `yamlKeyRE`, matched at the head of
`cs`: the matched characters and the capture group.  A greedy run of key
characters can only be followed by the rest of the pattern when it is
maximal, and so can the run of blanks. -/
def yamlKeyRE.keyColon (cs : List Char) : Option (List Char × List Char) :=
  let key := cs.takeWhile isKeyChar
  let rest := cs.dropWhile isKeyChar
  let blanks := rest.takeWhile (fun c => c = ' ')
  match key, rest.dropWhile (fun c => c = ' ') with
  | [], _ => none
  | _ :: _, ':' :: _ => some (key ++ blanks ++ [':'], key)
  | _ :: _, _ => none

/-- The pattern `[^a-zA-Z]*([a-z_\-A-Z.\d]+)[ ]*:` matched at the head of `cs`:
the greedy star first tries to take one more non-letter and gives it back
when the rest does not match. -/
def yamlKeyRE.matchHere : List Char → Option (List Char × List Char)
  | [] => yamlKeyRE.keyColon []
  | c :: rest =>
    if isLetter c then yamlKeyRE.keyColon (c :: rest)
    else
      match yamlKeyRE.matchHere rest with
      | some (m, key) => some (c :: m, key)
      | none => yamlKeyRE.keyColon (c :: rest)

/-- The leftmost match of `yamlKeyRE` in `cs`. -/
def yamlKeyRE.find : List Char → Option (List Char × List Char)
  | [] => yamlKeyRE.matchHere []
  | c :: rest =>
    match yamlKeyRE.matchHere (c :: rest) with
    | some r => some r
    | none => yamlKeyRE.find rest

/-- Go `yamlKeyRE.FindStringSubmatch(text)` for
`yamlKeyRE = [^a-zA-Z]*([a-z_\-A-Z.\d]+)[ ]*:`: `none` is the nil slice,
`some (m0, m1)` the slice `[m0, m1]` of the whole match and the key. -/
def yamlKeyRE.FindStringSubmatch (text : String) : Option (String × String) :=
  (yamlKeyRE.find text.data).map (fun r => (String.mk r.1, String.mk r.2))

/-- Go `strings.Count(s, " ")`. -/
def countBlanks (s : String) : Nat := s.data.count ' '

/-- Whether `sub` occurs in `cs` as a run of consecutive characters. -/
def containsChars (sub : List Char) : List Char → Bool
  | [] => sub.isEmpty
  | c :: cs => sub.isPrefixOf (c :: cs) || containsChars sub cs

/-- Go `strings.Contains(s, substr)`. -/
def stringsContains (s substr : String) : Bool := containsChars substr.data s.data

/-- Go `strings.Repeat(" ", n)`. -/
def blanks (n : Nat) : String := String.mk (List.replicate n ' ')

/-- Go `countLeadingSpace(s)`. -/
def countLeadingSpace (s : String) : Nat := (s.data.takeWhile (fun r => r = ' ')).length

/-- Go `getCommentedLine(line, commentLines, addNewLine)`; `b` is the buffer. -/
def getCommentedLine (line : String) (commentLines : List String) (addNewLine : Bool) : String :=
  let b := ""
  -- Print out a new line before each comment block
  let b := if addNewLine then b ++ "\n" else b
  -- Print out the comment lines
  let b := commentLines.foldl (fun b c => (b ++ blanks (countLeadingSpace line)) ++ ("# " ++ c ++ "\n")) b
  -- Print out the line
  b ++ (line ++ "\n")

/-- Go `(s *stack) Pop()` on the slice `s.s`: the popped value and the rest,
or the error. -/
def stackPop (s : List String) : Except String (String × List String) :=
  if s.length = 0 then .error "Empty Stack"
  else .ok (s.getLast?.getD "", s.dropLast)

/-- The loop `for i := 0; i <= (prevIndent - indent); i++ { s.Pop() }` with
`n` iterations left: the stack afterwards, or the error of the first failing
`Pop`. -/
def popLoop : Nat → List String → Except String (List String)
  | 0, s => .ok s
  | n + 1, s =>
    match stackPop s with
    | .error err => .error err
    | .ok (_, s') => popLoop n s'

/-- The variables of the scan loop of `FilePlanner.Write`, and the strings
written to the file so far (one per `f.WriteString` call, in order). -/
structure ScanState where
  s : List String := []
  prevIndent : Int := -1
  addNewLineBeforeComment : Bool := true
  etcdBlock : Bool := false
  oneTimeComments : CommentTable := []
  written : List String := []
  deriving DecidableEq, Repr

/-- Lines 286-289 of `FilePlanner.Write`: figure out if we are in the etcd
block. -/
def scanLine.etcd (st : ScanState) (indent : Int) (text : String) : ScanState :=
  if indent = 0 then { st with etcdBlock := (text == "etcd:") } else st

/-- Lines 295-302 of `FilePlanner.Write`: add a new line if we are leaving a
major indentation block, and suppress the new line that would be added if
this field has a comment. -/
def scanLine.leave (st : ScanState) (indent : Int) : ScanState :=
  if indent < st.prevIndent then
    { st with written := st.written ++ ["\n"], addNewLineBeforeComment := false }
  else st

/-- Lines 303-311 of `FilePlanner.Write`: pop from the stack when we have left
an object; the stack afterwards, or the error of a failing `Pop`. -/
def scanLine.pop (st : ScanState) (indent : Int) : Except String (List String) :=
  if indent ≤ st.prevIndent then popLoop (st.prevIndent - indent + 1).toNat st.s
  else .ok st.s

/-- Lines 312-313 of `FilePlanner.Write`, with `s` the stack the pops have
left: push the key and record the indentation level. -/
def scanLine.push (st : ScanState) (s : List String) (m1 : String) (indent : Int) : ScanState :=
  { st with s := s ++ [m1], prevIndent := indent }

/-- Lines 325-329 of `FilePlanner.Write`: we don't want to comment this line,
just print it out. -/
def scanLine.plain (st : ScanState) (text : String) : ScanState :=
  { st with written := st.written ++ [text ++ "\n"], addNewLineBeforeComment := true }

/-- Lines 315-329 of `FilePlanner.Write`, after the push of the key `m1`: on a
full key match print the commented line and delete the entry of `m1`,
otherwise print the line. -/
def scanLine.print (st : ScanState) (text m1 : String) : ScanState :=
  match st.oneTimeComments.get? (".".intercalate st.s) with
  | some thiscomment =>
    { st with
      written := st.written ++ [getCommentedLine text thiscomment st.addNewLineBeforeComment],
      oneTimeComments := st.oneTimeComments.delete m1,
      addNewLineBeforeComment := true }
  | none => scanLine.plain st text

/-- One iteration of `for scanner.Scan()` in `FilePlanner.Write`, on the line
`text`: the state afterwards, and the error when the iteration returns one
(`none` when the loop goes on).  Writes to the file are taken to succeed. -/
def scanLine (st : ScanState) (text : String) : ScanState × Option String :=
  match yamlKeyRE.FindStringSubmatch text with
  | some (m0, m1) =>
    let indent : Int := ((countBlanks m0 / 2 : Nat) : Int)
    let st := scanLine.etcd st indent text
    -- Don't print labels: {} for etcd group
    if st.etcdBlock && stringsContains text "labels: \x7b\x7d" then (st, none)
    else
      let st := scanLine.leave st indent
      match scanLine.pop st indent with
      | .error err => (st, some err)
      | .ok s => (scanLine.print (scanLine.push st s m1 indent) text m1, none)
  | none => (scanLine.plain st text, none)

/-- The scan loop of `FilePlanner.Write` over the lines the scanner yields:
the state at the end of the loop or at the failing iteration, and the error. -/
def scanLoop (st : ScanState) : List String → ScanState × Option String
  | [] => (st, none)
  | text :: rest =>
    match scanLine st text with
    | (st', some err) => (st', some err)
    | (st', none) => scanLoop st' rest

/-- The state in which `FilePlanner.Write` enters its scan loop;
`oneTimeComments` is the copy it made of the comment table. -/
def scanStart (comments : CommentTable) : ScanState :=
  { s := [], prevIndent := -1, addNewLineBeforeComment := true, etcdBlock := false,
    oneTimeComments := comments, written := [] }

/-- The file content after the writes `written`. -/
def fileContent (written : List String) : String := String.join written

/-- Go `commentMap`.  `quotedMinorVersion` stands for
`fmt.Sprintf("%q", kubernetesMinorVersionString)`, a constant declared outside
`plan.go`. -/
def commentMap (quotedMinorVersion : String) : CommentTable :=
  [
    ("cluster.admin_password",
      ["This password is used to login to the Kubernetes Dashboard and can also be",
        "used for administration without a security certificate."]),
    ("cluster.version",
      ["Kubernetes cluster version (supported minor version " ++ quotedMinorVersion ++ ")."]),
    ("cluster.disable_package_installation",
      ["Set to true if the nodes have the required packages installed."]),
    ("cluster.disconnected_installation",
      ["Set to true if you are performing a disconnected installation."]),
    ("cluster.networking", ["Networking configuration of your cluster."]),
    ("cluster.networking.pod_cidr_block",
      ["Kubernetes will assign pods IPs in this range. Do not use a range that is",
        "already in use on your local network!"]),
    ("cluster.networking.service_cidr_block",
      ["Kubernetes will assign services IPs in this range. Do not use a range",
        "that is already in use by your local network or pod network!"]),
    ("cluster.networking.update_hosts_files",
      ["Set to true if your nodes cannot resolve each others' names using DNS."]),
    ("cluster.networking.http_proxy", ["Set the proxy server to use for HTTP connections."]),
    ("cluster.networking.https_proxy", ["Set the proxy server to use for HTTPs connections."]),
    ("cluster.networking.no_proxy",
      ["List of host names and/or IPs that shouldn't go through any proxy.",
        "All nodes' 'host' and 'IPs' are always set."]),
    ("cluster.certificates", ["Generated certs configuration."]),
    ("cluster.certificates.expiry",
      ["Self-signed certificate expiration period in hours; default is 2 years."]),
    ("cluster.certificates.ca_expiry",
      ["CA certificate expiration period in hours; default is 2 years."]),
    ("cluster.ssh", ["SSH configuration for cluster nodes."]),
    ("cluster.ssh.user", ["This user must be able to sudo without password."]),
    ("cluster.ssh.ssh_key", ["Absolute path to the ssh private key we should use to manage nodes."]),
    ("cluster.kube_apiserver", ["Override configuration of Kubernetes components."]),
    ("cluster.cloud_provider", ["Kubernetes cloud provider integration."]),
    ("cluster.cloud_provider.provider",
      ["Options: 'aws','azure','cloudstack','fake','gce','mesos','openstack',",
        "'ovirt','photon','rackspace','vsphere'.",
        "Leave empty for bare metal setups or other unsupported providers."]),
    ("cluster.cloud_provider.config",
      ["Path to the config file, leave empty if provider does not require it."]),
    ("docker", ["Docker daemon configuration of all cluster nodes."]),
    ("docker.disable", ["Set to true if docker is already installed and configured."]),
    ("docker.storage.driver", ["Leave empty to have docker automatically select the driver."]),
    ("docker.storage.direct_lvm_block_device",
      ["Used for setting up Device Mapper storage driver in direct-lvm mode."]),
    ("docker.storage.direct_lvm_block_device.path",
      ["Absolute path to the block device that will be used for direct-lvm mode.",
        "This device will be wiped and used exclusively by docker."]),
    ("docker_registry",
      ["If you want to use an internal registry for the installation or upgrade, you",
        "must provide its information here. You must seed this registry before the",
        "installation or upgrade of your cluster. This registry must be accessible from",
        "all nodes on the cluster."]),
    ("docker_registry.server", ["IP or hostname and port for your registry."]),
    ("docker_registry.CA",
      ["Absolute path to the certificate authority that should be trusted when",
        "connecting to your registry."]),
    ("docker_registry.username", ["Leave blank for unauthenticated access."]),
    ("docker_registry.password", ["Leave blank for unauthenticated access."]),
    ("add_ons", ["Add-ons are additional components that KET installs on the cluster."]),
    ("add_ons.cni.provider",
      ["Selecting 'custom' will result in a CNI ready cluster, however it is up to",
        "you to configure a plugin after the install.",
        "Options: 'calico','weave','contiv','custom'."]),
    ("add_ons.cni.options.calico.mode", ["Options: 'overlay','routed'."]),
    ("add_ons.cni.options.calico.log_level", ["Options: 'warning','info','debug'."]),
    ("add_ons.cni.options.calico.workload_mtu",
      ["MTU for the workload interface, configures the CNI config."]),
    ("add_ons.cni.options.calico.felix_input_mtu",
      ["MTU for the tunnel device used if IPIP is enabled."]),
    ("add_ons.cni.options.calico.ip_autodetection_method",
      ["Used to detect the IPv4 address of the host."]),
    ("add_ons.dns.provider", ["Options: 'kubedns','coredns'."]),
    ("add_ons.heapster.options.influxdb.pvc_name",
      ["Provide the name of the persistent volume claim that you will create",
        "after installation. If not specified, the data will be stored in",
        "ephemeral storage."]),
    ("add_ons.heapster.options.heapster.service_type",
      ["Specify kubernetes ServiceType. Defaults to 'ClusterIP'.",
        "Options: 'ClusterIP','NodePort','LoadBalancer','ExternalName'."]),
    ("add_ons.heapster.options.heapster.sink",
      ["Specify the sink to store heapster data. Defaults to an influxdb pod",
        "running on the cluster."]),
    ("add_ons.metrics_server",
      ["Metrics Server is a cluster-wide aggregator of resource usage data."]),
    ("add_ons.package_manager.provider", ["Options: 'helm'."]),
    ("add_ons.rescheduler",
      ["The rescheduler ensures that critical add-ons remain running on the cluster."]),
    ("etcd", ["Etcd nodes are the ones that run the etcd distributed key-value database."]),
    ("etcd.nodes",
      ["Provide the hostname and IP of each node. If the node has an IP for internal",
        "traffic, provide it in the internalip field. Otherwise, that field can be",
        "left blank."]),
    ("master", ["Master nodes are the ones that run the Kubernetes control plane components."]),
    ("worker", ["Worker nodes are the ones that will run your workloads on the cluster."]),
    ("ingress", ["Ingress nodes will run the ingress controllers."]),
    ("storage",
      ["Storage nodes will be used to create a distributed storage cluster that can",
        "be consumed by your workloads."]),
    ("master.load_balanced_fqdn",
      ["If you have set up load balancing for master nodes, enter the FQDN name here.",
        "Otherwise, use the IP address of a single master node."]),
    ("master.load_balanced_short_name",
      ["If you have set up load balancing for master nodes, enter the short name here.",
        "Otherwise, use the IP address of a single master node."]),
    ("nfs", ["A set of NFS volumes for use by on-cluster persistent workloads."]),
    ("nfs.nfs_host", ["The host name or ip address of an NFS server."]),
    ("nfs.mount_path", ["The mount path of an NFS share. Must start with '/'."]) ]

/-- The text made of the lines `ls`, each ended by a newline. -/
def textOf (ls : List String) : String := String.join (ls.map (fun l => l ++ "\n"))

/-- The scan loop computes level 0 for the line `l` (lines 281-287):
`yamlKeyRE` matches the line and the matched text holds fewer than two blanks.
The match is the leftmost one and may start inside the line, so this is also
true of an indented line whose key holds a character outside the key class, as
in `      kismatic/zone: a`, where the match is `/zone:`. -/
def isTopLevelKeyLine (l : String) : Bool :=
  match yamlKeyRE.FindStringSubmatch l with
  | some (m0, _) => decide (countBlanks m0 / 2 = 0)
  | none => false

/-- The value of `etcdBlock` after the lines `processed`, in closed form (lemma
`scanStart_invariants`): the most recent line for which the loop computes
level 0 is exactly `etcd:`.  The level is the one of `isTopLevelKeyLine`, not
the indentation of the line. -/
def inEtcdBlock (processed : List String) : Bool :=
  processed.reverse.find? isTopLevelKeyLine == some "etcd:"

/-- From the specification: a line the scan loop may insert is empty, or is
blanks followed by `# ` and a comment line of the table. -/
def IsInsertedLine (comments : CommentTable) (x : String) : Prop :=
  x = "" ∨ ∃ n key cs c, (key, cs) ∈ comments ∧ c ∈ cs ∧ x = blanks n ++ "# " ++ c

/-- From the specification: `Annotated comments processed input output` says
that `output` is `input` (the lines that follow `processed`) with every line
kept unchanged and in order, except that lines may be inserted that are empty
or comment lines, and that lines containing `labels: {}` inside the etcd block
may be left out. -/
inductive Annotated (comments : CommentTable) : List String → List String → List String → Prop
  | done (processed : List String) : Annotated comments processed [] []
  | keep (processed : List String) (l : String) (rest out : List String) :
      Annotated comments (processed ++ [l]) rest out →
      Annotated comments processed (l :: rest) (l :: out)
  | insert (processed : List String) (x : String) (rest out : List String) :
      IsInsertedLine comments x → Annotated comments processed rest out →
      Annotated comments processed rest (x :: out)
  | omit (processed : List String) (l : String) (rest out : List String) :
      stringsContains l "labels: \x7b\x7d" = true → inEtcdBlock (processed ++ [l]) = true →
      Annotated comments (processed ++ [l]) rest out →
      Annotated comments processed (l :: rest) out

/-- A text with a line indented five levels deeper than the key line before
it, as in a block scalar; used as a concrete input. -/
def exampleDeepText : List String :=
  ["cluster:", "  admin_password: |-", "    a", "            b: c", "docker:", "  disable: false"]

/-- The `nfs` section of a plan with two NFS volumes, as marshalled; used as a
concrete input. -/
def exampleNfsText : List String :=
  ["nfs:", "  nfs_volume:", "  - nfs_host: 10.0.0.5", "    mount_path: /",
    "  - nfs_host: 10.0.0.6", "    mount_path: /"]

/-- A sample value for the quoted minor version of `commentMap`. -/
def exampleQuotedMinorVersion : String := "\"v1.10\""

/-- The lines `scanLine.print` puts before the line `text`. -/
def printedBefore (st : ScanState) (text : String) : List String :=
  match st.oneTimeComments.get? (".".intercalate st.s) with
  | some cs =>
    (if st.addNewLineBeforeComment then [""] else []) ++
      cs.map (fun c => blanks (countLeadingSpace text) ++ "# " ++ c)
  | none => []

/-- What the libraries `FilePlanner.Write` calls answer: `yaml.Marshal` of a
plan gives the marshalled text, here as the lines the scanner yields from it,
or an error; `os.Create` on a path gives a file or an error. -/
structure WriteCollaborators where
  Marshal : Plan → Except String (List String)
  Create : String → Option String

/-- Go `(fp *FilePlanner) Write(p)`: the strings written to the plan file
(`none` when the file is not created) and the returned error.
`oneTimeComments` is the copy of the global comment map. -/
def FilePlanner.Write (env : WriteCollaborators) (quotedMinorVersion : String) (fp : FilePlanner)
    (p : Plan) : Option (List String) × Option String :=
  -- make a copy of the global comment map
  let oneTimeComments : CommentTable := commentMap quotedMinorVersion
  match env.Marshal p with
  | .error marshalErr => (none, some ("error marshalling plan to yaml: " ++ marshalErr))
  | .ok lines =>
    match env.Create fp.PlanFile with
    | some err => (none, some ("error making plan file: " ++ err))
    | none =>
      let r := scanLoop (scanStart oneTimeComments) lines
      (some r.1.written, r.2)

/-! ## Paths (`path/filepath` of the Go library, on Unix) -/

/-- Go `strings.Split(s, sep)` for a separator `sep` of one character, on the
characters of `s`. -/
def splitChars (sep : Char) : List Char → List (List Char)
  | [] => [[]]
  | c :: cs =>
    if c = sep then [] :: splitChars sep cs
    else (c :: (splitChars sep cs).headD []) :: (splitChars sep cs).tail

/-- One element in `filepath.Clean`; `rev` holds the elements kept so far, the
last one first.  An empty element and `.` are dropped; `..` removes the
element before it, is dropped at the root, and is kept at the start of a path
that is not rooted; any other element is kept. -/
def filepathClean.step (rooted : Bool) (rev : List (List Char)) (e : List Char) :
    List (List Char) :=
  if e = [] ∨ e = ['.'] then rev
  else if e = ['.', '.'] then
    match rev with
    | [] => if rooted then [] else [e]
    | top :: rest => if top = ['.', '.'] then e :: rev else rest
  else e :: rev

/-- Go `filepath.Clean(path)` on Unix, by its documentation: multiple
separators become one, `.` elements go, inner `..` elements go along with the
element before them, `..` elements that begin a rooted path go; the empty
result is `.`. -/
def filepathClean (path : String) : String :=
  let rooted := path.data.head? == some '/'
  let kept := ((splitChars '/' path.data).foldl (filepathClean.step rooted) []).reverse
  if rooted then String.mk ('/' :: ['/'].intercalate kept)
  else if kept = [] then "."
  else String.mk (['/'].intercalate kept)

/-- Go `filepath.Join(elem...)` on Unix: the elements from the first one that
is not empty are joined with the separator and the result is cleaned; with
only empty elements the result is the empty string. -/
def filepathJoin : List String → String
  | [] => ""
  | e :: rest => if e ≠ "" then filepathClean ("/".intercalate (e :: rest)) else filepathJoin rest

/-- Go `filepath.Split(path)` on Unix: the path up to and with its last
separator, and what follows it. -/
def filepathSplit (path : String) : String × String :=
  (String.mk (path.data.reverse.dropWhile (fun c => c ≠ '/')).reverse,
    String.mk (path.data.reverse.takeWhile (fun c => c ≠ '/')).reverse)

/-- The elements `filepath.Clean` has kept of `clusters/<name>/<file>`, the last
one first, when it reaches the file name. -/
def clustersKept (name : String) : List (List Char) :=
  (splitChars '/' name.data).foldl (filepathClean.step false) ["clusters".data]

/-- Go `(fp *FilePlanner) SetDirs(name)`: the planner `fp` points to
afterwards. -/
def FilePlanner.SetDirs (fp : FilePlanner) (name : String) : FilePlanner :=
  let fp := { fp with PlanFile := filepathJoin ["clusters", name, "kismatic-cluster.yaml"] }
  { fp with GeneratedDir := filepathJoin ["clusters", name, "generated"] }

/-- Go `defaultClusterPath` of `pkg/cli/common.go`. -/
def defaultClusterPath : String := filepathJoin ["clusters", "kubernetes", "kismatic-kismatic.yaml"]

/-- Go `defaultGeneratedPath` of `pkg/cli/common.go`. -/
def defaultGeneratedPath : String := filepathJoin ["clusters", "kubernetes", "generated"]


/-! ## The commands of `pkg/cli` that take a cluster name or the path flags -/

/-- Go `validRoles` of `pkg/cli/add_node.go`. -/
def validRoles : List String := ["worker", "ingress", "storage"]

/-- The calls a command's `RunE` makes, with the arguments that matter here,
recorded in the order they are made.  `NewExecutor` carries the
`GeneratedAssetsDirectory` of its options; `applyCmdRun` and `stepCmdRun`
carry the `planner`, `planFile` and `generatedAssetsDir` fields of the command
struct `run` is called on.  `doValidate`, `applyCmd.run`, `stepCmd.run`,
`doProvision`, `doDestroy` and `doAddNode` are the calls that go on to read
the plan through the planner. -/
inductive CliCall where
  | Usage
  | ValidatePlaybookExists (play : String)
  | ValidateClusterExists (clusterName : String)
  | NewExecutor (GeneratedAssetsDirectory : String)
  | doValidate (planner : FilePlanner)
  | applyCmdRun (planner : FilePlanner) (planFile generatedAssetsDir : String)
  | stepCmdRun (planner : FilePlanner) (planFile generatedAssetsDir : String)
  | doProvision (planner : FilePlanner)
  | doDestroy (planner : FilePlanner)
  | doAddNode (planner : FilePlanner) (opts : addNodeOpts) (newNode : Node)
  deriving DecidableEq, Repr

/-- What the calls of a command's `RunE` answer: `cmd.Usage()` its error,
`install.ValidateAllowedAddress` its verdict, `install.ValidateClusterExists`
and `install.ValidatePlaybookExists` their result pairs, `sprintfQ` the text
of `fmt.Sprintf("%q", s)`, and every other call the `error` it returns. -/
structure CliCollaborators where
  Usage : Option String
  ValidateAllowedAddress : String → Bool
  ValidateClusterExists : String → Except String Bool
  ValidatePlaybookExists : String → Bool × Option String
  sprintfQ : String → String
  NewExecutor : String → Option String
  doValidate : FilePlanner → Option String
  applyCmdRun : FilePlanner → String → String → Option String
  stepCmdRun : FilePlanner → String → String → Option String
  doProvision : FilePlanner → Option String
  doDestroy : FilePlanner → Option String
  doAddNode : FilePlanner → addNodeOpts → Node → Option String

/-- The loop `for _, clusterName := range args` of `NewCmdValidate`
(lines 32-37), from the planner and the trace `t` reached so far. -/
def NewCmdValidate.loop (env : CliCollaborators) :
    FilePlanner → List String → List CliCall → List CliCall × Option String
  | _, [], t => (t, none)
  | planner, clusterName :: rest, t =>
    let planner := planner.SetDirs clusterName
    let t := t ++ [CliCall.doValidate planner]
    match env.doValidate planner with
    | some err => (t, some err)
    | none => NewCmdValidate.loop env planner rest t

/-- Go `RunE` of `NewCmdValidate`, with the flag values `installOpts` and the
arguments `args`: the trace of the calls made and the returned `error`. -/
def NewCmdValidate.RunE (env : CliCollaborators) (installOpts : InstallOpts) (args : List String) :
    List CliCall × Option String :=
  let planner : FilePlanner := {}
  if installOpts.GeneratedDir = defaultGeneratedPath ∧ installOpts.PlanFile = defaultClusterPath ∧
      args.length > 0 then
    NewCmdValidate.loop env planner args []
  else
    if args.length > 0 then
      ([], some "Error validating: cannot specify clusters by name and by plan file flag or generated dir flag")
    else
      -- Might feel a little strange, but if either generated or plan flags are set,
      -- assume the other is in the same place, and not at the default.
      let planner : FilePlanner :=
        if installOpts.GeneratedDir ≠ defaultGeneratedPath ∧ installOpts.PlanFile ≠ defaultClusterPath then
          { planner with PlanFile := installOpts.PlanFile, GeneratedDir := installOpts.GeneratedDir }
        else if installOpts.GeneratedDir ≠ defaultGeneratedPath then
          let generatedParent := (filepathSplit installOpts.GeneratedDir).1
          { planner with PlanFile := filepathJoin [generatedParent, "kismatic-cluster.yaml"] }
        else if installOpts.PlanFile ≠ defaultClusterPath then
          let planParent := (filepathSplit installOpts.PlanFile).1
          { planner with GeneratedDir := filepathJoin [planParent, "generated"] }
        else planner
      ([CliCall.doValidate planner], env.doValidate planner)

/-- The body of `for _, clusterName := range args` of `NewCmdApply`
(lines 43-69) after `SetDirs`, and the statements of its `else` branch after
the paths are set (lines 85-108): make the executor and run the command. -/
def NewCmdApply.run (env : CliCollaborators) (planner : FilePlanner) (t : List CliCall) :
    List CliCall × Option String :=
  -- executorOpts.GeneratedAssetsDirectory is planner.PlanFile
  let t := t ++ [CliCall.NewExecutor planner.PlanFile]
  match env.NewExecutor planner.PlanFile with
  | some err => (t, some err)
  | none =>
    let t := t ++ [CliCall.applyCmdRun planner planner.PlanFile planner.GeneratedDir]
    (t, env.applyCmdRun planner planner.PlanFile planner.GeneratedDir)

/-- The loop `for _, clusterName := range args` of `NewCmdApply`. -/
def NewCmdApply.loop (env : CliCollaborators) :
    FilePlanner → List String → List CliCall → List CliCall × Option String
  | _, [], t => (t, none)
  | planner, clusterName :: rest, t =>
    let planner := planner.SetDirs clusterName
    match NewCmdApply.run env planner t with
    | (t, some err) => (t, some err)
    | (t, none) => NewCmdApply.loop env planner rest t

/-- Go `RunE` of `NewCmdApply`. -/
def NewCmdApply.RunE (env : CliCollaborators) (installOpts : InstallOpts) (args : List String) :
    List CliCall × Option String :=
  let planner : FilePlanner := {}
  if installOpts.GeneratedDir = defaultGeneratedPath ∧ installOpts.PlanFile = defaultClusterPath ∧
      args.length > 0 then
    NewCmdApply.loop env planner args []
  else
    if args.length > 0 then
      ([], some "Error validating: cannot specify clusters by name and by plan file flag or generated dir flag")
    else
      let planner : FilePlanner :=
        if installOpts.GeneratedDir ≠ defaultGeneratedPath ∧ installOpts.PlanFile ≠ defaultClusterPath then
          { planner with PlanFile := installOpts.PlanFile, GeneratedDir := installOpts.GeneratedDir }
        else if installOpts.GeneratedDir ≠ defaultGeneratedPath then
          let generatedParent := (filepathSplit installOpts.GeneratedDir).1
          { planner with PlanFile := filepathJoin [generatedParent, "kismatic-cluster.yaml"] }
        else if installOpts.PlanFile ≠ defaultClusterPath then
          let planParent := (filepathSplit installOpts.PlanFile).1
          { planner with GeneratedDir := filepathJoin [planParent, "generated"] }
        else planner
      NewCmdApply.run env planner []

/-- The loop `for _, clusterName := range args` of `NewCmdProvision`
(lines 42-47). -/
def NewCmdProvision.loop (env : CliCollaborators) :
    FilePlanner → List String → List CliCall → List CliCall × Option String
  | _, [], t => (t, none)
  | planner, clusterName :: rest, t =>
    let planner := planner.SetDirs clusterName
    let t := t ++ [CliCall.doProvision planner]
    match env.doProvision planner with
    | some err => (t, some err)
    | none => NewCmdProvision.loop env planner rest t

/-- Go `RunE` of `NewCmdProvision`. -/
def NewCmdProvision.RunE (env : CliCollaborators) (installOpts : InstallOpts) (args : List String) :
    List CliCall × Option String :=
  if (installOpts.PlanFile ≠ defaultClusterPath ∨ installOpts.GeneratedDir ≠ defaultGeneratedPath) ∧
      args.length > 0 then
    ([], some "cannot specify clusters by name and by plan file or generated dir flag")
  else
    let planner : FilePlanner := {}
    let planner : FilePlanner :=
      if args.length = 0 then
        let dirs : String × String := (installOpts.GeneratedDir, installOpts.PlanFile)
        let dirs : String × String :=
          if installOpts.GeneratedDir ≠ defaultGeneratedPath ∧ installOpts.PlanFile = defaultClusterPath then
            let generatedParent := (filepathSplit installOpts.GeneratedDir).1
            (installOpts.GeneratedDir, filepathJoin [generatedParent, "kismatic-cluster.yaml"])
          else if installOpts.PlanFile ≠ defaultClusterPath ∧ installOpts.GeneratedDir = defaultGeneratedPath then
            let planParent := (filepathSplit installOpts.PlanFile).1
            (filepathJoin [planParent, "generated"], installOpts.PlanFile)
          else dirs
        { planner with PlanFile := dirs.2, GeneratedDir := dirs.1 }
      else planner
    if args.length > 0 then NewCmdProvision.loop env planner args []
    else ([CliCall.doProvision planner], env.doProvision planner)

/-- The loop `for _, clusterName := range args` of `NewCmdDestroy`
(lines 82-87). -/
def NewCmdDestroy.loop (env : CliCollaborators) :
    FilePlanner → List String → List CliCall → List CliCall × Option String
  | _, [], t => (t, none)
  | planner, clusterName :: rest, t =>
    let planner := planner.SetDirs clusterName
    let t := t ++ [CliCall.doDestroy planner]
    match env.doDestroy planner with
    | some err => (t, some err)
    | none => NewCmdDestroy.loop env planner rest t

/-- Go `RunE` of `NewCmdDestroy`. -/
def NewCmdDestroy.RunE (env : CliCollaborators) (installOpts : InstallOpts) (args : List String) :
    List CliCall × Option String :=
  if (installOpts.PlanFile ≠ defaultClusterPath ∨ installOpts.GeneratedDir ≠ defaultGeneratedPath) ∧
      args.length > 0 then
    ([], some "cannot specify clusters by name and by plan file or generated dir flag")
  else
    let planner : FilePlanner := {}
    let planner : FilePlanner :=
      if args.length = 0 then
        let dirs : String × String := (installOpts.GeneratedDir, installOpts.PlanFile)
        let dirs : String × String :=
          if installOpts.GeneratedDir ≠ defaultGeneratedPath ∧ installOpts.PlanFile = defaultClusterPath then
            let generatedParent := (filepathSplit installOpts.GeneratedDir).1
            (installOpts.GeneratedDir, filepathJoin [generatedParent, "kismatic-cluster.yaml"])
          else if installOpts.PlanFile ≠ defaultClusterPath ∧ installOpts.GeneratedDir = defaultGeneratedPath then
            let planParent := (filepathSplit installOpts.PlanFile).1
            (filepathJoin [planParent, "generated"], installOpts.PlanFile)
          else dirs
        { planner with PlanFile := dirs.2, GeneratedDir := dirs.1 }
      else planner
    if args.length > 0 then NewCmdDestroy.loop env planner args []
    else ([CliCall.doDestroy planner], env.doDestroy planner)

/-- The loop `for _, clusterName := range clusters` of `NewCmdStep`
(lines 68-90). -/
def NewCmdStep.loop (env : CliCollaborators) :
    List String → List CliCall → List CliCall × Option String
  | [], t => (t, none)
  | clusterName :: rest, t =>
    let planner : FilePlanner := {}
    let planner := planner.SetDirs clusterName
    let t := t ++ [CliCall.NewExecutor planner.GeneratedDir]
    match env.NewExecutor planner.GeneratedDir with
    | some err => (t, some err)
    | none =>
      let t := t ++ [CliCall.stepCmdRun planner planner.PlanFile planner.GeneratedDir]
      match env.stepCmdRun planner planner.PlanFile planner.GeneratedDir with
      | some err => (t, some err)
      | none => NewCmdStep.loop env rest t

/-- Go `RunE` of `NewCmdStep`; `(dirs.1, dirs.2)` are the variables
`generatedDir, planFile`. -/
def NewCmdStep.RunE (env : CliCollaborators) (installOpts : InstallOpts) (args : List String) :
    List CliCall × Option String :=
  match args.getLast? with
  | none => ([CliCall.Usage], env.Usage)
  | some play =>
    let t := [CliCall.ValidatePlaybookExists play]
    if (env.ValidatePlaybookExists play).1 = false then
      (t, some ("Playbook " ++ play ++ " not found in " ++ filepathJoin ["ansible", "playbooks"]))
    else
    match (env.ValidatePlaybookExists play).2 with
    | some err => (t, some err)
    | none =>
    let dirs : String × String := ("", "")
    let dirs : String × String :=
      if args.length = 1 then
        let dirs : String × String := (installOpts.GeneratedDir, installOpts.PlanFile)
        if installOpts.GeneratedDir ≠ defaultGeneratedPath ∧ installOpts.PlanFile = defaultClusterPath then
          let generatedParent := (filepathSplit installOpts.GeneratedDir).1
          (installOpts.GeneratedDir, filepathJoin [generatedParent, "kismatic-cluster.yaml"])
        else if installOpts.PlanFile ≠ defaultClusterPath ∧ installOpts.GeneratedDir = defaultGeneratedPath then
          let planParent := (filepathSplit installOpts.PlanFile).1
          (filepathJoin [planParent, "generated"], installOpts.PlanFile)
        else dirs
      else dirs
    if args.length > 1 then
      let clusters := args.dropLast
      if installOpts.GeneratedDir ≠ defaultGeneratedPath ∨ installOpts.PlanFile ≠ defaultClusterPath then
        (t, some "cannot specify clusters by name and by generated dir or plan file flags")
      else NewCmdStep.loop env clusters t
    else
    let t := t ++ [CliCall.NewExecutor dirs.1]
    match env.NewExecutor dirs.1 with
    | some err => (t, some err)
    | none =>
    let planner : FilePlanner := { PlanFile := dirs.2 }
    (t ++ [CliCall.stepCmdRun planner dirs.2 dirs.1], env.stepCmdRun planner dirs.2 dirs.1)

/-- Lines 36-93 of `NewCmdAddNode`: from the flag values and the arguments,
the planner and the new node, or the trace and the error returned. -/
def NewCmdAddNode.arguments (env : CliCollaborators) (installOpts : InstallOpts) (args : List String) :
    Except (List CliCall × Option String) (List CliCall × FilePlanner × Node) :=
  let planner : FilePlanner := {}
  let newNode : Node := {}
  match args with
  | [_, _] => .ok ([], planner, newNode)
  | [a0, a1, a2] =>
    if env.ValidateAllowedAddress a1 then
      -- If arg[1] is an IP, the last arg was optionally included and not the first
      let newNode := { newNode with Host := a0, IP := a1, InternalIP := a2 }
      let planner : FilePlanner :=
        if installOpts.GeneratedDir ≠ defaultGeneratedPath ∧ installOpts.PlanFile = defaultClusterPath then
          let generatedParent := (filepathSplit installOpts.GeneratedDir).1
          { planner with
            PlanFile := filepathJoin [generatedParent, "kismatic-cluster.yaml"],
            GeneratedDir := installOpts.GeneratedDir }
        else if installOpts.PlanFile ≠ defaultClusterPath ∧ installOpts.GeneratedDir = defaultGeneratedPath then
          let planParent := (filepathSplit installOpts.PlanFile).1
          { planner with
            GeneratedDir := filepathJoin [planParent, "generated"],
            PlanFile := installOpts.PlanFile }
        else
          { planner with GeneratedDir := installOpts.GeneratedDir, PlanFile := installOpts.PlanFile }
      .ok ([], planner, newNode)
    else if env.ValidateAllowedAddress a2 then
      -- else check if arg[2] is a valid IP - first optional arg was included
      let clusterName := a0
      if installOpts.GeneratedDir ≠ defaultGeneratedPath ∨ installOpts.PlanFile ≠ defaultClusterPath then
        -- if name is given and flags are not defaults, fail
        .error ([], some "cannot specify clusters by name and by plan or generated flags")
      else
        let t := [CliCall.ValidateClusterExists clusterName]
        match env.ValidateClusterExists clusterName with
        | .error err => .error (t, some err)
        | .ok false => .error (t, some ("cluster " ++ clusterName ++ " not found"))
        | .ok true => .ok (t, planner, { newNode with Host := a1, IP := a2 })
    else
      -- bad input
      .error ([], some "Invalid input: no cluster IP found")
  | [a0, a1, a2, a3] =>
    let clusterName := a0
    let t := [CliCall.ValidateClusterExists clusterName]
    match env.ValidateClusterExists clusterName with
    | .error err => .error (t, some err)
    | .ok false => .error (t, some ("cluster " ++ clusterName ++ " not found"))
    | .ok true => .ok (t, planner, { newNode with Host := a1, IP := a2, InternalIP := a3 })
  | _ => .error ([CliCall.Usage], env.Usage)

/-- The loop `for _, r := range opts.Roles` of `NewCmdAddNode`
(lines 98-102): the error of the first role that is not valid;
`util.Contains(r, validRoles)` is membership in `validRoles`. -/
def NewCmdAddNode.roles (env : CliCollaborators) : List String → Option String
  | [] => none
  | r :: rest =>
    if !validRoles.contains r then
      some ("invalid role " ++ env.sprintfQ r ++ ", options [worker ingress storage]")
    else NewCmdAddNode.roles env rest

/-- The loop `for _, l := range opts.NodeLabels` of `NewCmdAddNode`
(lines 105-111), from the labels set so far: the labels, or the error. -/
def NewCmdAddNode.labels (env : CliCollaborators) :
    List String → List (String × String) → Except String (List (String × String))
  | [], m => .ok m
  | l :: rest, m =>
    match splitChars '=' l.data with
    | [k, v] => NewCmdAddNode.labels env rest (insertKV (String.mk k) (String.mk v) m)
    | _ => .error ("invalid label " ++ env.sprintfQ l ++ " provided, must be key=value pair")

/-- Go `RunE` of `NewCmdAddNode`, with the flag values `installOpts` and
`opts` and the arguments `args`: the trace of the calls made and the returned
`error`. -/
def NewCmdAddNode.RunE (env : CliCollaborators) (installOpts : InstallOpts) (opts : addNodeOpts)
    (args : List String) : List CliCall × Option String :=
  match NewCmdAddNode.arguments env installOpts args with
  | .error r => r
  | .ok (t, planner, newNode) =>
    -- default to 'worker'
    let opts := if opts.Roles.length = 0 then { opts with Roles := opts.Roles ++ ["worker"] } else opts
    match NewCmdAddNode.roles env opts.Roles with
    | some err => (t, some err)
    | none =>
      let labelled : Except String Node :=
        if opts.NodeLabels.length > 0 then
          match NewCmdAddNode.labels env opts.NodeLabels [] with
          | .error err => .error err
          | .ok m => .ok { newNode with Labels := some m }
        else .ok newNode
      match labelled with
      | .error err => (t, some err)
      | .ok newNode =>
        (t ++ [CliCall.doAddNode planner opts newNode], env.doAddNode planner opts newNode)

/-- Collaborators under which every call succeeds, every cluster and playbook
exists, and an address is allowed when it starts with a digit; used as a
concrete input. -/
def exampleCliCollaborators : CliCollaborators :=
  { Usage := none,
    ValidateAllowedAddress := fun a => (a.data.head?.map Char.isDigit).getD false,
    ValidateClusterExists := fun _ => .ok true,
    ValidatePlaybookExists := fun _ => (true, none),
    sprintfQ := fun s => "\"" ++ s ++ "\"",
    NewExecutor := fun _ => none,
    doValidate := fun _ => none,
    applyCmdRun := fun _ _ _ => none,
    stepCmdRun := fun _ _ _ => none,
    doProvision := fun _ => none,
    doDestroy := fun _ => none,
    doAddNode := fun _ _ _ => none }

/-- The flag values when neither `--plan-file` nor `--generated-assets-dir` is
given on the command line (`addPlanFileFlag`, `addGeneratedFlag`). -/
def defaultInstallOpts : InstallOpts :=
  { PlanFile := defaultClusterPath, GeneratedDir := defaultGeneratedPath }



/-- From the specification: a cluster name that is one proper path element, as
the directory names under `clusters` are: not empty, without a separator, and
neither `.` nor `..`. -/
def IsPathElement (name : String) : Prop :=
  name ≠ "" ∧ '/' ∉ name.data ∧ name ≠ "." ∧ name ≠ ".."

instance (name : String) : Decidable (IsPathElement name) := by
  unfold IsPathElement
  infer_instance

/-- From the specification: the `(planFile, generatedDir)` pair a call works
with, for the calls that go on to read the plan: the two fields of the planner
handed to `doValidate`, `doProvision`, `doDestroy` and `doAddNode`, and the
`planFile` and `generatedAssetsDir` fields of the command struct of
`applyCmd.run` and `stepCmd.run`. -/
def CliCall.resolved? : CliCall → Option (String × String)
  | .doValidate p => some (p.PlanFile, p.GeneratedDir)
  | .doProvision p => some (p.PlanFile, p.GeneratedDir)
  | .doDestroy p => some (p.PlanFile, p.GeneratedDir)
  | .doAddNode p _ _ => some (p.PlanFile, p.GeneratedDir)
  | .applyCmdRun _ planFile generatedAssetsDir => some (planFile, generatedAssetsDir)
  | .stepCmdRun _ planFile generatedAssetsDir => some (planFile, generatedAssetsDir)
  | _ => none

/-- From the specification: the pairs the calls of a trace work with, in
order. -/
def resolvedPairs (t : List CliCall) : List (String × String) := t.filterMap CliCall.resolved?

/-- The level the scan loop computes for a line (line 283): the blanks in the
leftmost match of `yamlKeyRE`, two blanks a level; `none` when nothing
matches.  It is the indentation of the line only when the match starts at the
start of the line: for `      kismatic/cni: calico` the match is `/cni:` and
the level is 0. -/
def keyIndent (l : String) : Option Nat :=
  (yamlKeyRE.FindStringSubmatch l).map (fun m => countBlanks m.1 / 2)

/-- The value of `prevIndent` after the lines `lines` that follow `processed`,
when it was `prev` before them, in closed form (lemma `scanLoop_prevIndent`):
the level the loop computed (`keyIndent`) for the last line it matched and did
not leave out. -/
def lastKeyIndentFrom : List String → Int → List String → Int
  | _, prev, [] => prev
  | processed, prev, l :: rest =>
    match keyIndent l with
    | some i =>
      if inEtcdBlock (processed ++ [l]) && stringsContains l "labels: \x7b\x7d" then
        lastKeyIndentFrom (processed ++ [l]) prev rest
      else lastKeyIndentFrom (processed ++ [l]) (i : Int) rest
    | none => lastKeyIndentFrom (processed ++ [l]) prev rest

/-- The value of `prevIndent` after the lines `processed` of a text, in closed
form: the level the loop computed for the last line it matched and did not
leave out, `-1` when there is none. -/
def lastKeyIndent (processed : List String) : Int := lastKeyIndentFrom [] (-1) processed

/-- From the specification: no two consecutive lines of `out` are empty. -/
def NoTwoEmptyLines (out : List String) : Prop :=
  List.Chain' (fun a b => ¬ (a = "" ∧ b = "")) out

instance (out : List String) : Decidable (NoTwoEmptyLines out) := by
  unfold NoTwoEmptyLines
  infer_instance

/-- A marshalled text with an `etcd` block and a `worker` block, each with one
node without labels; used as a concrete input. -/
def exampleBlocksText : List String :=
  ["cluster:", "  name: kubernetes", "  networking:", "    pod_cidr_block: 172.16.0.0/16",
    "  certificates:", "    expiry: 17520h", "etcd:", "  expected_count: 1", "  nodes:",
    "  - host: etcd01", "    labels: \x7b\x7d", "worker:", "  expected_count: 1", "  nodes:",
    "  - host: worker01", "    labels: \x7b\x7d"]

/-! ## Plan templates (`buildPlanFromTemplateOptions`) -/

/-- Go `install.PlanTemplateOptions`. -/
structure PlanTemplateOptions where
  ClusterName : String := ""
  InfrastructureProvisioner : String := ""
  EtcdNodes : Int := 0
  MasterNodes : Int := 0
  WorkerNodes : Int := 0
  IngressNodes : Int := 0
  StorageNodes : Int := 0
  NFSVolumes : Int := 0
  AdminPassword : String := ""
  deriving DecidableEq, Repr

/-- The loop `for i := 0; i < n; i++ { xs = append(xs, v) }` with `k`
iterations left. -/
def appendLoop {α : Type} (v : α) : Nat → List α → List α
  | 0, xs => xs
  | k + 1, xs => appendLoop v k (xs ++ [v])

/-- Lines 384-393 of `buildPlanFromTemplateOptions`: the cluster block and the
SSH defaults. -/
def buildPlanFromTemplateOptions.cluster (c : PackageConstants) (templateOpts : PlanTemplateOptions)
    (p : Plan) : Plan :=
  let p := { p with Cluster.Name := templateOpts.ClusterName }
  let p := { p with Cluster.Version := c.kubernetesVersionString }
  let p := { p with Cluster.AdminPassword := templateOpts.AdminPassword }
  let p := { p with Cluster.DisablePackageInstallation := false }
  let p := { p with Cluster.DisconnectedInstallation := false }
  -- Set SSH defaults
  let p := { p with Cluster.SSH.User := "" }
  let p := { p with Cluster.SSH.Key := "" }
  { p with Cluster.SSH.Port := 22 }

/-- Lines 395-411 of `buildPlanFromTemplateOptions`: the provisioner, the
networking defaults and the certificate defaults. -/
def buildPlanFromTemplateOptions.networking (templateOpts : PlanTemplateOptions) (p : Plan) : Plan :=
  let p := { p with Provisioner.Provider := templateOpts.InfrastructureProvisioner }
  -- Set Networking defaults
  let p := { p with Cluster.Networking.PodCIDRBlock := "172.16.0.0/16" }
  let p := { p with Cluster.Networking.ServiceCIDRBlock := "172.20.0.0/16" }
  let p := { p with Cluster.Networking.UpdateHostsFiles := false }
  -- Set Certificate defaults
  let p := { p with Cluster.Certificates.Expiry := "17520h" }
  { p with Cluster.Certificates.CAExpiry := defaultCAExpiry }

/-- Lines 413-424 of `buildPlanFromTemplateOptions`: Docker. -/
def buildPlanFromTemplateOptions.docker (p : Plan) : Plan :=
  let p := { p with Docker.Logs :=
    { Driver := "json-file", Opts := some [("max-size", "50m"), ("max-file", "1")] } }
  let p := { p with Docker.Storage.DirectLVMBlockDevice.ThinpoolPercent := "95" }
  let p := { p with Docker.Storage.DirectLVMBlockDevice.ThinpoolMetaPercent := "1" }
  let p := { p with Docker.Storage.DirectLVMBlockDevice.ThinpoolAutoextendThreshold := "80" }
  { p with Docker.Storage.DirectLVMBlockDevice.ThinpoolAutoextendPercent := "20" }

/-- Lines 426-439 of `buildPlanFromTemplateOptions`: the CNI add-on; `cni` is
the struct `p.AddOns.CNI` points to. -/
def buildPlanFromTemplateOptions.cni (c : PackageConstants) (templateOpts : PlanTemplateOptions)
    (p : Plan) : Plan :=
  let cni : CNI := {}
  let cni : CNI :=
    if templateOpts.InfrastructureProvisioner = "azure" then
      { cni with Provider := c.cniProviderWeave }
    else
      let cni := { cni with Provider := c.cniProviderCalico }
      let cni := { cni with Options.Calico.Mode := "overlay" }
      let cni := { cni with Options.Calico.LogLevel := "info" }
      let cni := { cni with Options.Calico.WorkloadMTU := 1500 }
      let cni := { cni with Options.Calico.FelixInputMTU := 1440 }
      { cni with Options.Calico.IPAutodetectionMethod := "first-found" }
  { p with AddOns.CNI := some cni }

/-- Lines 441-455 of `buildPlanFromTemplateOptions`: DNS, heapster, the
package manager and the dashboard; `hm` and `d` are the structs
`p.AddOns.HeapsterMonitoring` and `p.AddOns.Dashboard` point to. -/
def buildPlanFromTemplateOptions.addOns (p : Plan) : Plan :=
  -- DNS
  let p := { p with AddOns.DNS.Provider := "kubedns" }
  -- Heapster
  let hm : HeapsterMonitoring := {}
  let hm := { hm with Options.Heapster.Replicas := 2 }
  let hm := { hm with Options.Heapster.ServiceType := "ClusterIP" }
  let hm := { hm with Options.Heapster.Sink := "influxdb:http://heapster-influxdb.kube-system.svc:8086" }
  let p := { p with AddOns.HeapsterMonitoring := some hm }
  -- Package Manager
  let p := { p with AddOns.PackageManager.Provider := "helm" }
  let p := { p with AddOns.PackageManager.Options.Helm.Namespace := "kube-system" }
  let d : Dashboard := {}
  let d := { d with Disable := false }
  { p with AddOns.Dashboard := some d }

/-- Lines 457-467 of `buildPlanFromTemplateOptions`: the expected counts and
the NFS volumes. -/
def buildPlanFromTemplateOptions.counts (templateOpts : PlanTemplateOptions) (p : Plan) : Plan :=
  -- Generate entries for all node types
  let p := { p with Etcd.ExpectedCount := templateOpts.EtcdNodes }
  let p := { p with Master.ExpectedCount := templateOpts.MasterNodes }
  let p := { p with Worker.ExpectedCount := templateOpts.WorkerNodes }
  let p := { p with Ingress.ExpectedCount := templateOpts.IngressNodes }
  let p := { p with Storage.ExpectedCount := templateOpts.StorageNodes }
  { p with NFS.Volumes :=
      appendLoop { Host := "", Path := "/" } templateOpts.NFSVolumes.toNat p.NFS.Volumes }

/-- Lines 469-492 of `buildPlanFromTemplateOptions`: the node placeholders of
the five pools. -/
def buildPlanFromTemplateOptions.nodes (p : Plan) : Plan :=
  let n : Node := {}
  let p := { p with Etcd.Nodes := appendLoop n p.Etcd.ExpectedCount.toNat p.Etcd.Nodes }
  let p := { p with Master.Nodes := appendLoop n p.Master.ExpectedCount.toNat p.Master.Nodes }
  let p := { p with Worker.Nodes := appendLoop n p.Worker.ExpectedCount.toNat p.Worker.Nodes }
  let p := { p with Ingress.Nodes :=
    if p.Ingress.ExpectedCount > 0 then appendLoop n p.Ingress.ExpectedCount.toNat p.Ingress.Nodes
    else p.Ingress.Nodes }
  { p with Storage.Nodes :=
    if p.Storage.ExpectedCount > 0 then appendLoop n p.Storage.ExpectedCount.toNat p.Storage.Nodes
    else p.Storage.Nodes }

/-- Go `buildPlanFromTemplateOptions(templateOpts)`.  The statements of the Go
function are the blocks above, run in source order on `Plan{}`. -/
def buildPlanFromTemplateOptions (c : PackageConstants) (templateOpts : PlanTemplateOptions) : Plan :=
  let p : Plan := {}
  let p := buildPlanFromTemplateOptions.cluster c templateOpts p
  let p := buildPlanFromTemplateOptions.networking templateOpts p
  let p := buildPlanFromTemplateOptions.docker p
  let p := buildPlanFromTemplateOptions.cni c templateOpts p
  let p := buildPlanFromTemplateOptions.addOns p
  let p := buildPlanFromTemplateOptions.counts templateOpts p
  buildPlanFromTemplateOptions.nodes p

/-- Closed form: the CNI add-on of a template. -/
def templateCNI (c : PackageConstants) (provisioner : String) : CNI :=
  if provisioner = "azure" then { Provider := c.cniProviderWeave }
  else
    { Provider := c.cniProviderCalico,
      Options := { Calico :=
        { Mode := "overlay", LogLevel := "info", WorkloadMTU := 1500, FelixInputMTU := 1440,
          IPAutodetectionMethod := "first-found" } } }

/-- Closed form of `buildPlanFromTemplateOptions`. -/
def buildPlanFromTemplateOptions.closedForm (c : PackageConstants)
    (templateOpts : PlanTemplateOptions) : Plan :=
  { Cluster :=
      { Name := templateOpts.ClusterName,
        Version := c.kubernetesVersionString,
        AdminPassword := templateOpts.AdminPassword,
        Networking := { PodCIDRBlock := "172.16.0.0/16", ServiceCIDRBlock := "172.20.0.0/16" },
        Certificates := { Expiry := "17520h", CAExpiry := defaultCAExpiry },
        SSH := { Port := 22 } },
    Docker :=
      { Logs := { Driver := "json-file", Opts := some [("max-size", "50m"), ("max-file", "1")] },
        Storage := { DirectLVMBlockDevice :=
          { ThinpoolPercent := "95", ThinpoolMetaPercent := "1",
            ThinpoolAutoextendThreshold := "80", ThinpoolAutoextendPercent := "20" } } },
    AddOns :=
      { CNI := some (templateCNI c templateOpts.InfrastructureProvisioner),
        DNS := { Provider := "kubedns" },
        HeapsterMonitoring := some { Options := { Heapster :=
          { Replicas := 2, ServiceType := "ClusterIP",
            Sink := "influxdb:http://heapster-influxdb.kube-system.svc:8086" } } },
        Dashboard := some {},
        PackageManager := { Provider := "helm", Options := { Helm := { Namespace := "kube-system" } } } },
    Provisioner := { Provider := templateOpts.InfrastructureProvisioner },
    Etcd := { ExpectedCount := templateOpts.EtcdNodes,
              Nodes := List.replicate templateOpts.EtcdNodes.toNat {} },
    Master := { ExpectedCount := templateOpts.MasterNodes,
                Nodes := List.replicate templateOpts.MasterNodes.toNat {} },
    Worker := { ExpectedCount := templateOpts.WorkerNodes,
                Nodes := List.replicate templateOpts.WorkerNodes.toNat {} },
    Ingress := { ExpectedCount := templateOpts.IngressNodes,
                 Nodes := List.replicate templateOpts.IngressNodes.toNat {} },
    Storage := { ExpectedCount := templateOpts.StorageNodes,
                 Nodes := List.replicate templateOpts.StorageNodes.toNat {} },
    NFS := { Volumes := List.replicate templateOpts.NFSVolumes.toNat { Host := "", Path := "/" } } }

/-- Template options with three etcd, two master and four worker nodes; used
as a concrete input. -/
def exampleTemplateOptions : PlanTemplateOptions :=
  { ClusterName := "kubernetes", InfrastructureProvisioner := "aws", EtcdNodes := 3,
    MasterNodes := 2, WorkerNodes := 4, AdminPassword := "secret" }

/-- Template options for the `azure` provisioner; used as a concrete input. -/
def exampleAzureTemplateOptions : PlanTemplateOptions :=
  { ClusterName := "kubernetes", InfrastructureProvisioner := "azure", EtcdNodes := 1,
    MasterNodes := 1, WorkerNodes := 1, AdminPassword := "secret" }

/-- A plan that creates a device-mapper block device and gives no storage
options (`docker.storage.opts` is absent from the document, the map is nil);
used as a concrete input. -/
def exampleNilOptsPlan : Plan :=
  { Docker := { Storage :=
      { Driver := "devicemapper", DirectLVMBlockDevice := { Path := "/dev/sdb" } } } }

/-- A plan that creates a device-mapper block device and gives one storage
option; used as a concrete input. -/
def exampleOneOptPlan : Plan :=
  { Docker := { Storage :=
      { Driver := "devicemapper", Opts := some [("dm.use_deferred_deletion", "true")],
        DirectLVMBlockDevice := { Path := "/dev/sdb" } } } }

/-- A heapster block with the fields of KET < v1.5.0 set next to the current
ones; used as a concrete input. -/
def exampleLegacyHeapster : HeapsterMonitoring :=
  { Options :=
      { Heapster := { Replicas := 3 }, InfluxDB := { PVCName := "current" },
        HeapsterReplicas := 5, InfluxDBPVCName := "legacy" } }

/-- A plan with the heapster block `exampleLegacyHeapster`; used as a concrete
input. -/
def exampleLegacyHeapsterPlan : Plan :=
  { AddOns := { HeapsterMonitoring := some exampleLegacyHeapster } }

/-! ## The path stack of the scan loop -/

/-- The lines among `lines`, which follow `processed`, that the scan loop
matches and does not leave out, each as the level and the key the loop
computes for it (`countBlanks matched[0] / 2` and `matched[1]`), the most
recent first and before those of `acc`.  Level and key are those of the
leftmost match of `yamlKeyRE`, not the indentation and the key of the line. -/
def keyLinesFrom : List String → List (Nat × String) → List String → List (Nat × String)
  | _, acc, [] => acc
  | processed, acc, l :: rest =>
    match yamlKeyRE.FindStringSubmatch l with
    | some m =>
      if inEtcdBlock (processed ++ [l]) && stringsContains l "labels: \x7b\x7d" then
        keyLinesFrom (processed ++ [l]) acc rest
      else keyLinesFrom (processed ++ [l]) ((countBlanks m.1 / 2, m.2) :: acc) rest
    | none => keyLinesFrom (processed ++ [l]) acc rest

/-- The lines of the text `processed` that the scan loop matches and does not
leave out, each as the level and the key the loop computes for it, the most
recent first. -/
def keyLines (processed : List String) : List (Nat × String) := keyLinesFrom [] [] processed

/-- The keys that enclose a line of level `i`, outermost first, given the
levels and keys of the lines before it (the most recent first): the key of the
nearest earlier line of a lower level, after the keys that enclose that
one. -/
def enclosing : List (Nat × String) → Nat → List String
  | [], _ => []
  | (j, k) :: earlier, i => if j < i then enclosing earlier j ++ [k] else enclosing earlier i

/-- The keys that enclose a line of level `i` that follows the text `before`,
by the levels and keys the scan loop computes for the lines of `before`. -/
def enclosingKeys (before : List String) (i : Nat) : List String := enclosing (keyLines before) i

/-- The levels the scan loop computes step by at most one: for every line the
loop matches, the level it computes (`keyIndent`) is at most one above the
value of `prevIndent` at that line.  This is a condition on the computed
levels, not on the indentation of the lines: `exampleTwoLabelsText` is indented
in steps of one and does not meet it. -/
def LevelsStepByOne (lines : List String) : Prop :=
  ∀ n, n < lines.length → ∀ i ∈ keyIndent (lines.getD n ""),
    (i : Int) ≤ lastKeyIndent (lines.take n) + 1

instance (lines : List String) : Decidable (LevelsStepByOne lines) := by
  unfold LevelsStepByOne
  infer_instance

/-- One more than the indentation level of the most recent of the key lines
`ks`, 0 when there is none. -/
def keyLevelBound : List (Nat × String) → Nat
  | [] => 0
  | (j, _) :: _ => j + 1

/-- The most recent of the key lines `ks` after the keys that enclose it. -/
def keyChain : List (Nat × String) → List String
  | [] => []
  | (j, k) :: earlier => enclosing earlier j ++ [k]

/-- Each of the key lines `ks` (the most recent first) has a level at most one
above that of the key line before it. -/
def KeyLevelsStep : List (Nat × String) → Prop
  | [] => True
  | (j, _) :: earlier => j ≤ keyLevelBound earlier ∧ KeyLevelsStep earlier

/-! ## Writing a plan: the map objects -/

/-- Go `m[k] = v` on a comment table. -/
def CommentTable.set (m : CommentTable) (k : String) (v : List String) : CommentTable :=
  (k, v) :: m.delete k

/-- The map objects of the running program, by address: a Go variable of a map
type holds the address of its object, and two variables with the same address
share the object. -/
abbrev MapHeap := List CommentTable

/-- Go `map[string][]string{}`: the heap with a new, empty map object, and the
address of that object. -/
def MapHeap.make (heap : MapHeap) : MapHeap × Nat := (heap ++ [[]], heap.length)

/-- The map object at the address `a`. -/
def MapHeap.read (heap : MapHeap) (a : Nat) : CommentTable := heap.getD a []

/-- The heap after the map object at the address `a` has become `m`. -/
def MapHeap.write (heap : MapHeap) (a : Nat) (m : CommentTable) : MapHeap := List.set heap a m

/-- Lines 259-261 of `FilePlanner.Write`:
`for k, v := range commentMap { oneTimeComments[k] = v }`, over the entries
the range yields, with `oneTimeComments` the address of the copy. -/
def copyLoop (oneTimeComments : Nat) : List (String × List String) → MapHeap → MapHeap
  | [], heap => heap
  | (k, v) :: rest, heap =>
    copyLoop oneTimeComments rest
      (heap.write oneTimeComments ((heap.read oneTimeComments).set k v))

/-- Go `(fp *FilePlanner) Write(p)` with the map objects explicit: the heap
afterwards, the strings written to the plan file (`none` when the file is not
created) and the returned error.  `commentMap` is the address the global
variable `commentMap` holds; `range` is the order in which the runtime yields
the entries of a map, which Go leaves open.  The scan loop works on the object
at `oneTimeComments`, which no other code reads while the loop runs; the
object is stored when the loop ends. -/
def FilePlanner.WriteOn (env : WriteCollaborators)
    (range : CommentTable → List (String × List String)) (commentMap : Nat) (heap : MapHeap)
    (fp : FilePlanner) (p : Plan) : MapHeap × Option (List String) × Option String :=
  -- make a copy of the global comment map
  let made := heap.make
  let oneTimeComments := made.2
  let heap := copyLoop oneTimeComments (range (made.1.read commentMap)) made.1
  match env.Marshal p with
  | .error marshalErr => (heap, none, some ("error marshalling plan to yaml: " ++ marshalErr))
  | .ok lines =>
    match env.Create fp.PlanFile with
    | some err => (heap, none, some ("error making plan file: " ++ err))
    | none =>
      let r := scanLoop (scanStart (heap.read oneTimeComments)) lines
      (heap.write oneTimeComments r.1.oneTimeComments, some r.1.written, r.2)

/-- What `FilePlanner.Write` writes and returns when its scan loop starts from
the comment table `comments`. -/
def writeOutput (env : WriteCollaborators) (comments : CommentTable) (fp : FilePlanner)
    (p : Plan) : Option (List String) × Option String :=
  match env.Marshal p with
  | .error marshalErr => (none, some ("error marshalling plan to yaml: " ++ marshalErr))
  | .ok lines =>
    match env.Create fp.PlanFile with
    | some err => (none, some ("error making plan file: " ++ err))
    | none =>
      let r := scanLoop (scanStart comments) lines
      (some r.1.written, r.2)

/-- Two states of the scan loop that differ at most in how the comment table is
laid out: the tables answer every lookup alike. -/
def SameButLayout (st st' : ScanState) : Prop :=
  st.s = st'.s ∧ st.prevIndent = st'.prevIndent ∧
  st.addNewLineBeforeComment = st'.addNewLineBeforeComment ∧
  st.etcdBlock = st'.etcdBlock ∧ st.written = st'.written ∧
  ∀ k, st.oneTimeComments.get? k = st'.oneTimeComments.get? k

/-- Library answers for a write: the marshalled plan is `exampleBlocksText`,
and the file is created; used as a concrete input. -/
def exampleWriteCollaborators : WriteCollaborators :=
  { Marshal := fun _ => .ok exampleBlocksText, Create := fun _ => none }

/-! ## Texts with a label key that holds a slash -/

/-- The marshalled `master` and `worker` sections of a plan whose master node
carries the label `node-role.kubernetes.io/worker`; used as a concrete
input. -/
def exampleSlashLabelText : List String :=
  ["master:", "  expected_count: 1", "  nodes:", "  - host: m1", "    ip: 10.0.0.1",
    "    labels:", "      node-role.kubernetes.io/worker: \"\"", "worker:", "  expected_count: 1"]

/-- The marshalled `etcd` section of a plan with two etcd nodes, the first with
the label `kismatic/zone`, the second without labels, and the line that opens
the `master` section; used as a concrete input. -/
def exampleEtcdSlashLabelText : List String :=
  ["etcd:", "  expected_count: 2", "  nodes:", "  - host: e1", "    labels:",
    "      kismatic/zone: a", "  - host: e2", "    labels: \x7b\x7d", "master:"]

/-- The marshalled `worker` section of a plan with two worker nodes, the first
with the labels `kismatic/cni` and `zone`; used as a concrete input. -/
def exampleTwoLabelsText : List String :=
  ["worker:", "  expected_count: 2", "  nodes:", "  - host: w1", "    labels:",
    "      kismatic/cni: calico", "      zone: a", "  - host: w2"]

/-! ## Go maps: lemmas -/

theorem lookupKV_insertKV_self (k v : String) (l : List (String × String)) :
    lookupKV k (insertKV k v l) = some v := by
  induction l with
  | nil => simp [insertKV, lookupKV]
  | cons kv rest ih =>
    obtain ⟨k', v'⟩ := kv
    by_cases h : k' = k
    · simp [insertKV, lookupKV, h]
    · simp [insertKV, lookupKV, h, ih]

theorem lookupKV_insertKV_of_ne (k k' v : String) (l : List (String × String)) (hne : k' ≠ k) :
    lookupKV k' (insertKV k v l) = lookupKV k' l := by
  induction l with
  | nil => simp [insertKV, lookupKV, hne.symm]
  | cons kv rest ih =>
    obtain ⟨k₀, v₀⟩ := kv
    by_cases h : k₀ = k
    · have h' : ¬ k₀ = k' := fun e => hne (e ▸ h)
      have h'' : ¬ k = k' := fun e => hne e.symm
      simp [insertKV, lookupKV, h, h', h'']
    · by_cases h2 : k₀ = k'
      · subst h2
        simp [insertKV, lookupKV, h]
      · simp [insertKV, lookupKV, h, h2, ih]

/-- An existing entry is kept by a guarded write. -/
theorem setIfAbsent_keeps (m m' : StrMap) (k v k' x : String)
    (h : setIfAbsent m k v = some m') (hx : m.get? k' = some x) : m'.get? k' = some x := by
  unfold setIfAbsent at h
  split_ifs at h with hk
  · cases m with
    | none => simp [StrMap.get?] at hx
    | some kvs =>
      simp only [StrMap.set, Option.some.injEq] at h
      subst h
      have hne : k' ≠ k := by
        intro e
        subst e
        rw [hx] at hk
        simp at hk
      simpa [StrMap.get?, lookupKV_insertKV_of_ne k k' v kvs hne] using hx
  · simp only [Option.some.injEq] at h
    subst h
    exact hx

/-- After a guarded write the key is present. -/
theorem setIfAbsent_present (m m' : StrMap) (k v : String)
    (h : setIfAbsent m k v = some m') : (m'.get? k).isSome = true := by
  unfold setIfAbsent at h
  split_ifs at h with hk
  · cases m with
    | none => simp [StrMap.set] at h
    | some kvs =>
      simp only [StrMap.set, Option.some.injEq] at h
      subst h
      simp [StrMap.get?, lookupKV_insertKV_self]
  · simp only [Option.some.injEq] at h
    subst h
    cases hg : m.get? k with
    | none => simp [hg] at hk
    | some x => rfl

/-- A guarded write to a present key changes nothing. -/
theorem setIfAbsent_of_present (m : StrMap) (k v : String) (h : (m.get? k).isSome = true) :
    setIfAbsent m k v = some m := by
  unfold setIfAbsent
  rw [if_neg]
  simp [Option.isNone_iff_eq_none, Option.isSome_iff_exists] at h ⊢
  obtain ⟨x, hx⟩ := h
  simp [hx]

/-- A guarded write fails exactly on the nil map. -/
theorem setIfAbsent_eq_none_iff (m : StrMap) (k v : String) :
    setIfAbsent m k v = none ↔ m = none := by
  cases m with
  | none => simp [setIfAbsent, StrMap.get?, StrMap.set]
  | some kvs =>
    unfold setIfAbsent
    split_ifs <;> simp [StrMap.set]

theorem setIfAbsent_ne_none (m m' : StrMap) (k v : String) (h : setIfAbsent m k v = some m') :
    m' ≠ none := by
  cases m with
  | none => simp [setIfAbsent, StrMap.get?, StrMap.set] at h
  | some kvs =>
    unfold setIfAbsent at h
    split_ifs at h <;> simp [StrMap.set] at h <;> subst h <;> simp

/-! ## Node admission: lemmas -/

theorem loop_eq_none_iff (role : String) (newNode : Node) (nodes : List Node) :
    ensureNodeIsNew.loop role newNode nodes = none ↔
      ∀ m ∈ nodes, ¬ (m.Host = newNode.Host ∨ m.IP = newNode.IP ∨
        (newNode.InternalIP ≠ "" ∧ m.InternalIP = newNode.InternalIP)) := by
  induction nodes with
  | nil => simp [ensureNodeIsNew.loop]
  | cons n rest ih =>
    simp only [ensureNodeIsNew.loop, List.mem_cons, forall_eq_or_imp]
    split_ifs with h1 h2 h3
    · simp [h1]
    · simp [h2]
    · simp [h3]
    · rw [ih]
      simp [h1, h2, h3]

theorem ensureNodeIsNew_eq_none_iff (plan : Plan) (newNode : Node) :
    ensureNodeIsNew plan newNode = none ↔
      ∀ m ∈ plan.Worker.Nodes ++ plan.Ingress.Nodes ++ plan.Storage.Nodes,
        ¬ (m.Host = newNode.Host ∨ m.IP = newNode.IP ∨
          (newNode.InternalIP ≠ "" ∧ m.InternalIP = newNode.InternalIP)) := by
  have hw := loop_eq_none_iff "worker" newNode plan.Worker.Nodes
  have hi := loop_eq_none_iff "ingress" newNode plan.Ingress.Nodes
  have hs := loop_eq_none_iff "storage" newNode plan.Storage.Nodes
  unfold ensureNodeIsNew
  cases hW : ensureNodeIsNew.loop "worker" newNode plan.Worker.Nodes with
  | some e =>
    rw [hW] at hw
    simp only [List.mem_append, false_iff, reduceCtorEq] at hw ⊢
    intro hall
    exact hw (fun m hm => hall m (Or.inl (Or.inl hm)))
  | none =>
    rw [hW] at hw
    simp only [true_iff] at hw
    cases hI : ensureNodeIsNew.loop "ingress" newNode plan.Ingress.Nodes with
    | some e =>
      rw [hI] at hi
      simp only [List.mem_append, false_iff, reduceCtorEq] at hi ⊢
      intro hall
      exact hi (fun m hm => hall m (Or.inl (Or.inr hm)))
    | none =>
      rw [hI] at hi
      simp only [true_iff] at hi
      simp only [hs, List.mem_append]
      constructor
      · intro h m hm
        rcases hm with (hm | hm) | hm
        · exact hw m hm
        · exact hi m hm
        · exact h m hm
      · intro h m hm
        exact h m (Or.inr hm)

/-! ## Node admission: claims -/

/-- C1: `ensureNodeIsNew` returns an error exactly when some node of the
Worker, Ingress or Storage pool has the candidate's Host, or its IP, or (the
candidate's InternalIP being non-empty) its InternalIP, and returns nil
otherwise.  With the single worker `{a, 1.1.1.1}` the candidates
`{a, 2.2.2.2}` and `{b, 1.1.1.1}` are rejected and `{b, 3.3.3.3}` is accepted. -/
theorem C1_ensureNodeIsNew_error_iff_collision :
    (∀ (plan : Plan) (newNode : Node),
      ((∃ err, ensureNodeIsNew plan newNode = some err) ↔
        ∃ m ∈ plan.Worker.Nodes ++ plan.Ingress.Nodes ++ plan.Storage.Nodes,
          m.Host = newNode.Host ∨ m.IP = newNode.IP ∨
            (newNode.InternalIP ≠ "" ∧ m.InternalIP = newNode.InternalIP)) ∧
      (ensureNodeIsNew plan newNode = none ↔
        ¬ ∃ m ∈ plan.Worker.Nodes ++ plan.Ingress.Nodes ++ plan.Storage.Nodes,
          m.Host = newNode.Host ∨ m.IP = newNode.IP ∨
            (newNode.InternalIP ≠ "" ∧ m.InternalIP = newNode.InternalIP))) ∧
    (∃ err, ensureNodeIsNew { Worker := { Nodes := [{ Host := "a", IP := "1.1.1.1" }] } }
      { Host := "a", IP := "2.2.2.2" } = some err) ∧
    (∃ err, ensureNodeIsNew { Worker := { Nodes := [{ Host := "a", IP := "1.1.1.1" }] } }
      { Host := "b", IP := "1.1.1.1" } = some err) ∧
    ensureNodeIsNew { Worker := { Nodes := [{ Host := "a", IP := "1.1.1.1" }] } }
      { Host := "b", IP := "3.3.3.3" } = none := by
  refine ⟨fun plan newNode => ?_, ⟨_, rfl⟩, ⟨_, rfl⟩, by decide⟩
  have h := ensureNodeIsNew_eq_none_iff plan newNode
  constructor
  · rw [← Option.ne_none_iff_exists', Ne, h]
    push_neg
    rfl
  · rw [h]
    push_neg
    rfl

theorem loop_cons (r : Pool) (newNode n : Node) (rest : List Node) :
    ensureNodeIsNew.loop r.words newNode (n :: rest) =
      match firstFailingCheck newNode n with
      | some f => some (duplicateNodeMessage f r)
      | none => ensureNodeIsNew.loop r.words newNode rest := by
  simp only [ensureNodeIsNew.loop, firstFailingCheck]
  split_ifs
  · cases r <;> rfl
  · cases r <;> rfl
  · cases r <;> rfl
  · rfl

theorem loop_eq_poolCollision (r : Pool) (newNode : Node) (nodes : List Node) :
    ensureNodeIsNew.loop r.words newNode nodes =
      (poolCollision newNode nodes).map (fun f => duplicateNodeMessage f r) := by
  induction nodes with
  | nil => rfl
  | cons n rest ih =>
    rw [loop_cons, ih]
    unfold poolCollision
    rw [List.find?_cons]
    cases hc : firstFailingCheck newNode n with
    | none => simp [collidesWith, hc]
    | some f => simp [collidesWith, hc]

theorem poolCollision_of_any_false (newNode : Node) (nodes : List Node)
    (h : nodes.any (collidesWith newNode) = false) : poolCollision newNode nodes = none := by
  have : nodes.find? (collidesWith newNode) = none := by
    rw [List.find?_eq_none]
    intro m hm
    rw [List.any_eq_false] at h
    exact h m hm
  simp [poolCollision, this]

theorem poolCollision_of_any_true (newNode : Node) (nodes : List Node)
    (h : nodes.any (collidesWith newNode) = true) :
    ∃ n f, nodes.find? (collidesWith newNode) = some n ∧ firstFailingCheck newNode n = some f ∧
      poolCollision newNode nodes = some f := by
  cases hf : nodes.find? (collidesWith newNode) with
  | none =>
    rw [List.find?_eq_none] at hf
    rw [List.any_eq_true] at h
    obtain ⟨m, hm, hc⟩ := h
    exact absurd hc (hf m hm)
  | some n =>
    have hc : collidesWith newNode n = true := List.find?_some hf
    unfold collidesWith at hc
    obtain ⟨f, hfc⟩ := Option.isSome_iff_exists.mp hc
    exact ⟨n, f, rfl, hfc, by simp [poolCollision, hf, hfc]⟩

theorem ensureNodeIsNew_eq_firstCollision (plan : Plan) (newNode : Node) :
    ensureNodeIsNew plan newNode =
      (firstCollision plan newNode).map (fun fp => duplicateNodeMessage fp.1 fp.2) := by
  have hw := loop_eq_poolCollision .worker newNode plan.Worker.Nodes
  have hi := loop_eq_poolCollision .ingress newNode plan.Ingress.Nodes
  have hs := loop_eq_poolCollision .storage newNode plan.Storage.Nodes
  simp only [Pool.words] at hw hi hs
  unfold ensureNodeIsNew firstCollision
  rw [hw, hi, hs]
  cases hW : plan.Worker.Nodes.any (collidesWith newNode) with
  | true =>
    obtain ⟨n, f, h1, h2, h3⟩ := poolCollision_of_any_true _ _ hW
    simp [List.find?_cons, hW, h1, h2, h3]
  | false =>
    have h0 := poolCollision_of_any_false _ _ hW
    cases hI : plan.Ingress.Nodes.any (collidesWith newNode) with
    | true =>
      obtain ⟨n, f, h1, h2, h3⟩ := poolCollision_of_any_true _ _ hI
      simp [List.find?_cons, hW, hI, h0, h1, h2, h3]
    | false =>
      have h0' := poolCollision_of_any_false _ _ hI
      cases hS : plan.Storage.Nodes.any (collidesWith newNode) with
      | true =>
        obtain ⟨n, f, h1, h2, h3⟩ := poolCollision_of_any_true _ _ hS
        simp [List.find?_cons, hW, hI, hS, h0, h0', h1, h2, h3]
      | false =>
        have h0'' := poolCollision_of_any_false _ _ hS
        simp [List.find?_cons, hW, hI, hS, h0, h0', h0'']

/-- C2: when `ensureNodeIsNew` fails, its error is the message naming the
field and pool of the first collision: the first of worker, ingress, storage
that holds a colliding node, and the first failing check (host name, IP,
internal IP) on the first colliding node of that pool; distinct field and pool
pairs have distinct messages.  A candidate whose Host matches a worker node
and whose IP matches an ingress node gets the host name / worker error. -/
theorem C2_ensureNodeIsNew_names_first_collision :
    (∀ (plan : Plan) (newNode : Node),
      ensureNodeIsNew plan newNode =
        (firstCollision plan newNode).map (fun fp => duplicateNodeMessage fp.1 fp.2)) ∧
    (∀ f f' r r', duplicateNodeMessage f r = duplicateNodeMessage f' r' → f = f' ∧ r = r') ∧
    ensureNodeIsNew
        { Worker := { Nodes := [{ Host := "w0", IP := "10.0.0.1" }, { Host := "a", IP := "10.0.0.2" }] },
          Ingress := { Nodes := [{ Host := "i0", IP := "10.0.0.9" }] } }
        { Host := "a", IP := "10.0.0.9" } =
      some "according to the plan file, the host name of the new node is already being used by another worker node" := by
  refine ⟨ensureNodeIsNew_eq_firstCollision, ?_, by decide⟩
  intro f f' r r'
  cases f <;> cases f' <;> cases r <;> cases r' <;> decide

/-- C3 as stated fails: with a candidate whose host name is already used by a
worker node, `doAddNode` calls `ValidateSSHConnection` for the new node before
`ensureNodeIsNew` runs, although `ensureNodeIsNew` then fails. -/
theorem C3_ssh_validation_precedes_admission :
    doAddNode exampleCollaborators {} { Host := "a", IP := "2.2.2.2" } =
      ([Call.NewExecutor, Call.PlannerRead, Call.ValidateNode, Call.ValidatePlan,
          Call.ValidateSSHConnection, Call.ensureNodeIsNew],
        some "according to the plan file, the host name of the new node is already being used by another worker node") ∧
    exampleCollaborators.Read = .ok examplePlan ∧
    ensureNodeIsNew examplePlan { Host := "a", IP := "2.2.2.2" } =
      some "according to the plan file, the host name of the new node is already being used by another worker node" := by
  refine ⟨by decide, rfl, by decide⟩

/-- C3, amended: in `doAddNode` the admission check runs strictly before the
pre-flight check, `executor.AddNode` and `planner.Write`.  None of these three
calls occurs in the trace before the `ensureNodeIsNew` call; if one of them
occurs at all, the plan was read and `ensureNodeIsNew` returned nil on it; and
whenever `ensureNodeIsNew` is called, `ValidateSSHConnection` for the new node
was called before it. -/
theorem C3_admission_precedes_preflight_add_write
    (env : Collaborators) (opts : addNodeOpts) (newNode : Node) :
    (∀ call ∈ (doAddNode env opts newNode).1.takeWhile (fun call => call ≠ Call.ensureNodeIsNew),
      call ≠ Call.RunNewNodePreFlightCheck ∧ call ≠ Call.AddNode ∧ call ≠ Call.PlannerWrite) ∧
    ((∃ call ∈ (doAddNode env opts newNode).1,
        call = Call.RunNewNodePreFlightCheck ∨ call = Call.AddNode ∨ call = Call.PlannerWrite) →
      ∃ plan, env.Read = .ok plan ∧ ensureNodeIsNew plan newNode = none) ∧
    (Call.ensureNodeIsNew ∈ (doAddNode env opts newNode).1 →
      Call.ValidateSSHConnection ∈
        (doAddNode env opts newNode).1.takeWhile (fun call => call ≠ Call.ensureNodeIsNew)) := by
  unfold doAddNode
  cases h1 : env.NewExecutor with
  | some e => simp
  | none =>
  cases h2 : env.Read with
  | error e => simp
  | ok plan =>
  by_cases h3 : env.ValidateNode newNode = []
  swap
  · simp [h3]
  by_cases h4 : env.ValidatePlan plan = []
  swap
  · simp [h3, h4]
  by_cases h5 : env.ValidateSSHConnection plan.Cluster.SSH newNode = []
  swap
  · simp [h3, h4, h5]
  cases h6 : ensureNodeIsNew plan newNode with
  | some e => simp [h3, h4, h5, h6, List.takeWhile]
  | none =>
  cases h7 : opts.SkipPreFlight <;> cases h8 : env.RunNewNodePreFlightCheck plan newNode <;>
    cases h9 : env.AddNode plan newNode opts.Roles opts.RestartServices <;>
    simp [h3, h4, h5, h6, h7, h8, h9, List.takeWhile]
  all_goals (split <;> simp [List.takeWhile])

/-- Witness for C3: with collaborators that all succeed and a fresh candidate,
`executor.AddNode` is called, so the admission check returned nil. -/
theorem C3_admission_precedes_preflight_add_write_witness :
    (∃ call ∈ (doAddNode exampleCollaborators {} exampleNode).1,
        call = Call.RunNewNodePreFlightCheck ∨ call = Call.AddNode ∨ call = Call.PlannerWrite) ∧
    ∃ plan, exampleCollaborators.Read = .ok plan ∧ ensureNodeIsNew plan exampleNode = none :=
  ⟨⟨Call.AddNode, by decide, by decide⟩,
    (C3_admission_precedes_preflight_add_write exampleCollaborators {} exampleNode).2.1
      ⟨Call.AddNode, by decide, by decide⟩⟩

theorem sharesIdentity_symm {a b : Node} (h : ¬ sharesIdentity a b) : ¬ sharesIdentity b a := by
  intro hba
  apply h
  rcases hba with h1 | h2 | ⟨h3, h4⟩
  · exact Or.inl h1.symm
  · exact Or.inr (Or.inl h2.symm)
  · exact Or.inr (Or.inr ⟨fun h0 => h3 (h4.trans h0), h4.symm⟩)

theorem pairwise_insert_of_new (newNode : Node) (l₁ l₂ : List Node)
    (hall : ∀ m ∈ l₁ ++ l₂, ¬ (m.Host = newNode.Host ∨ m.IP = newNode.IP ∨
      (newNode.InternalIP ≠ "" ∧ m.InternalIP = newNode.InternalIP)))
    (hpw : (l₁ ++ l₂).Pairwise (fun a b => ¬ sharesIdentity a b)) :
    (l₁ ++ newNode :: l₂).Pairwise (fun a b => ¬ sharesIdentity a b) := by
  have hperm : (l₁ ++ newNode :: l₂).Perm (newNode :: (l₁ ++ l₂)) := List.perm_middle
  rw [List.Perm.pairwise_iff (fun h => sharesIdentity_symm h) hperm, List.pairwise_cons]
  refine ⟨fun m hm hsh => hall m hm ?_, hpw⟩
  rcases hsh with h1 | h2 | ⟨h3, h4⟩
  · exact Or.inl h1.symm
  · exact Or.inr (Or.inl h2.symm)
  · exact Or.inr (Or.inr ⟨h3, h4.symm⟩)

/-- C4: admission preserves cross-pool uniqueness.  If no two nodes of the
union of the Worker, Ingress and Storage pools share a Host, an IP or a
non-empty InternalIP, and `ensureNodeIsNew` returns nil for the candidate,
then the plan with the candidate appended to the Worker pool, to the Ingress
pool, or to the Storage pool still satisfies the invariant. -/
theorem C4_admission_preserves_crossPoolUnique (plan : Plan) (newNode : Node)
    (hinv : crossPoolUnique plan) (hnew : ensureNodeIsNew plan newNode = none) :
    crossPoolUnique { plan with Worker.Nodes := plan.Worker.Nodes ++ [newNode] } ∧
    crossPoolUnique { plan with Ingress.Nodes := plan.Ingress.Nodes ++ [newNode] } ∧
    crossPoolUnique { plan with Storage.Nodes := plan.Storage.Nodes ++ [newNode] } := by
  rw [ensureNodeIsNew_eq_none_iff] at hnew
  unfold crossPoolUnique at hinv ⊢
  refine ⟨?_, ?_, ?_⟩
  · have h := pairwise_insert_of_new newNode plan.Worker.Nodes
      (plan.Ingress.Nodes ++ plan.Storage.Nodes)
      (by simpa [List.append_assoc] using hnew) (by simpa [List.append_assoc] using hinv)
    simpa [List.append_assoc] using h
  · have h := pairwise_insert_of_new newNode (plan.Worker.Nodes ++ plan.Ingress.Nodes)
      plan.Storage.Nodes hnew hinv
    simpa [List.append_assoc] using h
  · have h := pairwise_insert_of_new newNode
      (plan.Worker.Nodes ++ plan.Ingress.Nodes ++ plan.Storage.Nodes) []
      (by simpa using hnew) (by simpa using hinv)
    simpa [List.append_assoc] using h

/-- Witness for C4: a plan with one worker and one ingress node, and a fresh
candidate. -/
theorem C4_admission_preserves_crossPoolUnique_witness :
    crossPoolUnique examplePlan ∧ ensureNodeIsNew examplePlan exampleNode = none ∧
    crossPoolUnique { examplePlan with Worker.Nodes := examplePlan.Worker.Nodes ++ [exampleNode] } ∧
    crossPoolUnique { examplePlan with Ingress.Nodes := examplePlan.Ingress.Nodes ++ [exampleNode] } ∧
    crossPoolUnique { examplePlan with Storage.Nodes := examplePlan.Storage.Nodes ++ [exampleNode] } :=
  ⟨by simp [crossPoolUnique, sharesIdentity, examplePlan], by decide,
    C4_admission_preserves_crossPoolUnique examplePlan exampleNode
      (by simp [crossPoolUnique, sharesIdentity, examplePlan]) (by decide)⟩

/-! ## Migration: closed form -/

theorem readDeprecatedFields_eq_blocks (p : Plan) :
    readDeprecatedFields p =
      readDeprecatedFields.directLVM (readDeprecatedFields.registry (readDeprecatedFields.dashboard
        (readDeprecatedFields.allowPackageInstallation (readDeprecatedFields.packageManager p)))) :=
  rfl

theorem readDeprecatedFields_packageManager_eq (p : Plan) :
    readDeprecatedFields.packageManager p =
      { p with AddOns.PackageManager := migratePackageManager p.Features p.AddOns.PackageManager } := by
  obtain ⟨cl, dk, reg, ao, ft, pv, e, m, w, i, s, n⟩ := p
  unfold readDeprecatedFields.packageManager migratePackageManager
  cases ft with
  | none => rfl
  | some f =>
    obtain ⟨pm⟩ := f
    cases pm <;> rfl

theorem readDeprecatedFields_allowPackageInstallation_eq (p : Plan) :
    readDeprecatedFields.allowPackageInstallation p =
      { p with Cluster.DisablePackageInstallation := migrateDisable p.Cluster } := by
  obtain ⟨⟨a1, a2, a3, a4, a5, a6, a7, a8, a9⟩, dk, reg, ao, ft, pv, e, m, w, i, s, n⟩ := p
  unfold readDeprecatedFields.allowPackageInstallation migrateDisable
  cases a5 <;> rfl

theorem readDeprecatedFields_dashboard_eq (p : Plan) :
    readDeprecatedFields.dashboard p = { p with AddOns.Dashboard := migrateDashboard p.AddOns } := by
  obtain ⟨cl, dk, reg, ⟨b1, b2, b3, b4, b5, b6⟩, ft, pv, e, m, w, i, s, n⟩ := p
  unfold readDeprecatedFields.dashboard migrateDashboard
  cases b6 with
  | none => rfl
  | some dep => cases b4 <;> rfl

theorem readDeprecatedFields_registry_eq (p : Plan) :
    readDeprecatedFields.registry p =
      { p with DockerRegistry.Server := migrateServer p.DockerRegistry } := by
  unfold readDeprecatedFields.registry migrateServer
  by_cases h : p.DockerRegistry.Server = "" ∧ p.DockerRegistry.Address ≠ "" ∧ p.DockerRegistry.Port ≠ 0
  · simp only [if_pos h]
  · simp only [if_neg h]

theorem readDeprecatedFields_directLVM_eq (p : Plan) :
    readDeprecatedFields.directLVM p = { p with Docker.Storage := migrateStorage p.Docker.Storage } := by
  obtain ⟨cl, ⟨d1, d2, ⟨s1, s2, s3, s4⟩⟩, reg, ao, ft, pv, e, m, w, i, s, n⟩ := p
  unfold readDeprecatedFields.directLVM migrateStorage
  cases s4 with
  | none => rfl
  | some lvm =>
    by_cases h : lvm.Enabled = true ∧ (s2 = none ∨ StrMap.len s2 = 0)
    · simp only [if_pos h]
    · simp only [if_neg h]

theorem readDeprecatedFields_eq_closedForm (p : Plan) :
    readDeprecatedFields p = readDeprecatedFields.closedForm p := by
  rw [readDeprecatedFields_eq_blocks, readDeprecatedFields_packageManager_eq,
    readDeprecatedFields_allowPackageInstallation_eq, readDeprecatedFields_dashboard_eq,
    readDeprecatedFields_registry_eq, readDeprecatedFields_directLVM_eq]
  rfl

/-! ## Defaulting: closed form -/

theorem setDefaults_eq_blocks (c : PackageConstants) (p : Plan) :
    setDefaults c p =
      (setDefaults.storageOpts (setDefaults.logs (setDefaults.version c p))).bind (fun p =>
        some (setDefaults.helmNamespace (setDefaults.dashboard (setDefaults.caExpiry
          (setDefaults.heapster (setDefaults.dns (setDefaults.cni c (setDefaults.thinpool p)))))))) :=
  rfl

theorem setDefaults_version_eq (c : PackageConstants) (p : Plan) :
    setDefaults.version c p = { p with Cluster.Version :=
      if p.Cluster.Version = "" then c.kubernetesVersionString else p.Cluster.Version } := by
  unfold setDefaults.version
  by_cases h : p.Cluster.Version = ""
  · simp only [if_pos h]
  · simp only [if_neg h]

theorem setDefaults_logs_eq (p : Plan) :
    setDefaults.logs p = { p with Docker.Logs := defaultLogs p.Docker.Logs } := by
  unfold setDefaults.logs defaultLogs
  by_cases h : p.Docker.Logs.Driver = ""
  · simp only [if_pos h]
  · simp only [if_neg h]

theorem setDefaults_storageOpts_eq (p : Plan) :
    setDefaults.storageOpts p =
      (defaultStorageOpts p.Docker.Storage).map (fun opts => { p with Docker.Storage.Opts := opts }) := by
  unfold setDefaults.storageOpts defaultStorageOpts
  by_cases h : p.Docker.Storage.Driver = "devicemapper" ∧ p.Docker.Storage.DirectLVMBlockDevice.Path ≠ ""
  · simp only [if_pos h]
    cases h1 : setIfAbsent p.Docker.Storage.Opts "dm.thinpooldev" "/dev/mapper/docker-thinpool" with
    | none => rfl
    | some o1 =>
      cases h2 : setIfAbsent o1 "dm.use_deferred_removal" "true" with
      | none => simp [bind, h2]
      | some o2 =>
        cases h3 : setIfAbsent o2 "dm.use_deferred_deletion" "false" with
        | none => simp [bind, h2, h3]
        | some o3 => simp [bind, pure, h2, h3]
  · simp only [if_neg h]
    rfl

theorem setDefaults_thinpool_eq (p : Plan) :
    setDefaults.thinpool p = { p with Docker.Storage.DirectLVMBlockDevice :=
      (defaultBlockDevice p.Docker.Storage.DirectLVMBlockDevice) } := by
  obtain ⟨cl, ⟨d1, d2, ⟨s1, s2, ⟨b1, b2, b3, b4, b5⟩, s4⟩⟩, reg, ao, ft, pv, e, m, w, i, s, n⟩ := p
  unfold setDefaults.thinpool defaultBlockDevice orDefault
  by_cases h2 : b2 = "" <;> by_cases h3 : b3 = "" <;> by_cases h4 : b4 = "" <;>
    by_cases h5 : b5 = "" <;> simp [h2, h3, h4, h5]

theorem setDefaults_cni_eq (c : PackageConstants) (p : Plan) :
    setDefaults.cni c p =
      { p with AddOns.CNI := some (defaultCNI c p.Cluster.Networking.Type_ p.AddOns.CNI) } := by
  obtain ⟨cl, dk, reg, ⟨a1, a2, a3, a4, a5, a6⟩, ft, pv, e, m, w, i, s, n⟩ := p
  unfold setDefaults.cni defaultCNI orDefault orDefaultInt
  cases a1 with
  | none =>
    by_cases h : cl.Networking.Type_ = "" <;> simp [h]
  | some cni =>
    obtain ⟨pr, ⟨⟨c1, c2, c3, c4, c5⟩⟩⟩ := cni
    by_cases h2 : c2 = "" <;> by_cases h3 : c3 = 0 <;> by_cases h4 : c4 = 0 <;>
      by_cases h5 : c5 = "" <;> simp [h2, h3, h4, h5]

theorem setDefaults_dns_eq (p : Plan) :
    setDefaults.dns p = { p with AddOns.DNS.Provider := orDefault p.AddOns.DNS.Provider "kubedns" } := by
  unfold setDefaults.dns orDefault
  by_cases h : p.AddOns.DNS.Provider = ""
  · simp only [if_pos h]
  · simp only [if_neg h]

theorem setDefaults_heapster_eq (p : Plan) :
    setDefaults.heapster p =
      { p with AddOns.HeapsterMonitoring := some (defaultHeapster p.AddOns.HeapsterMonitoring) } := by
  obtain ⟨cl, dk, reg, ⟨a1, a2, a3, a4, a5, a6⟩, ft, pv, e, m, w, i, s, n⟩ := p
  unfold setDefaults.heapster defaultHeapster defaultHeapsterOptions orDefault orDefaultInt
  cases a3 with
  | none => simp
  | some hm =>
    obtain ⟨⟨⟨r, st, sk⟩, ⟨pvc⟩, hr, ipvc⟩⟩ := hm
    by_cases h1 : r = 0 <;> by_cases h2 : hr = 0 <;> by_cases h3 : sk = "" <;>
      by_cases h4 : st = "" <;> by_cases h5 : ipvc = "" <;> simp [h1, h2, h3, h4, h5]

theorem setDefaults_caExpiry_eq (p : Plan) :
    setDefaults.caExpiry p = { p with Cluster.Certificates.CAExpiry :=
      (orDefault p.Cluster.Certificates.CAExpiry defaultCAExpiry) } := by
  unfold setDefaults.caExpiry orDefault
  by_cases h : p.Cluster.Certificates.CAExpiry = ""
  · simp only [if_pos h]
  · simp only [if_neg h]

theorem setDefaults_dashboard_eq (p : Plan) :
    setDefaults.dashboard p =
      { p with AddOns.Dashboard := some (defaultDashboard p.AddOns.Dashboard) } := by
  obtain ⟨cl, dk, reg, ⟨a1, a2, a3, a4, a5, a6⟩, ft, pv, e, m, w, i, s, n⟩ := p
  unfold setDefaults.dashboard defaultDashboard
  cases a4 <;> simp

theorem setDefaults_helmNamespace_eq (p : Plan) :
    setDefaults.helmNamespace p = { p with AddOns.PackageManager.Options.Helm.Namespace :=
      (orDefault p.AddOns.PackageManager.Options.Helm.Namespace "kube-system") } := by
  unfold setDefaults.helmNamespace orDefault
  by_cases h : p.AddOns.PackageManager.Options.Helm.Namespace = ""
  · simp only [if_pos h]
  · simp only [if_neg h]

theorem setDefaults_eq_closedForm (c : PackageConstants) (p : Plan) :
    setDefaults c p = (defaultStorageOpts p.Docker.Storage).map (setDefaults.closedForm c p) := by
  rw [setDefaults_eq_blocks, setDefaults_version_eq, setDefaults_logs_eq, setDefaults_storageOpts_eq]
  show Option.bind (Option.map _ (defaultStorageOpts p.Docker.Storage)) _ = _
  cases defaultStorageOpts p.Docker.Storage with
  | none => rfl
  | some opts =>
    simp only [Option.map_some', Option.some_bind]
    rw [setDefaults_thinpool_eq, setDefaults_cni_eq, setDefaults_dns_eq, setDefaults_heapster_eq,
      setDefaults_caExpiry_eq, setDefaults_dashboard_eq, setDefaults_helmNamespace_eq]
    rfl

/-! ## Migration: idempotence of the closed form -/

theorem append_colon_ne_empty (a b : String) : a ++ ":" ++ b ≠ "" := by
  intro h
  have := congrArg String.length h
  simp only [String.length_append] at this
  have h1 : ":".length = 1 := by decide
  have h0 : "".length = 0 := by decide
  omega

theorem migrateServer_idem (r : DockerRegistry) :
    migrateServer { r with Server := migrateServer r } = migrateServer r := by
  unfold migrateServer
  by_cases h : r.Server = "" ∧ r.Address ≠ "" ∧ r.Port ≠ 0
  · simp only [if_pos h]
    rw [if_neg]
    intro h'
    exact append_colon_ne_empty _ _ h'.1
  · simp only [if_neg h]

theorem migrateStorage_idem (s : DockerStorage) :
    migrateStorage (migrateStorage s) = migrateStorage s := by
  obtain ⟨s1, s2, s3, s4⟩ := s
  cases s4 with
  | none => rfl
  | some lvm =>
    unfold migrateStorage
    by_cases h : lvm.Enabled = true ∧ (s2 = none ∨ StrMap.len s2 = 0)
    · simp only [if_pos h]
    · simp only [if_neg h]

theorem migratePackageManager_idem (f : Option Features) (pm : PackageManager) :
    migratePackageManager f (migratePackageManager f pm) = migratePackageManager f pm := by
  unfold migratePackageManager
  cases f with
  | none => rfl
  | some f =>
    obtain ⟨d⟩ := f
    cases d <;> rfl

theorem migrateDashboard_idem (a : AddOns) (pm : PackageManager) :
    migrateDashboard { a with PackageManager := pm, Dashboard := migrateDashboard a } =
      migrateDashboard a := by
  obtain ⟨a1, a2, a3, a4, a5, a6⟩ := a
  unfold migrateDashboard
  cases a6 with
  | none => rfl
  | some dep => cases a4 <;> simp

theorem migrateDisable_idem (cl : Cluster) :
    migrateDisable { cl with DisablePackageInstallation := migrateDisable cl } = migrateDisable cl := by
  obtain ⟨a1, a2, a3, a4, a5, a6, a7, a8, a9⟩ := cl
  unfold migrateDisable
  cases a5 <;> rfl

theorem readDeprecatedFields_closedForm_idem (p : Plan) :
    readDeprecatedFields.closedForm (readDeprecatedFields.closedForm p) =
      readDeprecatedFields.closedForm p := by
  have h1 := migrateDisable_idem p.Cluster
  have h2 := migrateStorage_idem p.Docker.Storage
  have h3 := migrateServer_idem p.DockerRegistry
  have h4 := migratePackageManager_idem p.Features p.AddOns.PackageManager
  have h5 := migrateDashboard_idem p.AddOns (migratePackageManager p.Features p.AddOns.PackageManager)
  simp only [readDeprecatedFields.closedForm] at *
  rw [h1, h2, h3, h4, h5]

/-! ## Migration: claims -/

/-- C8: `readDeprecatedFields` is idempotent: applying it twice yields the same
plan as applying it once. -/
theorem C8_readDeprecatedFields_idempotent (p : Plan) :
    readDeprecatedFields (readDeprecatedFields p) = readDeprecatedFields p := by
  rw [readDeprecatedFields_eq_closedForm, readDeprecatedFields_eq_closedForm,
    readDeprecatedFields_closedForm_idem]

/-! ## Defaulting: lemmas on the closed form -/

theorem defaultStorageOpts_eq_none_iff (s : DockerStorage) :
    defaultStorageOpts s = none ↔
      s.Driver = "devicemapper" ∧ s.DirectLVMBlockDevice.Path ≠ "" ∧ s.Opts = none := by
  unfold defaultStorageOpts
  by_cases h : s.Driver = "devicemapper" ∧ s.DirectLVMBlockDevice.Path ≠ ""
  · rw [if_pos h]
    constructor
    · intro hn
      refine ⟨h.1, h.2, ?_⟩
      by_contra hs
      cases h1 : setIfAbsent s.Opts "dm.thinpooldev" "/dev/mapper/docker-thinpool" with
      | none => exact hs ((setIfAbsent_eq_none_iff _ _ _).1 h1)
      | some o1 =>
        rw [h1, Option.some_bind] at hn
        cases h2 : setIfAbsent o1 "dm.use_deferred_removal" "true" with
        | none => exact setIfAbsent_ne_none _ _ _ _ h1 ((setIfAbsent_eq_none_iff _ _ _).1 h2)
        | some o2 =>
          rw [h2, Option.some_bind] at hn
          exact setIfAbsent_ne_none _ _ _ _ h2 ((setIfAbsent_eq_none_iff _ _ _).1 hn)
    · rintro ⟨-, -, hs⟩
      rw [hs]
      rfl
  · rw [if_neg h]
    simp only [reduceCtorEq, false_iff]
    rintro ⟨h1, h2, -⟩
    exact h ⟨h1, h2⟩

/-- What the storage options come out as: the input options when the
device-mapper block does not apply, and otherwise a non-nil map holding the
three `dm.*` keys and every entry of the input. -/
theorem defaultStorageOpts_spec (s : DockerStorage) (o : StrMap) (h : defaultStorageOpts s = some o) :
    (¬ (s.Driver = "devicemapper" ∧ s.DirectLVMBlockDevice.Path ≠ "") → o = s.Opts) ∧
    ((s.Driver = "devicemapper" ∧ s.DirectLVMBlockDevice.Path ≠ "") →
      (o.get? "dm.thinpooldev").isSome = true ∧ (o.get? "dm.use_deferred_removal").isSome = true ∧
      (o.get? "dm.use_deferred_deletion").isSome = true) ∧
    (∀ k x, s.Opts.get? k = some x → o.get? k = some x) := by
  unfold defaultStorageOpts at h
  by_cases hc : s.Driver = "devicemapper" ∧ s.DirectLVMBlockDevice.Path ≠ ""
  · rw [if_pos hc] at h
    cases h1 : setIfAbsent s.Opts "dm.thinpooldev" "/dev/mapper/docker-thinpool" with
    | none => simp [h1] at h
    | some o1 =>
      rw [h1, Option.some_bind] at h
      cases h2 : setIfAbsent o1 "dm.use_deferred_removal" "true" with
      | none => simp [h2] at h
      | some o2 =>
        rw [h2, Option.some_bind] at h
        have p1 := setIfAbsent_present _ _ _ _ h1
        have p2 := setIfAbsent_present _ _ _ _ h2
        have p3 := setIfAbsent_present _ _ _ _ h
        obtain ⟨x1, hx1⟩ := Option.isSome_iff_exists.1 p1
        obtain ⟨x2, hx2⟩ := Option.isSome_iff_exists.1 p2
        have q1 := setIfAbsent_keeps _ _ _ _ _ _ h (setIfAbsent_keeps _ _ _ _ _ _ h2 hx1)
        have q2 := setIfAbsent_keeps _ _ _ _ _ _ h hx2
        refine ⟨fun hn => absurd hc hn, fun _ => ⟨by simp [q1], by simp [q2], p3⟩, ?_⟩
        intro k x hk
        exact setIfAbsent_keeps _ _ _ _ _ _ h
          (setIfAbsent_keeps _ _ _ _ _ _ h2 (setIfAbsent_keeps _ _ _ _ _ _ h1 hk))
  · rw [if_neg hc] at h
    simp only [Option.some.injEq] at h
    subst h
    exact ⟨fun _ => rfl, fun hn => absurd hn hc, fun _ _ hk => hk⟩

theorem defaultStorageOpts_fixed (s : DockerStorage) (o : StrMap) (b : DirectLVMBlockDevice)
    (hb : b.Path = s.DirectLVMBlockDevice.Path) (h : defaultStorageOpts s = some o) :
    defaultStorageOpts { s with Opts := o, DirectLVMBlockDevice := b } = some o := by
  obtain ⟨h1, h2, -⟩ := defaultStorageOpts_spec s o h
  unfold defaultStorageOpts
  by_cases hc : s.Driver = "devicemapper" ∧ s.DirectLVMBlockDevice.Path ≠ ""
  · obtain ⟨p1, p2, p3⟩ := h2 hc
    have hc' : s.Driver = "devicemapper" ∧ b.Path ≠ "" := by rw [hb]; exact hc
    simp only [if_pos hc']
    rw [setIfAbsent_of_present _ _ _ p1, Option.some_bind, setIfAbsent_of_present _ _ _ p2,
      Option.some_bind, setIfAbsent_of_present _ _ _ p3]
  · have hc' : ¬ (s.Driver = "devicemapper" ∧ b.Path ≠ "") := by rw [hb]; exact hc
    simp only [if_neg hc']

theorem orDefault_idem (v d : String) : orDefault (orDefault v d) d = orDefault v d := by
  unfold orDefault
  by_cases h : v = ""
  · by_cases hd : d = "" <;> simp [h, hd]
  · simp [h]

theorem orDefaultInt_idem (v d : Int) : orDefaultInt (orDefaultInt v d) d = orDefaultInt v d := by
  unfold orDefaultInt
  by_cases h : v = 0
  · by_cases hd : d = 0 <;> simp [h, hd]
  · simp [h]

theorem defaultLogs_idem (l : DockerLogs) : defaultLogs (defaultLogs l) = defaultLogs l := by
  unfold defaultLogs
  by_cases h : l.Driver = ""
  · simp [h]
  · simp [h]

theorem defaultBlockDevice_idem (b : DirectLVMBlockDevice) :
    defaultBlockDevice (defaultBlockDevice b) = defaultBlockDevice b := by
  simp [defaultBlockDevice, orDefault_idem]

theorem defaultCNI_idem (c : PackageConstants) (ty : String) (o : Option CNI) :
    defaultCNI c ty (some (defaultCNI c ty o)) = defaultCNI c ty o := by
  cases o with
  | none => simp [defaultCNI, orDefault, orDefaultInt]
  | some cni => simp [defaultCNI, orDefault_idem, orDefaultInt_idem]

theorem defaultHeapsterOptions_idem (o : HeapsterOptions) :
    defaultHeapsterOptions (defaultHeapsterOptions o) = defaultHeapsterOptions o := by
  unfold defaultHeapsterOptions
  by_cases h1 : o.HeapsterReplicas = 0 <;> by_cases h2 : o.InfluxDBPVCName = "" <;>
    simp [h1, h2, orDefault_idem, orDefaultInt_idem]

theorem defaultHeapster_idem (o : Option HeapsterMonitoring) :
    defaultHeapster (some (defaultHeapster o)) = defaultHeapster o := by
  cases o <;> simp [defaultHeapster, defaultHeapsterOptions_idem]

theorem defaultDashboard_idem (o : Option Dashboard) :
    defaultDashboard (some (defaultDashboard o)) = defaultDashboard o := by
  cases o <;> rfl

theorem version_idem (k v : String) :
    (if (if v = "" then k else v) = "" then k else (if v = "" then k else v)) =
      (if v = "" then k else v) := by
  by_cases h : v = ""
  · by_cases hk : k = "" <;> simp [h, hk]
  · simp [h]

theorem setDefaults_closedForm_idem (c : PackageConstants) (p : Plan) (o : StrMap) :
    setDefaults.closedForm c (setDefaults.closedForm c p o) o = setDefaults.closedForm c p o := by
  simp only [setDefaults.closedForm, version_idem, orDefault_idem, defaultLogs_idem,
    defaultBlockDevice_idem, defaultCNI_idem, defaultHeapster_idem, defaultDashboard_idem]

/-! ## Defaulting: claims -/

/-- C5: `setDefaults` is idempotent: on every plan on which it completes, a
second application completes too and returns the plan unchanged, field for
field. -/
theorem C5_setDefaults_idempotent (c : PackageConstants) (P Q : Plan)
    (h : setDefaults c P = some Q) : setDefaults c Q = some Q := by
  rw [setDefaults_eq_closedForm] at h ⊢
  cases ho : defaultStorageOpts P.Docker.Storage with
  | none => simp [ho] at h
  | some o =>
    rw [ho, Option.map_some', Option.some.injEq] at h
    subst h
    have hfix := defaultStorageOpts_fixed P.Docker.Storage o
      (defaultBlockDevice P.Docker.Storage.DirectLVMBlockDevice) rfl ho
    have : (setDefaults.closedForm c P o).Docker.Storage =
        { P.Docker.Storage with
          Opts := o,
          DirectLVMBlockDevice := defaultBlockDevice P.Docker.Storage.DirectLVMBlockDevice } := rfl
    rw [this, hfix, Option.map_some', setDefaults_closedForm_idem]

/-- Witness for C5: a plan with a device-mapper block device, one storage
option set and no CNI block. -/
theorem C5_setDefaults_idempotent_witness :
    setDefaults exampleConstants exampleRawPlan = some exampleDefaultedPlan ∧
    setDefaults exampleConstants exampleDefaultedPlan = some exampleDefaultedPlan :=
  ⟨by decide,
    C5_setDefaults_idempotent exampleConstants exampleRawPlan exampleDefaultedPlan (by decide)⟩

theorem setDefaults_some_iff (c : PackageConstants) (P Q : Plan) :
    setDefaults c P = some Q ↔
      ∃ o, defaultStorageOpts P.Docker.Storage = some o ∧ Q = setDefaults.closedForm c P o := by
  rw [setDefaults_eq_closedForm]
  cases defaultStorageOpts P.Docker.Storage with
  | none => simp
  | some o => simp [eq_comm]

/-- `setDefaults` completes exactly when it does not have to write a storage
option into a nil map. -/
theorem setDefaults_completes_iff (c : PackageConstants) (P : Plan) :
    (∃ Q, setDefaults c P = some Q) ↔
      ¬ (P.Docker.Storage.Driver = "devicemapper" ∧
        P.Docker.Storage.DirectLVMBlockDevice.Path ≠ "" ∧ P.Docker.Storage.Opts = none) := by
  rw [← defaultStorageOpts_eq_none_iff, ← Option.ne_none_iff_exists', setDefaults_eq_closedForm]
  cases defaultStorageOpts P.Docker.Storage <;> simp

/-- C6 as stated fails: a non-nil `Docker.Logs.Opts` is replaced when the log
driver is empty, a non-zero `Heapster.Replicas` is replaced by a non-zero
deprecated `HeapsterReplicas`, and a non-empty `InfluxDB.PVCName` is replaced
by a non-empty deprecated `InfluxDBPVCName`. -/
theorem C6_explicit_values_overridden :
    (setDefaults exampleConstants { Docker := { Logs := { Opts := some [("max-size", "10m")] } } }).map
        (fun Q => Q.Docker.Logs.Opts) = some (some [("max-size", "50m"), ("max-file", "1")]) ∧
    (setDefaults exampleConstants { AddOns := { HeapsterMonitoring := some { Options :=
        { Heapster := { Replicas := 3 }, HeapsterReplicas := 5 } } } }).map
        (fun Q => Q.AddOns.HeapsterMonitoring.map (fun hm => hm.Options.Heapster.Replicas)) =
      some (some 5) ∧
    (setDefaults exampleConstants { AddOns := { HeapsterMonitoring := some { Options :=
        { InfluxDB := { PVCName := "claim" }, InfluxDBPVCName := "legacy" } } } }).map
        (fun Q => Q.AddOns.HeapsterMonitoring.map (fun hm => hm.Options.InfluxDB.PVCName)) =
      some (some "legacy") := by
  refine ⟨by decide, by decide, by decide⟩

/-- C6, amended: on every plan `P` on which `setDefaults` completes with `Q`,
a field that `setDefaults` can assign keeps a non-zero value, with these
provisos: `Docker.Logs.Opts` is kept when `Docker.Logs.Driver` is non-empty,
`Heapster.Replicas` is kept when the deprecated `HeapsterReplicas` is zero,
`InfluxDB.PVCName` is kept when the deprecated `InfluxDBPVCName` is empty, and
`Docker.Storage.Opts` keeps every entry it has (missing `dm.*` keys may be
added).  Every field `setDefaults` never assigns is unchanged. -/
theorem C6_setDefaults_keeps_explicit_values (c : PackageConstants) (P Q : Plan)
    (h : setDefaults c P = some Q) :
    (P.Cluster.Version ≠ "" → Q.Cluster.Version = P.Cluster.Version) ∧
    (P.Cluster.Certificates.CAExpiry ≠ "" →
      Q.Cluster.Certificates.CAExpiry = P.Cluster.Certificates.CAExpiry) ∧
    (P.Docker.Logs.Driver ≠ "" → Q.Docker.Logs = P.Docker.Logs) ∧
    (∀ k v, P.Docker.Storage.Opts.get? k = some v → Q.Docker.Storage.Opts.get? k = some v) ∧
    (P.Docker.Storage.DirectLVMBlockDevice.ThinpoolPercent ≠ "" →
      Q.Docker.Storage.DirectLVMBlockDevice.ThinpoolPercent =
        P.Docker.Storage.DirectLVMBlockDevice.ThinpoolPercent) ∧
    (P.Docker.Storage.DirectLVMBlockDevice.ThinpoolMetaPercent ≠ "" →
      Q.Docker.Storage.DirectLVMBlockDevice.ThinpoolMetaPercent =
        P.Docker.Storage.DirectLVMBlockDevice.ThinpoolMetaPercent) ∧
    (P.Docker.Storage.DirectLVMBlockDevice.ThinpoolAutoextendThreshold ≠ "" →
      Q.Docker.Storage.DirectLVMBlockDevice.ThinpoolAutoextendThreshold =
        P.Docker.Storage.DirectLVMBlockDevice.ThinpoolAutoextendThreshold) ∧
    (P.Docker.Storage.DirectLVMBlockDevice.ThinpoolAutoextendPercent ≠ "" →
      Q.Docker.Storage.DirectLVMBlockDevice.ThinpoolAutoextendPercent =
        P.Docker.Storage.DirectLVMBlockDevice.ThinpoolAutoextendPercent) ∧
    (∀ cni, P.AddOns.CNI = some cni → ∃ cni', Q.AddOns.CNI = some cni' ∧
      cni'.Provider = cni.Provider ∧
      cni'.Options.Calico.Mode = cni.Options.Calico.Mode ∧
      (cni.Options.Calico.LogLevel ≠ "" →
        cni'.Options.Calico.LogLevel = cni.Options.Calico.LogLevel) ∧
      (cni.Options.Calico.FelixInputMTU ≠ 0 →
        cni'.Options.Calico.FelixInputMTU = cni.Options.Calico.FelixInputMTU) ∧
      (cni.Options.Calico.WorkloadMTU ≠ 0 →
        cni'.Options.Calico.WorkloadMTU = cni.Options.Calico.WorkloadMTU) ∧
      (cni.Options.Calico.IPAutodetectionMethod ≠ "" →
        cni'.Options.Calico.IPAutodetectionMethod = cni.Options.Calico.IPAutodetectionMethod)) ∧
    (P.AddOns.DNS.Provider ≠ "" → Q.AddOns.DNS.Provider = P.AddOns.DNS.Provider) ∧
    (∀ hm, P.AddOns.HeapsterMonitoring = some hm → ∃ hm', Q.AddOns.HeapsterMonitoring = some hm' ∧
      (hm.Options.HeapsterReplicas = 0 → hm.Options.Heapster.Replicas ≠ 0 →
        hm'.Options.Heapster.Replicas = hm.Options.Heapster.Replicas) ∧
      (hm.Options.Heapster.Sink ≠ "" → hm'.Options.Heapster.Sink = hm.Options.Heapster.Sink) ∧
      (hm.Options.Heapster.ServiceType ≠ "" →
        hm'.Options.Heapster.ServiceType = hm.Options.Heapster.ServiceType) ∧
      (hm.Options.InfluxDBPVCName = "" →
        hm'.Options.InfluxDB.PVCName = hm.Options.InfluxDB.PVCName) ∧
      hm'.Options.HeapsterReplicas = hm.Options.HeapsterReplicas ∧
      hm'.Options.InfluxDBPVCName = hm.Options.InfluxDBPVCName) ∧
    (∀ d, P.AddOns.Dashboard = some d → Q.AddOns.Dashboard = some d) ∧
    (P.AddOns.PackageManager.Options.Helm.Namespace ≠ "" →
      Q.AddOns.PackageManager.Options.Helm.Namespace =
        P.AddOns.PackageManager.Options.Helm.Namespace) ∧
    (Q.Cluster.Name = P.Cluster.Name ∧ Q.Cluster.AdminPassword = P.Cluster.AdminPassword ∧
      Q.Cluster.DisablePackageInstallation = P.Cluster.DisablePackageInstallation ∧
      Q.Cluster.AllowPackageInstallation = P.Cluster.AllowPackageInstallation ∧
      Q.Cluster.DisconnectedInstallation = P.Cluster.DisconnectedInstallation ∧
      Q.Cluster.Networking = P.Cluster.Networking ∧
      Q.Cluster.Certificates.Expiry = P.Cluster.Certificates.Expiry ∧
      Q.Cluster.SSH = P.Cluster.SSH) ∧
    (Q.Docker.Disable = P.Docker.Disable ∧ Q.Docker.Storage.Driver = P.Docker.Storage.Driver ∧
      Q.Docker.Storage.DirectLVMBlockDevice.Path = P.Docker.Storage.DirectLVMBlockDevice.Path ∧
      Q.Docker.Storage.DirectLVM = P.Docker.Storage.DirectLVM) ∧
    (Q.AddOns.PackageManager.Disable = P.AddOns.PackageManager.Disable ∧
      Q.AddOns.PackageManager.Provider = P.AddOns.PackageManager.Provider ∧
      Q.AddOns.DashboardDeprecated = P.AddOns.DashboardDeprecated) ∧
    (Q.DockerRegistry = P.DockerRegistry ∧ Q.Features = P.Features ∧
      Q.Provisioner = P.Provisioner ∧ Q.Etcd = P.Etcd ∧ Q.Master = P.Master ∧
      Q.Worker = P.Worker ∧ Q.Ingress = P.Ingress ∧ Q.Storage = P.Storage ∧ Q.NFS = P.NFS) := by
  obtain ⟨o, ho, hQ⟩ := (setDefaults_some_iff c P Q).1 h
  subst hQ
  obtain ⟨-, -, hkeep⟩ := defaultStorageOpts_spec _ _ ho
  refine ⟨?_, ?_, ?_, hkeep, ?_, ?_, ?_, ?_, ?_, ?_, ?_, ?_, ?_, ?_, ?_, ?_, ?_⟩
  · intro hv
    simp [setDefaults.closedForm, hv]
  · intro hv
    simp [setDefaults.closedForm, orDefault, hv]
  · intro hv
    simp [setDefaults.closedForm, defaultLogs, hv]
  · intro hv
    simp [setDefaults.closedForm, defaultBlockDevice, orDefault, hv]
  · intro hv
    simp [setDefaults.closedForm, defaultBlockDevice, orDefault, hv]
  · intro hv
    simp [setDefaults.closedForm, defaultBlockDevice, orDefault, hv]
  · intro hv
    simp [setDefaults.closedForm, defaultBlockDevice, orDefault, hv]
  · intro cni hcni
    refine ⟨defaultCNI c P.Cluster.Networking.Type_ P.AddOns.CNI, rfl, ?_⟩
    rw [hcni]
    simp +contextual [defaultCNI, orDefault, orDefaultInt]
  · intro hv
    simp [setDefaults.closedForm, orDefault, hv]
  · intro hm hhm
    refine ⟨defaultHeapster P.AddOns.HeapsterMonitoring, rfl, ?_⟩
    rw [hhm]
    simp +contextual [defaultHeapster, defaultHeapsterOptions, orDefault, orDefaultInt]
  · intro d hd
    simp [setDefaults.closedForm, defaultDashboard, hd]
  · intro hv
    simp [setDefaults.closedForm, orDefault, hv]
  · simp [setDefaults.closedForm]
  · simp [setDefaults.closedForm, defaultBlockDevice]
  · simp [setDefaults.closedForm]
  · simp [setDefaults.closedForm]

/-- Witness for C6: `exampleRawPlan` sets the DNS provider and one storage
option, and both are kept. -/
theorem C6_setDefaults_keeps_explicit_values_witness :
    exampleRawPlan.AddOns.DNS.Provider ≠ "" ∧
    exampleDefaultedPlan.AddOns.DNS.Provider = exampleRawPlan.AddOns.DNS.Provider ∧
    exampleRawPlan.Docker.Storage.Opts.get? "dm.use_deferred_deletion" = some "true" ∧
    exampleDefaultedPlan.Docker.Storage.Opts.get? "dm.use_deferred_deletion" = some "true" :=
  ⟨by decide,
    (C6_setDefaults_keeps_explicit_values exampleConstants exampleRawPlan exampleDefaultedPlan
      (by decide)).2.2.2.2.2.2.2.2.2.1 (by decide),
    by decide,
    (C6_setDefaults_keeps_explicit_values exampleConstants exampleRawPlan exampleDefaultedPlan
      (by decide)).2.2.2.1 _ _ (by decide)⟩

/-- C7 as stated fails: on a plan whose CNI block is present and only names the
provider, `setDefaults` fills the Calico log level, both MTUs and the IP
autodetection method, so the CNI sub-document changes. -/
theorem C7_present_cni_block_is_changed :
    exampleWeavePlan.AddOns.CNI = some { Provider := "weave" } ∧
    (setDefaults exampleConstants exampleWeavePlan).map (fun Q => Q.AddOns.CNI) =
      some (some { Provider := "weave", Options := { Calico :=
        { Mode := "", LogLevel := "info", WorkloadMTU := 1500, FelixInputMTU := 1440,
          IPAutodetectionMethod := "first-found" } } }) ∧
    (setDefaults exampleConstants exampleWeavePlan).map (fun Q => Q.AddOns.CNI) ≠
      some exampleWeavePlan.AddOns.CNI := by
  refine ⟨rfl, by decide, by decide⟩

/-- C7, amended: `setDefaults` fills the CNI provider and the Calico mode only
if the whole CNI block is absent.  On a plan whose `AddOns.CNI` is non-nil and
on which it completes, the provider and the Calico mode are unchanged, and each
of log level, felix input MTU, workload MTU and IP autodetection method is
unchanged when it is non-zero and is otherwise set to its default (`info`,
1440, 1500, `first-found`). -/
theorem C7_present_cni_block_keeps_provider_and_mode (c : PackageConstants) (P Q : Plan) (cni : CNI)
    (hcni : P.AddOns.CNI = some cni) (h : setDefaults c P = some Q) :
    ∃ cni', Q.AddOns.CNI = some cni' ∧
      cni'.Provider = cni.Provider ∧
      cni'.Options.Calico.Mode = cni.Options.Calico.Mode ∧
      cni'.Options.Calico.LogLevel =
        (if cni.Options.Calico.LogLevel = "" then "info" else cni.Options.Calico.LogLevel) ∧
      cni'.Options.Calico.FelixInputMTU =
        (if cni.Options.Calico.FelixInputMTU = 0 then 1440 else cni.Options.Calico.FelixInputMTU) ∧
      cni'.Options.Calico.WorkloadMTU =
        (if cni.Options.Calico.WorkloadMTU = 0 then 1500 else cni.Options.Calico.WorkloadMTU) ∧
      cni'.Options.Calico.IPAutodetectionMethod =
        (if cni.Options.Calico.IPAutodetectionMethod = "" then "first-found"
          else cni.Options.Calico.IPAutodetectionMethod) := by
  obtain ⟨o, -, hQ⟩ := (setDefaults_some_iff c P Q).1 h
  subst hQ
  refine ⟨defaultCNI c P.Cluster.Networking.Type_ P.AddOns.CNI, rfl, ?_⟩
  rw [hcni]
  simp [defaultCNI, orDefault, orDefaultInt]

/-- Witness for C7: `exampleWeavePlan` names only the CNI provider. -/
theorem C7_present_cni_block_keeps_provider_and_mode_witness :
    ∃ cni', exampleDefaultedWeavePlan.AddOns.CNI = some cni' ∧
      cni'.Provider = "weave" ∧
      cni'.Options.Calico.Mode = "" ∧
      cni'.Options.Calico.LogLevel = "info" ∧
      cni'.Options.Calico.FelixInputMTU = 1440 ∧
      cni'.Options.Calico.WorkloadMTU = 1500 ∧
      cni'.Options.Calico.IPAutodetectionMethod = "first-found" :=
  C7_present_cni_block_keeps_provider_and_mode exampleConstants exampleWeavePlan
    exampleDefaultedWeavePlan { Provider := "weave" } rfl (by decide)

/-! ## Migration and the load pipeline: claims -/

/-- C9: the legacy `allow_package_installation` is inverted.  When
`Cluster.AllowPackageInstallation` is set to `b`, `readDeprecatedFields` leaves
`Cluster.DisablePackageInstallation` equal to `!b` whatever it held before;
when it is unset, `DisablePackageInstallation` is unchanged.  `setDefaults`
does not touch the field, so the same holds after the whole load pipeline,
which completes unless `setDefaults` has to write a storage option into a nil
map.  So allow=true loads as disable=false and allow=false as disable=true. -/
theorem C9_allow_package_installation_inverted :
    (∀ (p : Plan) (b : Bool), p.Cluster.AllowPackageInstallation = some b →
      (readDeprecatedFields p).Cluster.DisablePackageInstallation = !b) ∧
    (∀ p : Plan, p.Cluster.AllowPackageInstallation = none →
      (readDeprecatedFields p).Cluster.DisablePackageInstallation =
        p.Cluster.DisablePackageInstallation) ∧
    (∀ (c : PackageConstants) (p Q : Plan), readPipeline c p = some Q →
      Q.Cluster.DisablePackageInstallation =
        (readDeprecatedFields p).Cluster.DisablePackageInstallation) ∧
    (∀ (c : PackageConstants) (p : Plan), (∃ Q, readPipeline c p = some Q) ↔
      ¬ ((readDeprecatedFields p).Docker.Storage.Driver = "devicemapper" ∧
        (readDeprecatedFields p).Docker.Storage.DirectLVMBlockDevice.Path ≠ "" ∧
        (readDeprecatedFields p).Docker.Storage.Opts = none)) ∧
    (readPipeline exampleConstants { Cluster :=
        { AllowPackageInstallation := some true, DisablePackageInstallation := true } }).map
      (fun Q => Q.Cluster.DisablePackageInstallation) = some false ∧
    (readPipeline exampleConstants { Cluster := { AllowPackageInstallation := some false } }).map
      (fun Q => Q.Cluster.DisablePackageInstallation) = some true := by
  refine ⟨?_, ?_, ?_, ?_, by decide, by decide⟩
  · intro p b hb
    rw [readDeprecatedFields_eq_closedForm]
    simp [readDeprecatedFields.closedForm, migrateDisable, hb]
  · intro p hb
    rw [readDeprecatedFields_eq_closedForm]
    simp [readDeprecatedFields.closedForm, migrateDisable, hb]
  · intro c p Q h
    obtain ⟨o, -, hQ⟩ := (setDefaults_some_iff c _ Q).1 h
    subst hQ
    rfl
  · intro c p
    exact setDefaults_completes_iff c (readDeprecatedFields p)

/-- Witness for C9: `exampleLegacyPlan` allows package installation and has
the current field set to true. -/
theorem C9_allow_package_installation_inverted_witness :
    exampleLegacyPlan.Cluster.AllowPackageInstallation = some true ∧
    (readDeprecatedFields exampleLegacyPlan).Cluster.DisablePackageInstallation = !true :=
  ⟨rfl, C9_allow_package_installation_inverted.1 exampleLegacyPlan true rfl⟩

/-- C10: the legacy package-manager feature flag.  When `Features` and
`Features.PackageManager` are both non-nil, `readDeprecatedFields` sets
`AddOns.PackageManager.Disable` to the negation of the legacy `Enabled` and
`AddOns.PackageManager.Provider` to `helm`; when `Features` or
`Features.PackageManager` is nil, `AddOns.PackageManager` is unchanged. -/
theorem C10_legacy_package_manager_flag :
    (∀ (p : Plan) (f : Features) (pm : DeprecatedPackageManager),
      p.Features = some f → f.PackageManager = some pm →
        (readDeprecatedFields p).AddOns.PackageManager.Disable = !pm.Enabled ∧
        (readDeprecatedFields p).AddOns.PackageManager.Provider = "helm") ∧
    (∀ p : Plan, (p.Features = none ∨ ∃ f, p.Features = some f ∧ f.PackageManager = none) →
      (readDeprecatedFields p).AddOns.PackageManager = p.AddOns.PackageManager) := by
  refine ⟨?_, ?_⟩
  · intro p f pm hf hpm
    rw [readDeprecatedFields_eq_closedForm]
    simp [readDeprecatedFields.closedForm, migratePackageManager, hf, hpm,
      ket133PackageManagerProvider]
  · intro p hp
    rw [readDeprecatedFields_eq_closedForm]
    rcases hp with hf | ⟨f, hf, hpm⟩
    · simp [readDeprecatedFields.closedForm, migratePackageManager, hf]
    · simp [readDeprecatedFields.closedForm, migratePackageManager, hf, hpm]

/-- Witness for C10: `exampleLegacyPlan` is a KET v1.3.3 plan with the package
manager enabled. -/
theorem C10_legacy_package_manager_flag_witness :
    (readDeprecatedFields exampleLegacyPlan).AddOns.PackageManager.Disable = !true ∧
    (readDeprecatedFields exampleLegacyPlan).AddOns.PackageManager.Provider = "helm" :=
  C10_legacy_package_manager_flag.1 exampleLegacyPlan
    { PackageManager := some { Enabled := true } } { Enabled := true } rfl rfl

/-! ## Migration: further claims -/

/-- C11 fails on the code: with the package-manager add-on already set by the
user (`Disable = true`, `Provider = "tiller"`) and the legacy feature flag
present, `readDeprecatedFields` overwrites both fields. -/
theorem C11_user_package_manager_overwritten :
    exampleUserPackageManagerPlan.AddOns.PackageManager.Disable = true ∧
    exampleUserPackageManagerPlan.AddOns.PackageManager.Provider = "tiller" ∧
    (readDeprecatedFields exampleUserPackageManagerPlan).AddOns.PackageManager.Disable = false ∧
    (readDeprecatedFields exampleUserPackageManagerPlan).AddOns.PackageManager.Provider = "helm" := by
  refine ⟨rfl, rfl, by decide, by decide⟩

/-- C12: dashboard migration.  If `AddOns.DashboardDeprecated` is set and
`AddOns.Dashboard` is nil, `readDeprecatedFields` sets `AddOns.Dashboard` to a
sub-document whose `Disable` is the deprecated `Disable`; if `AddOns.Dashboard`
is already set it is left unchanged, whatever the deprecated toggle says. -/
theorem C12_dashboard_migration :
    (∀ (p : Plan) (dep : DashboardDeprecated),
      p.AddOns.DashboardDeprecated = some dep → p.AddOns.Dashboard = none →
        (readDeprecatedFields p).AddOns.Dashboard = some { Disable := dep.Disable }) ∧
    (∀ (p : Plan) (d : Dashboard), p.AddOns.Dashboard = some d →
      (readDeprecatedFields p).AddOns.Dashboard = some d) := by
  refine ⟨?_, ?_⟩
  · intro p dep hdep hd
    rw [readDeprecatedFields_eq_closedForm]
    simp [readDeprecatedFields.closedForm, migrateDashboard, hdep, hd]
  · intro p d hd
    rw [readDeprecatedFields_eq_closedForm]
    cases hdep : p.AddOns.DashboardDeprecated <;>
      simp [readDeprecatedFields.closedForm, migrateDashboard, hdep, hd]

/-- Witness for C12: `exampleLegacyPlan` sets only the deprecated toggle. -/
theorem C12_dashboard_migration_witness :
    (readDeprecatedFields exampleLegacyPlan).AddOns.Dashboard = some { Disable := true } :=
  C12_dashboard_migration.1 exampleLegacyPlan { Disable := true } rfl rfl

/-- C13: registry migration.  With an empty `Server`, a non-empty `Address` and
a non-zero `Port`, `readDeprecatedFields` sets `DockerRegistry.Server` to the
address, a colon and the port in decimal; a non-empty `Server` is never
changed. -/
theorem C13_registry_migration :
    (∀ p : Plan, p.DockerRegistry.Server = "" → p.DockerRegistry.Address ≠ "" →
      p.DockerRegistry.Port ≠ 0 →
        (readDeprecatedFields p).DockerRegistry.Server =
          p.DockerRegistry.Address ++ ":" ++ sprintfD p.DockerRegistry.Port) ∧
    (∀ p : Plan, p.DockerRegistry.Server ≠ "" →
      (readDeprecatedFields p).DockerRegistry.Server = p.DockerRegistry.Server) ∧
    sprintfD 8443 = "8443" ∧ sprintfD (-5) = "-5" ∧
    (readDeprecatedFields exampleLegacyPlan).DockerRegistry.Server = "registry.local:8443" := by
  refine ⟨?_, ?_, by decide, by decide, by decide⟩
  · intro p h1 h2 h3
    rw [readDeprecatedFields_eq_closedForm]
    simp [readDeprecatedFields.closedForm, migrateServer, h1, h2, h3]
  · intro p h1
    rw [readDeprecatedFields_eq_closedForm]
    simp [readDeprecatedFields.closedForm, migrateServer, h1]

/-- Witness for C13: `exampleLegacyPlan` gives the registry as address and
port. -/
theorem C13_registry_migration_witness :
    (readDeprecatedFields exampleLegacyPlan).DockerRegistry.Server =
      exampleLegacyPlan.DockerRegistry.Address ++ ":" ++ sprintfD exampleLegacyPlan.DockerRegistry.Port :=
  C13_registry_migration.1 exampleLegacyPlan rfl (by decide) (by decide)

/-- C14: direct-LVM migration.  With `Docker.Storage.DirectLVM` set and enabled
and `Docker.Storage.Opts` nil or empty, `readDeprecatedFields` sets the driver
to `devicemapper`, the options to exactly the three `dm.*` entries (deferred
deletion as the legacy flag prints), the block-device path to the legacy block
device, the four thin-pool percentages to 95, 1, 80 and 20, and `DirectLVM` to
nil.  When `Opts` is non-empty, or `DirectLVM` is nil or disabled, the driver,
the options and the block device are unchanged. -/
theorem C14_direct_lvm_migration :
    (∀ (p : Plan) (lvm : DockerStorageDirectLVMDeprecated),
      p.Docker.Storage.DirectLVM = some lvm → lvm.Enabled = true →
      (p.Docker.Storage.Opts = none ∨ p.Docker.Storage.Opts.len = 0) →
        (readDeprecatedFields p).Docker.Storage.Driver = "devicemapper" ∧
        (readDeprecatedFields p).Docker.Storage.Opts = some [
          ("dm.thinpooldev", "/dev/mapper/docker-thinpool"),
          ("dm.use_deferred_removal", "true"),
          ("dm.use_deferred_deletion", if lvm.EnableDeferredDeletion then "true" else "false")] ∧
        (readDeprecatedFields p).Docker.Storage.DirectLVMBlockDevice =
          { Path := lvm.BlockDevice, ThinpoolPercent := "95", ThinpoolMetaPercent := "1",
            ThinpoolAutoextendThreshold := "80", ThinpoolAutoextendPercent := "20" } ∧
        (readDeprecatedFields p).Docker.Storage.DirectLVM = none) ∧
    (∀ p : Plan,
      (p.Docker.Storage.Opts.len ≠ 0 ∨
        ∀ lvm, p.Docker.Storage.DirectLVM = some lvm → lvm.Enabled = false) →
        (readDeprecatedFields p).Docker.Storage.Driver = p.Docker.Storage.Driver ∧
        (readDeprecatedFields p).Docker.Storage.Opts = p.Docker.Storage.Opts ∧
        (readDeprecatedFields p).Docker.Storage.DirectLVMBlockDevice =
          p.Docker.Storage.DirectLVMBlockDevice) := by
  refine ⟨?_, ?_⟩
  · intro p lvm hl he ho
    rw [readDeprecatedFields_eq_closedForm]
    simp [readDeprecatedFields.closedForm, migrateStorage, hl, he, ho, sprintfT]
  · intro p h
    rw [readDeprecatedFields_eq_closedForm]
    cases hl : p.Docker.Storage.DirectLVM with
    | none => simp [readDeprecatedFields.closedForm, migrateStorage, hl]
    | some lvm =>
      have hc : ¬ (lvm.Enabled = true ∧
          (p.Docker.Storage.Opts = none ∨ p.Docker.Storage.Opts.len = 0)) := by
        rintro ⟨he, ho⟩
        rcases h with h | h
        · rcases ho with ho | ho
          · rw [ho] at h
            exact h rfl
          · exact h ho
        · have := h lvm hl
          rw [he] at this
          exact absurd this (by decide)
      simp [readDeprecatedFields.closedForm, migrateStorage, hl, hc]

/-- Witness for C14: `exampleLegacyPlan` enables the legacy direct-LVM block
with deferred deletion. -/
theorem C14_direct_lvm_migration_witness :
    (readDeprecatedFields exampleLegacyPlan).Docker.Storage.Driver = "devicemapper" ∧
    (readDeprecatedFields exampleLegacyPlan).Docker.Storage.Opts = some [
      ("dm.thinpooldev", "/dev/mapper/docker-thinpool"),
      ("dm.use_deferred_removal", "true"),
      ("dm.use_deferred_deletion", "true")] ∧
    (readDeprecatedFields exampleLegacyPlan).Docker.Storage.DirectLVMBlockDevice =
      { Path := "/dev/sdb", ThinpoolPercent := "95", ThinpoolMetaPercent := "1",
        ThinpoolAutoextendThreshold := "80", ThinpoolAutoextendPercent := "20" } ∧
    (readDeprecatedFields exampleLegacyPlan).Docker.Storage.DirectLVM = none :=
  C14_direct_lvm_migration.1 exampleLegacyPlan
    { Enabled := true, BlockDevice := "/dev/sdb", EnableDeferredDeletion := true } rfl rfl
    (Or.inl rfl)

/-- C15 fails on the code: on `exampleLegacyPlan`, where all five deprecated
fields are migrated, `readDeprecatedFields` clears `Docker.Storage.DirectLVM`
but leaves `Features`, `Cluster.AllowPackageInstallation`,
`AddOns.DashboardDeprecated` and `DockerRegistry.Address` / `Port` set. -/
theorem C15_deprecated_fields_left_set :
    (readDeprecatedFields exampleLegacyPlan).Docker.Storage.DirectLVM = none ∧
    (readDeprecatedFields exampleLegacyPlan).Features =
      some { PackageManager := some { Enabled := true } } ∧
    (readDeprecatedFields exampleLegacyPlan).Cluster.AllowPackageInstallation = some true ∧
    (readDeprecatedFields exampleLegacyPlan).AddOns.DashboardDeprecated = some { Disable := true } ∧
    (readDeprecatedFields exampleLegacyPlan).DockerRegistry.Address = "registry.local" ∧
    (readDeprecatedFields exampleLegacyPlan).DockerRegistry.Port = 8443 := by
  refine ⟨by decide, by decide, by decide, by decide, by decide, by decide⟩

/-! ## Reading a plan: claims -/

/-- C16: `FilePlanner.Read` returns `setDefaults(readDeprecatedFields(p))` for
the unmarshalled plan `p`, migration first: it returns that plan with a nil
error whenever `setDefaults` completes, which it does unless it has to write a
storage option into a nil map.  So a document with only the deprecated
dashboard toggle loads with `AddOns.Dashboard.Disable` equal to the toggle,
and one with legacy direct-LVM enabled (and no storage options) loads with
`dm.use_deferred_deletion` equal to the legacy `EnableDeferredDeletion`.  If
the file cannot be read or the document cannot be unmarshalled, `Read` returns
a nil plan and a non-nil error. -/
theorem C16_Read_migrates_then_defaults :
    (∀ (env : ReadCollaborators) (c : PackageConstants) (fp : FilePlanner) (d : String) (p : Plan),
      env.ReadFile fp.PlanFile = .ok d → env.Unmarshal d = .ok p →
        FilePlanner.Read env c fp =
          (setDefaults c (readDeprecatedFields p)).map (fun q => (some q, none)) ∧
        ((∃ q, FilePlanner.Read env c fp = some (some q, none)) ↔
          ¬ ((readDeprecatedFields p).Docker.Storage.Driver = "devicemapper" ∧
            (readDeprecatedFields p).Docker.Storage.DirectLVMBlockDevice.Path ≠ "" ∧
            (readDeprecatedFields p).Docker.Storage.Opts = none))) ∧
    (∀ (c : PackageConstants) (p : Plan) (dep : DashboardDeprecated),
      p.AddOns.DashboardDeprecated = some dep → p.AddOns.Dashboard = none →
        ∀ q, setDefaults c (readDeprecatedFields p) = some q →
          q.AddOns.Dashboard = some { Disable := dep.Disable }) ∧
    (∀ (c : PackageConstants) (p : Plan) (lvm : DockerStorageDirectLVMDeprecated),
      p.Docker.Storage.DirectLVM = some lvm → lvm.Enabled = true →
      (p.Docker.Storage.Opts = none ∨ p.Docker.Storage.Opts.len = 0) →
        ∃ q, setDefaults c (readDeprecatedFields p) = some q ∧
          q.Docker.Storage.Opts.get? "dm.use_deferred_deletion" =
            some (if lvm.EnableDeferredDeletion then "true" else "false")) ∧
    (setDefaults exampleConstants (readDeprecatedFields
        { AddOns := { DashboardDeprecated := some { Disable := true } } })).map
      (fun q => q.AddOns.Dashboard) = some (some { Disable := true }) ∧
    (∀ (env : ReadCollaborators) (c : PackageConstants) (fp : FilePlanner) (err : String),
      env.ReadFile fp.PlanFile = .error err →
        FilePlanner.Read env c fp = some (none, some ("could not read file: " ++ err))) ∧
    (∀ (env : ReadCollaborators) (c : PackageConstants) (fp : FilePlanner) (d err : String),
      env.ReadFile fp.PlanFile = .ok d → env.Unmarshal d = .error err →
        FilePlanner.Read env c fp = some (none, some ("failed to unmarshal plan: " ++ err))) := by
  refine ⟨?_, ?_, ?_, by decide, ?_, ?_⟩
  · intro env c fp d p hr hu
    have hread : FilePlanner.Read env c fp =
        (setDefaults c (readDeprecatedFields p)).map (fun q => (some q, none)) := by
      unfold FilePlanner.Read
      simp only [hr, hu]
      cases setDefaults c (readDeprecatedFields p) <;> rfl
    refine ⟨hread, ?_⟩
    rw [← setDefaults_completes_iff c (readDeprecatedFields p), hread]
    cases setDefaults c (readDeprecatedFields p) <;> simp
  · intro c p dep hdep hd q hq
    obtain ⟨o, -, hQ⟩ := (setDefaults_some_iff c _ q).1 hq
    subst hQ
    have h : (readDeprecatedFields p).AddOns.Dashboard = some { Disable := dep.Disable } := by
      rw [readDeprecatedFields_eq_closedForm]
      simp [readDeprecatedFields.closedForm, migrateDashboard, hdep, hd]
    simp [setDefaults.closedForm, defaultDashboard, h]
  · intro c p lvm hl he ho
    have hs : (readDeprecatedFields p).Docker.Storage =
        { Driver := "devicemapper",
          Opts := some [
            ("dm.thinpooldev", "/dev/mapper/docker-thinpool"),
            ("dm.use_deferred_removal", "true"),
            ("dm.use_deferred_deletion", sprintfT lvm.EnableDeferredDeletion)],
          DirectLVMBlockDevice :=
            { Path := lvm.BlockDevice, ThinpoolPercent := "95", ThinpoolMetaPercent := "1",
              ThinpoolAutoextendThreshold := "80", ThinpoolAutoextendPercent := "20" },
          DirectLVM := none } := by
      rw [readDeprecatedFields_eq_closedForm]
      simp [readDeprecatedFields.closedForm, migrateStorage, hl, he, ho]
    have hc : ∃ q, setDefaults c (readDeprecatedFields p) = some q := by
      rw [setDefaults_completes_iff, hs]
      simp
    obtain ⟨q, hq⟩ := hc
    refine ⟨q, hq, ?_⟩
    obtain ⟨o, ho', hQ⟩ := (setDefaults_some_iff c _ q).1 hq
    subst hQ
    obtain ⟨-, -, hkeep⟩ := defaultStorageOpts_spec _ _ ho'
    have := hkeep "dm.use_deferred_deletion" (sprintfT lvm.EnableDeferredDeletion)
      (by rw [hs]; simp [StrMap.get?, lookupKV])
    simpa [setDefaults.closedForm, sprintfT] using this
  · intro env c fp err hr
    unfold FilePlanner.Read
    simp only [hr]
  · intro env c fp d err hr hu
    unfold FilePlanner.Read
    simp only [hr, hu]

/-- Witness for C16: reading the one plan file of `exampleReadCollaborators`. -/
theorem C16_Read_migrates_then_defaults_witness :
    FilePlanner.Read exampleReadCollaborators exampleConstants
        { PlanFile := "clusters/kubernetes/kismatic-cluster.yaml" } =
      (setDefaults exampleConstants (readDeprecatedFields exampleLegacyPlan)).map
        (fun q => (some q, none)) :=
  (C16_Read_migrates_then_defaults.1 exampleReadCollaborators exampleConstants
    { PlanFile := "clusters/kubernetes/kismatic-cluster.yaml" } "legacy document"
    exampleLegacyPlan rfl rfl).1

/-! ## The scan loop: lemmas on strings and tables -/

theorem fileContent_append (a b : List String) :
    fileContent (a ++ b) = fileContent a ++ fileContent b := by
  apply String.ext
  simp [fileContent, String.data_join]

theorem fileContent_singleton (s : String) : fileContent [s] = s := by
  apply String.ext
  simp [fileContent, String.data_join]

theorem textOf_nil : textOf [] = "" := rfl

theorem textOf_append (a b : List String) : textOf (a ++ b) = textOf a ++ textOf b := by
  apply String.ext
  simp [textOf, String.data_join]

theorem textOf_cons (l : String) (ls : List String) : textOf (l :: ls) = l ++ "\n" ++ textOf ls := by
  apply String.ext
  simp [textOf, String.data_join]

theorem textOf_singleton (l : String) : textOf [l] = l ++ "\n" := by
  apply String.ext
  simp [textOf, String.data_join]

theorem commentLines_foldl (sp : String) (cs : List String) (b : String) :
    cs.foldl (fun b c => (b ++ sp) ++ ("# " ++ c ++ "\n")) b =
      b ++ textOf (cs.map (fun c => sp ++ "# " ++ c)) := by
  induction cs generalizing b with
  | nil => simp [textOf_nil]
  | cons c cs ih =>
    rw [List.foldl_cons, ih, List.map_cons, textOf_cons]
    apply String.ext
    simp

/-- The string `getCommentedLine` builds, as lines. -/
theorem getCommentedLine_eq_textOf (line : String) (cs : List String) (addNL : Bool) :
    getCommentedLine line cs addNL =
      textOf ((if addNL then [""] else []) ++
        cs.map (fun c => blanks (countLeadingSpace line) ++ "# " ++ c) ++ [line]) := by
  unfold getCommentedLine
  simp only [commentLines_foldl]
  cases addNL
  · apply String.ext
    simp [textOf_append, textOf_singleton]
  · apply String.ext
    simp [textOf_append, textOf_singleton, textOf_cons, textOf_nil]

theorem CommentTable.mem_of_get? (m : CommentTable) (k : String) (cs : List String)
    (h : m.get? k = some cs) : (k, cs) ∈ m := by
  induction m with
  | nil => simp [CommentTable.get?] at h
  | cons e rest ih =>
    obtain ⟨k', v⟩ := e
    unfold CommentTable.get? at h
    split_ifs at h with hk
    · simp only [Option.some.injEq] at h
      subst h
      subst hk
      exact List.mem_cons_self _ _
    · exact List.mem_cons_of_mem _ (ih h)

theorem CommentTable.mem_of_mem_delete (m : CommentTable) (k : String) (e : String × List String)
    (h : e ∈ m.delete k) : e ∈ m := by
  unfold CommentTable.delete at h
  exact List.mem_of_mem_filter h

theorem popLoop_error (n : Nat) (s : List String) (e : String) (h : popLoop n s = .error e) :
    e = "Empty Stack" := by
  induction n generalizing s with
  | zero => simp [popLoop] at h
  | succ n ih =>
    unfold popLoop stackPop at h
    split_ifs at h with hs
    · simp only [Except.error.injEq] at h
      exact h.symm
    · exact ih _ h

theorem inEtcdBlock_snoc (processed : List String) (l : String) :
    inEtcdBlock (processed ++ [l]) =
      if isTopLevelKeyLine l then (l == "etcd:") else inEtcdBlock processed := by
  unfold inEtcdBlock
  simp only [List.reverse_append, List.reverse_cons, List.reverse_nil, List.nil_append,
    List.singleton_append, List.find?_cons]
  cases h : isTopLevelKeyLine l
  · simp
  · simp only [if_true]
    by_cases he : l = "etcd:"
    · simp [he]
    · simp [he]

theorem Annotated.inserts (comments : CommentTable) (ins : List String)
    (hins : ∀ x ∈ ins, IsInsertedLine comments x) (processed rest out : List String)
    (h : Annotated comments processed rest out) : Annotated comments processed rest (ins ++ out) := by
  induction ins with
  | nil => exact h
  | cons x xs ih =>
    exact Annotated.insert _ _ _ _ (hins x (List.mem_cons_self _ _))
      (ih (fun y hy => hins y (List.mem_cons_of_mem _ hy)))

theorem isInsertedLine_comment (comments : CommentTable) (k : String) (cs : List String)
    (hk : (k, cs) ∈ comments) (n : Nat) :
    ∀ x ∈ cs.map (fun c => blanks n ++ "# " ++ c), IsInsertedLine comments x := by
  intro x hx
  obtain ⟨c, hc, rfl⟩ := List.mem_map.1 hx
  exact Or.inr ⟨n, k, cs, c, hk, hc, rfl⟩

/-! ## The scan loop: what one iteration writes -/

theorem scanLine_etcd_fields (st : ScanState) (indent : Int) (text : String) :
    (scanLine.etcd st indent text).written = st.written ∧
    (scanLine.etcd st indent text).oneTimeComments = st.oneTimeComments ∧
    (scanLine.etcd st indent text).s = st.s ∧
    (scanLine.etcd st indent text).prevIndent = st.prevIndent ∧
    (scanLine.etcd st indent text).addNewLineBeforeComment = st.addNewLineBeforeComment ∧
    (scanLine.etcd st indent text).etcdBlock =
      (if indent = 0 then (text == "etcd:") else st.etcdBlock) := by
  unfold scanLine.etcd
  split_ifs <;> simp

theorem scanLine_leave_fields (st : ScanState) (indent : Int) :
    (scanLine.leave st indent).written =
      st.written ++ (if indent < st.prevIndent then ["\n"] else []) ∧
    (scanLine.leave st indent).oneTimeComments = st.oneTimeComments ∧
    (scanLine.leave st indent).s = st.s ∧
    (scanLine.leave st indent).prevIndent = st.prevIndent ∧
    (scanLine.leave st indent).etcdBlock = st.etcdBlock ∧
    (scanLine.leave st indent).addNewLineBeforeComment =
      (if indent < st.prevIndent then false else st.addNewLineBeforeComment) := by
  unfold scanLine.leave
  split_ifs <;> simp

theorem scanLine_pop_error (st : ScanState) (indent : Int) (e : String)
    (h : scanLine.pop st indent = .error e) : e = "Empty Stack" := by
  unfold scanLine.pop at h
  split_ifs at h
  exact popLoop_error _ _ _ h

theorem scanLine_print_written (st : ScanState) (text m1 : String) :
    fileContent (scanLine.print st text m1).written =
      fileContent st.written ++ textOf (printedBefore st text ++ [text]) := by
  unfold scanLine.print printedBefore
  cases st.oneTimeComments.get? (".".intercalate st.s) with
  | none =>
    simp [scanLine.plain, fileContent_append, fileContent_singleton, textOf_singleton]
  | some cs =>
    simp only [fileContent_append, fileContent_singleton, getCommentedLine_eq_textOf]

theorem scanLine_print_fields (st : ScanState) (text m1 : String) :
    (scanLine.print st text m1).etcdBlock = st.etcdBlock ∧
    (∀ e, e ∈ (scanLine.print st text m1).oneTimeComments → e ∈ st.oneTimeComments) := by
  unfold scanLine.print
  cases st.oneTimeComments.get? (".".intercalate st.s) with
  | none => simp [scanLine.plain]
  | some cs => exact ⟨rfl, fun e he => CommentTable.mem_of_mem_delete _ _ _ he⟩

theorem printedBefore_inserted (comments : CommentTable) (st : ScanState) (text : String)
    (hI1 : ∀ e ∈ st.oneTimeComments, e ∈ comments) :
    ∀ x ∈ printedBefore st text, IsInsertedLine comments x := by
  unfold printedBefore
  cases hg : st.oneTimeComments.get? (".".intercalate st.s) with
  | none => simp
  | some cs =>
    have hmem := hI1 _ (CommentTable.mem_of_get? _ _ _ hg)
    intro x hx
    rcases List.mem_append.1 hx with hx | hx
    · left
      split_ifs at hx <;> simp_all
    · exact isInsertedLine_comment comments _ cs hmem _ x hx

/-- What one iteration of the scan loop does to the file: it writes the line
after zero or more inserted lines, or leaves out an etcd `labels: {}` line, or
stops with `Empty Stack` after at most inserting lines. -/
theorem scanLine_spec (comments : CommentTable) (processed : List String) (st st' : ScanState)
    (text : String) (err : Option String)
    (hI1 : ∀ e ∈ st.oneTimeComments, e ∈ comments)
    (hI2 : st.etcdBlock = inEtcdBlock processed)
    (h : scanLine st text = (st', err)) :
    (∀ e ∈ st'.oneTimeComments, e ∈ comments) ∧
    st'.etcdBlock = inEtcdBlock (processed ++ [text]) ∧
    ((err = none ∧ ∃ ins, (∀ x ∈ ins, IsInsertedLine comments x) ∧
        fileContent st'.written = fileContent st.written ++ textOf (ins ++ [text])) ∨
      (err = none ∧ st'.written = st.written ∧
        stringsContains text "labels: \x7b\x7d" = true ∧ inEtcdBlock (processed ++ [text]) = true) ∨
      (err = some "Empty Stack" ∧ ∃ ins, (∀ x ∈ ins, IsInsertedLine comments x) ∧
        fileContent st'.written = fileContent st.written ++ textOf ins)) := by
  have hflag := inEtcdBlock_snoc processed text
  unfold scanLine at h
  cases hm : yamlKeyRE.FindStringSubmatch text with
  | none =>
    simp only [hm] at h
    obtain ⟨rfl, rfl⟩ := Prod.mk.inj h
    have htop : isTopLevelKeyLine text = false := by simp [isTopLevelKeyLine, hm]
    refine ⟨hI1, ?_, Or.inl ⟨rfl, [], by simp, ?_⟩⟩
    · rw [hflag, htop]
      simpa [scanLine.plain] using hI2
    · simp [scanLine.plain, fileContent_append, fileContent_singleton, textOf_singleton]
  | some m =>
    obtain ⟨m0, m1⟩ := m
    simp only [hm] at h
    have htop : isTopLevelKeyLine text = decide (countBlanks m0 / 2 = 0) := by
      simp [isTopLevelKeyLine, hm]
    obtain ⟨e1, e2, -, -, -, e6⟩ := scanLine_etcd_fields st ((countBlanks m0 / 2 : Nat) : Int) text
    have hflag' : (scanLine.etcd st ((countBlanks m0 / 2 : Nat) : Int) text).etcdBlock =
        inEtcdBlock (processed ++ [text]) := by
      rw [e6, hflag, htop]
      by_cases h0 : countBlanks m0 / 2 = 0
      · have hz : ((countBlanks m0 / 2 : Nat) : Int) = 0 := by exact_mod_cast h0
        rw [if_pos hz, if_pos (by simpa using h0)]
      · have hz : ¬ ((countBlanks m0 / 2 : Nat) : Int) = 0 := by exact_mod_cast h0
        rw [if_neg hz, if_neg (by simpa using h0), hI2]
    generalize scanLine.etcd st ((countBlanks m0 / 2 : Nat) : Int) text = st1 at h e1 e2 hflag'
    clear e6
    generalize ((countBlanks m0 / 2 : Nat) : Int) = indent at h
    split_ifs at h with hskip
    · -- the line is left out
      obtain ⟨rfl, rfl⟩ := Prod.mk.inj h
      simp only [Bool.and_eq_true] at hskip
      refine ⟨fun e he => hI1 e (e2 ▸ he), hflag', Or.inr (Or.inl ⟨rfl, e1, hskip.2, ?_⟩)⟩
      rw [← hflag']
      exact hskip.1
    · -- the line is processed
      obtain ⟨l1, l2, -, -, l5, -⟩ := scanLine_leave_fields st1 indent
      have hblank : ∃ ins0 : List String, (∀ x ∈ ins0, IsInsertedLine comments x) ∧
          fileContent (scanLine.leave st1 indent).written =
            fileContent st.written ++ textOf ins0 := by
        rw [l1, e1]
        by_cases hlt : indent < st1.prevIndent
        · refine ⟨[""], ?_, ?_⟩
          · intro x hx
            left
            simpa using hx
          · simp [hlt, fileContent_append, fileContent_singleton, textOf_singleton]
        · refine ⟨[], by simp, ?_⟩
          simp [hlt, textOf_nil]
      obtain ⟨ins0, hins0, hw0⟩ := hblank
      cases hp : scanLine.pop (scanLine.leave st1 indent)
          indent with
      | error e =>
        simp only [hp] at h
        obtain ⟨rfl, rfl⟩ := Prod.mk.inj h
        have he := scanLine_pop_error _ _ _ hp
        subst he
        refine ⟨fun e he => hI1 e (e2 ▸ l2 ▸ he), ?_, Or.inr (Or.inr ⟨rfl, ins0, hins0, hw0⟩)⟩
        rw [l5]
        exact hflag'
      | ok s =>
        simp only [hp] at h
        obtain ⟨rfl, rfl⟩ := Prod.mk.inj h
        obtain ⟨p1, p2⟩ := scanLine_print_fields
          (scanLine.push (scanLine.leave st1 indent) s m1 indent) text m1
        have hsub : ∀ e ∈ (scanLine.leave st1 indent).oneTimeComments,
            e ∈ comments := fun e he => hI1 e (e2 ▸ l2 ▸ he)
        refine ⟨?_, ?_, ?_⟩
        · exact fun e he => hsub e (p2 e he)
        · rw [p1]
          show (scanLine.leave st1 _).etcdBlock = _
          rw [l5]
          exact hflag'
        · left
          refine ⟨rfl, ins0 ++ printedBefore
            (scanLine.push (scanLine.leave st1 indent) s m1 indent) text, ?_, ?_⟩
          · intro x hx
            rcases List.mem_append.1 hx with hx | hx
            · exact hins0 x hx
            · exact printedBefore_inserted comments
                (scanLine.push (scanLine.leave st1 indent) s m1 indent) text hsub x hx
          · rw [scanLine_print_written]
            show fileContent (scanLine.leave st1 _).written ++ _ = _
            rw [hw0, textOf_append, textOf_append, textOf_append]
            apply String.ext
            simp

theorem scanLoop_spec (comments : CommentTable) (lines : List String) :
    ∀ (processed : List String) (st st' : ScanState) (err : Option String),
      (∀ e ∈ st.oneTimeComments, e ∈ comments) → st.etcdBlock = inEtcdBlock processed →
      scanLoop st lines = (st', err) →
      ∃ scanned rest out, lines = scanned ++ rest ∧
        (err = none → rest = []) ∧ (∀ e, err = some e → e = "Empty Stack" ∧ rest ≠ []) ∧
        fileContent st'.written = fileContent st.written ++ textOf out ∧
        Annotated comments processed scanned out := by
  induction lines with
  | nil =>
    intro processed st st' err _ _ h
    simp only [scanLoop] at h
    obtain ⟨rfl, rfl⟩ := Prod.mk.inj h
    exact ⟨[], [], [], rfl, fun _ => rfl, fun e he => by simp at he, by simp [textOf_nil],
      Annotated.done _⟩
  | cons text lines ih =>
    intro processed st st' err hI1 hI2 h
    unfold scanLoop at h
    cases hstep : scanLine st text with
    | mk st1 err1 =>
      obtain ⟨hI1', hI2', hcase⟩ := scanLine_spec comments processed st st1 text err1 hI1 hI2 hstep
      rw [hstep] at h
      rcases hcase with ⟨rfl, ins, hins, hw⟩ | ⟨rfl, hw, hc, hetcd⟩ | ⟨rfl, ins, hins, hw⟩
      · simp only at h
        obtain ⟨scanned, rest, out, hl, hn, he, hw', ha⟩ := ih (processed ++ [text]) st1 st' err hI1' hI2' h
        refine ⟨text :: scanned, rest, ins ++ text :: out, by simp [hl], hn, he, ?_, ?_⟩
        · rw [hw', hw, textOf_append, textOf_append, textOf_singleton, textOf_cons]
          apply String.ext
          simp
        · exact Annotated.inserts comments ins hins _ _ _ (Annotated.keep _ _ _ _ ha)
      · simp only at h
        obtain ⟨scanned, rest, out, hl, hn, he, hw', ha⟩ := ih (processed ++ [text]) st1 st' err hI1' hI2' h
        refine ⟨text :: scanned, rest, out, by simp [hl], hn, he, ?_, ?_⟩
        · rw [hw', hw]
        · exact Annotated.omit _ _ _ _ hc hetcd ha
      · simp only at h
        obtain ⟨rfl, rfl⟩ := Prod.mk.inj h
        refine ⟨[], text :: lines, ins, rfl, fun hn => by simp at hn, ?_, hw, ?_⟩
        · intro e he
          simp only [Option.some.injEq] at he
          exact ⟨he.symm, by simp⟩
        · have := Annotated.inserts comments ins hins processed [] [] (Annotated.done _)
          simpa using this

theorem scanLine_print_stack (st : ScanState) (text m1 : String) :
    (scanLine.print st text m1).s = st.s := by
  unfold scanLine.print
  cases st.oneTimeComments.get? (".".intercalate st.s) <;> rfl

theorem scanLine_written_grows (st st' : ScanState) (text : String) (err : Option String)
    (h : scanLine st text = (st', err)) :
    ∃ more, fileContent st'.written = fileContent st.written ++ more := by
  unfold scanLine at h
  cases hm : yamlKeyRE.FindStringSubmatch text with
  | none =>
    simp only [hm] at h
    obtain ⟨rfl, rfl⟩ := Prod.mk.inj h
    exact ⟨text ++ "\n", by simp [scanLine.plain, fileContent_append, fileContent_singleton]⟩
  | some m =>
    obtain ⟨m0, m1⟩ := m
    simp only [hm] at h
    obtain ⟨e1, -⟩ := scanLine_etcd_fields st ((countBlanks m0 / 2 : Nat) : Int) text
    generalize scanLine.etcd st ((countBlanks m0 / 2 : Nat) : Int) text = st1 at h e1
    generalize ((countBlanks m0 / 2 : Nat) : Int) = indent at h
    split_ifs at h with hskip
    · obtain ⟨rfl, rfl⟩ := Prod.mk.inj h
      exact ⟨"", by simp [e1]⟩
    · obtain ⟨l1, -⟩ := scanLine_leave_fields st1 indent
      cases hp : scanLine.pop (scanLine.leave st1 indent) indent with
      | error e =>
        simp only [hp] at h
        obtain ⟨rfl, rfl⟩ := Prod.mk.inj h
        exact ⟨_, by rw [l1, e1, fileContent_append]⟩
      | ok s =>
        simp only [hp] at h
        obtain ⟨rfl, rfl⟩ := Prod.mk.inj h
        refine ⟨fileContent (if indent < st1.prevIndent then ["\n"] else []) ++
          textOf (printedBefore (scanLine.push (scanLine.leave st1 indent) s m1 indent) text ++
            [text]), ?_⟩
        rw [scanLine_print_written]
        show fileContent (scanLine.leave st1 indent).written ++ _ = _
        rw [l1, e1, fileContent_append, String.append_assoc]

theorem scanLoop_written_grows (lines : List String) :
    ∀ (st st' : ScanState) (err : Option String), scanLoop st lines = (st', err) →
      ∃ more, fileContent st'.written = fileContent st.written ++ more := by
  induction lines with
  | nil =>
    intro st st' err h
    simp only [scanLoop] at h
    obtain ⟨rfl, rfl⟩ := Prod.mk.inj h
    exact ⟨"", by simp⟩
  | cons text lines ih =>
    intro st st' err h
    unfold scanLoop at h
    cases hstep : scanLine st text with
    | mk st1 err1 =>
      obtain ⟨m1, hm1⟩ := scanLine_written_grows st st1 text err1 hstep
      rw [hstep] at h
      cases err1 with
      | some e =>
        simp only at h
        obtain ⟨rfl, rfl⟩ := Prod.mk.inj h
        exact ⟨m1, hm1⟩
      | none =>
        simp only at h
        obtain ⟨m2, hm2⟩ := ih st1 st' err h
        exact ⟨m1 ++ m2, by rw [hm2, hm1, String.append_assoc]⟩

theorem scanLoop_cons (st : ScanState) (text : String) (rest : List String) :
    scanLoop st (text :: rest) =
      match scanLine st text with
      | (st', some err) => (st', some err)
      | (st', none) => scanLoop st' rest := rfl

theorem scanLoop_append (xs ys : List String) :
    ∀ (st st1 : ScanState), scanLoop st xs = (st1, none) →
      scanLoop st (xs ++ ys) = scanLoop st1 ys := by
  induction xs with
  | nil =>
    intro st st1 h
    simp only [scanLoop] at h
    obtain ⟨rfl, -⟩ := Prod.mk.inj h
    rfl
  | cons x xs ih =>
    intro st st1 h
    rw [List.cons_append, scanLoop_cons]
    rw [scanLoop_cons] at h
    cases hstep : scanLine st x with
    | mk st2 err2 =>
      rw [hstep] at h
      cases err2 with
      | some e => simp at h
      | none =>
        simp only at h ⊢
        exact ih st2 st1 h

/-- What the scan loop writes for a matched line whose stack, joined with `.`,
is in `oneTimeComments`: at most one empty line, the comment lines indented
like the line, and the line. -/
theorem scanLine_commented (st st' : ScanState) (text m0 m1 : String) (cs : List String)
    (hkey : yamlKeyRE.FindStringSubmatch text = some (m0, m1))
    (hstep : scanLine st text = (st', none))
    (hshown : ¬ (st'.etcdBlock = true ∧ stringsContains text "labels: \x7b\x7d" = true))
    (hreg : st.oneTimeComments.get? (".".intercalate st'.s) = some cs) :
    ∃ pre, (pre = [] ∨ pre = [""]) ∧
      fileContent st'.written = fileContent st.written ++
        textOf (pre ++ cs.map (fun c => blanks (countLeadingSpace text) ++ "# " ++ c) ++ [text]) := by
  unfold scanLine at hstep
  simp only [hkey] at hstep
  obtain ⟨e1, e2, -, -, e5, -⟩ := scanLine_etcd_fields st ((countBlanks m0 / 2 : Nat) : Int) text
  generalize scanLine.etcd st ((countBlanks m0 / 2 : Nat) : Int) text = st1 at hstep e1 e2 e5
  generalize ((countBlanks m0 / 2 : Nat) : Int) = indent at hstep
  split_ifs at hstep with hskip
  · obtain ⟨rfl, -⟩ := Prod.mk.inj hstep
    simp only [Bool.and_eq_true] at hskip
    exact absurd hskip hshown
  · obtain ⟨l1, l2, -, -, -, l6⟩ := scanLine_leave_fields st1 indent
    cases hp : scanLine.pop (scanLine.leave st1 indent) indent with
    | error e =>
      simp only [hp] at hstep
      have := (Prod.mk.inj hstep).2
      simp at this
    | ok s =>
      simp only [hp] at hstep
      obtain ⟨rfl, -⟩ := Prod.mk.inj hstep
      rw [scanLine_print_stack] at hreg
      rw [scanLine_print_written]
      have hpb : printedBefore (scanLine.push (scanLine.leave st1 indent) s m1 indent) text =
          (if (scanLine.leave st1 indent).addNewLineBeforeComment then [""] else []) ++
            cs.map (fun c => blanks (countLeadingSpace text) ++ "# " ++ c) := by
        unfold printedBefore
        have hreg' : (scanLine.push (scanLine.leave st1 indent) s m1 indent).oneTimeComments.get?
            (".".intercalate (scanLine.push (scanLine.leave st1 indent) s m1 indent).s) =
            some cs := by
          show (scanLine.leave st1 indent).oneTimeComments.get? _ = _
          rw [l2, e2]
          exact hreg
        simp only [hreg']
        rfl
      rw [hpb]
      have hw2 : (scanLine.push (scanLine.leave st1 indent) s m1 indent).written =
          (scanLine.leave st1 indent).written := rfl
      rw [hw2, l1, l6, e1, e5]
      by_cases hlt : indent < st1.prevIndent
      · refine ⟨[""], Or.inr rfl, ?_⟩
        simp only [if_pos hlt]
        apply String.ext
        simp [fileContent_append, fileContent_singleton, textOf_append, textOf_singleton,
          textOf_cons]
      · simp only [if_neg hlt]
        cases st.addNewLineBeforeComment
        · refine ⟨[], Or.inl rfl, ?_⟩
          simp [fileContent]
        · refine ⟨[""], Or.inr rfl, ?_⟩
          simp [fileContent]

/-! ## The scan loop: claims -/

set_option maxRecDepth 100000 in
/-- C18 as stated fails: on `exampleDeepText` the scan loop returns the
`Empty Stack` error at the line `docker:`, so that line and the one after it
are missing from what was written. -/
theorem C18_lines_dropped_on_empty_stack :
    (scanLoop (scanStart (commentMap exampleQuotedMinorVersion)) exampleDeepText).2 =
      some "Empty Stack" ∧
    fileContent (scanLoop (scanStart (commentMap exampleQuotedMinorVersion)) exampleDeepText).1.written =
      textOf ["cluster:", "",
        "  # This password is used to login to the Kubernetes Dashboard and can also be",
        "  # used for administration without a security certificate.",
        "  admin_password: |-", "    a", "            b: c", ""] := by
  refine ⟨by decide, by decide⟩

/-- C18, amended: the scan loop never alters a data line.  It scans the lines
up to the end of the text, or up to a line at which it returns the
`Empty Stack` error; what it has written is the scanned lines, each unchanged
and in order, with only inserted lines that are empty or blanks followed by
`# ` and a comment line of the table, and without the lines containing
`labels: {}` that it met inside the etcd block.  When it returns no error,
every line of the text is scanned. -/
theorem C18_scan_keeps_data_lines (comments : CommentTable) (lines : List String) :
    ∃ scanned rest out, lines = scanned ++ rest ∧
      ((scanLoop (scanStart comments) lines).2 = none → rest = []) ∧
      (∀ e, (scanLoop (scanStart comments) lines).2 = some e → e = "Empty Stack" ∧ rest ≠ []) ∧
      fileContent (scanLoop (scanStart comments) lines).1.written = textOf out ∧
      Annotated comments [] scanned out := by
  obtain ⟨scanned, rest, out, h1, h2, h3, h4, h5⟩ :=
    scanLoop_spec comments lines [] (scanStart comments)
      (scanLoop (scanStart comments) lines).1 (scanLoop (scanStart comments) lines).2
      (fun e he => he) rfl rfl
  refine ⟨scanned, rest, out, h1, h2, h3, ?_, h5⟩
  rw [h4]
  rfl

set_option maxRecDepth 100000 in
/-- Witness for C18: the scan of `exampleNfsText` returns no error, so all its
lines are scanned. -/
theorem C18_scan_keeps_data_lines_witness :
    (scanLoop (scanStart (commentMap exampleQuotedMinorVersion)) exampleNfsText).2 = none ∧
    ∃ scanned rest out, exampleNfsText = scanned ++ rest ∧
      ((scanLoop (scanStart (commentMap exampleQuotedMinorVersion)) exampleNfsText).2 = none →
        rest = []) ∧
      (∀ e, (scanLoop (scanStart (commentMap exampleQuotedMinorVersion)) exampleNfsText).2 = some e →
        e = "Empty Stack" ∧ rest ≠ []) ∧
      fileContent (scanLoop (scanStart (commentMap exampleQuotedMinorVersion))
        exampleNfsText).1.written = textOf out ∧
      Annotated (commentMap exampleQuotedMinorVersion) [] scanned out :=
  ⟨by decide, C18_scan_keeps_data_lines (commentMap exampleQuotedMinorVersion) exampleNfsText⟩

set_option maxRecDepth 100000 in
/-- C19 fails on the code: in the marshalled `nfs` section of a plan with two
NFS volumes the dotted path `nfs.nfs_host` is reached once per volume, and its
comment is written both times: the entry is never consumed, because the loop
deletes the key `nfs_host`, not the path `nfs.nfs_host`, from its copy of the
table. -/
theorem C19_nested_comment_written_twice :
    (commentMap exampleQuotedMinorVersion).get? "nfs.nfs_host" =
      some ["The host name or ip address of an NFS server."] ∧
    (scanLoop (scanStart (commentMap exampleQuotedMinorVersion)) exampleNfsText).2 = none ∧
    fileContent (scanLoop (scanStart (commentMap exampleQuotedMinorVersion)) exampleNfsText).1.written =
      textOf ["",
        "# A set of NFS volumes for use by on-cluster persistent workloads.",
        "nfs:",
        "  nfs_volume:",
        "",
        "  # The host name or ip address of an NFS server.",
        "  - nfs_host: 10.0.0.5",
        "    mount_path: /",
        "",
        "  # The host name or ip address of an NFS server.",
        "  - nfs_host: 10.0.0.6",
        "    mount_path: /"] ∧
    (scanLoop (scanStart (commentMap exampleQuotedMinorVersion))
      exampleNfsText).1.oneTimeComments.get? "nfs.nfs_host" =
      some ["The host name or ip address of an NFS server."] := by
  refine ⟨by decide, by decide, by decide, by decide⟩

/-- What the loop writes for a commented line.  `getCommentedLine` builds an
optional newline, then for each comment line the blanks that lead the line,
`# `, the comment and a newline, then the line and a newline.  In the scan
loop, for every line that is matched and not left out and whose stack, joined
with `.`, is still in `oneTimeComments` (the copy of the comment table less
the entries deleted so far), what is written for the line is at most one empty
line, then one line per comment line, in table order, each the leading blanks
of the line, `# ` and the comment text, then the line; and that block stays,
as written, in the output of the whole loop. -/
theorem scanLoop_comment_placement :
    (∀ (line : String) (cs : List String) (addNL : Bool),
      getCommentedLine line cs addNL =
        (if addNL then "\n" else "") ++
          String.join (cs.map (fun c => blanks (countLeadingSpace line) ++ "# " ++ c ++ "\n")) ++
          line ++ "\n") ∧
    (∀ (n : Nat) (s : String), countLeadingSpace (blanks n ++ s) =
        n + countLeadingSpace s) ∧
    (∀ (st st' : ScanState) (text m0 m1 : String) (cs : List String),
      yamlKeyRE.FindStringSubmatch text = some (m0, m1) →
      scanLine st text = (st', none) →
      ¬ (st'.etcdBlock = true ∧ stringsContains text "labels: \x7b\x7d" = true) →
      st.oneTimeComments.get? (".".intercalate st'.s) = some cs →
        ∃ pre, (pre = [] ∨ pre = [""]) ∧
          fileContent st'.written = fileContent st.written ++
            textOf (pre ++ cs.map (fun c => blanks (countLeadingSpace text) ++ "# " ++ c) ++
              [text])) ∧
    (∀ (comments : CommentTable) (before after : List String) (st st' : ScanState)
        (text m0 m1 : String) (cs : List String),
      scanLoop (scanStart comments) before = (st, none) →
      yamlKeyRE.FindStringSubmatch text = some (m0, m1) →
      scanLine st text = (st', none) →
      ¬ (st'.etcdBlock = true ∧ stringsContains text "labels: \x7b\x7d" = true) →
      st.oneTimeComments.get? (".".intercalate st'.s) = some cs →
        ∃ head tail,
          fileContent (scanLoop (scanStart comments) (before ++ text :: after)).1.written =
            head ++ textOf (cs.map (fun c => blanks (countLeadingSpace text) ++ "# " ++ c) ++
              [text]) ++ tail) := by
  refine ⟨?_, ?_, scanLine_commented, ?_⟩
  · intro line cs addNL
    rw [getCommentedLine_eq_textOf]
    cases addNL
    · apply String.ext
      simp [textOf, String.data_join, List.map_map, Function.comp_def]
    · apply String.ext
      simp [textOf, String.data_join, List.map_map, Function.comp_def]
  · intro n s
    unfold countLeadingSpace blanks
    induction n with
    | zero => simp
    | succ n ih =>
      simp only [List.replicate_succ, String.data_append, List.cons_append] at ih ⊢
      rw [List.takeWhile_cons_of_pos (by simp), List.length_cons, ih]
      omega
  · intro comments before after st st' text m0 m1 cs hbefore hkey hstep hshown hreg
    obtain ⟨pre, -, hw⟩ := scanLine_commented st st' text m0 m1 cs hkey hstep hshown hreg
    have hloop : scanLoop (scanStart comments) (before ++ text :: after) = scanLoop st' after := by
      rw [scanLoop_append before (text :: after) _ st hbefore]
      rw [scanLoop_cons, hstep]
    obtain ⟨more, hmore⟩ := scanLoop_written_grows after st' (scanLoop st' after).1
      (scanLoop st' after).2 rfl
    refine ⟨fileContent st.written ++ textOf pre, more, ?_⟩
    rw [hloop, hmore, hw, textOf_append, textOf_append, textOf_append]
    apply String.ext
    simp

set_option maxRecDepth 100000 in
/-- The lemma `scanLoop_comment_placement` at the first line `nfs:` of a text,
whose path `nfs` is in the comment table. -/
theorem scanLoop_comment_placement_example :
    ∃ pre, (pre = [] ∨ pre = [""]) ∧
      fileContent (scanLine (scanStart (commentMap exampleQuotedMinorVersion)) "nfs:").1.written =
        fileContent (scanStart (commentMap exampleQuotedMinorVersion)).written ++
          textOf (pre ++
            ["A set of NFS volumes for use by on-cluster persistent workloads."].map
              (fun c => blanks (countLeadingSpace "nfs:") ++ "# " ++ c) ++ ["nfs:"]) :=
  scanLoop_comment_placement.2.2.1 (scanStart (commentMap exampleQuotedMinorVersion))
    (scanLine (scanStart (commentMap exampleQuotedMinorVersion)) "nfs:").1 "nfs:" "nfs:" "nfs"
    ["A set of NFS volumes for use by on-cluster persistent workloads."]
    (by decide) (by decide) (by decide) (by decide)

/-! ## Paths: lemmas -/

theorem splitChars_ne_nil (sep : Char) (cs : List Char) : splitChars sep cs ≠ [] := by
  cases cs with
  | nil => simp [splitChars]
  | cons c cs =>
    unfold splitChars
    split_ifs <;> simp

theorem splitChars_of_not_mem (sep : Char) (cs : List Char) (h : sep ∉ cs) :
    splitChars sep cs = [cs] := by
  induction cs with
  | nil => rfl
  | cons c cs ih =>
    have hc : c ≠ sep := fun e => h (by simp [e])
    have hcs : sep ∉ cs := fun e => h (List.mem_cons_of_mem _ e)
    unfold splitChars
    rw [if_neg hc, ih hcs]
    rfl

theorem splitChars_cons (sep c : Char) (cs : List Char) :
    splitChars sep (c :: cs) =
      if c = sep then [] :: splitChars sep cs
      else (c :: (splitChars sep cs).headD []) :: (splitChars sep cs).tail := rfl

theorem splitChars_append (sep : Char) (a b : List Char) :
    splitChars sep (a ++ sep :: b) = splitChars sep a ++ splitChars sep b := by
  induction a with
  | nil => simp [splitChars]
  | cons c a ih =>
    have hne := splitChars_ne_nil sep a
    simp only [List.cons_append]
    rw [splitChars_cons, splitChars_cons]
    by_cases hc : c = sep
    · rw [if_pos hc, if_pos hc, ih]
      rfl
    · rw [if_neg hc, if_neg hc, ih]
      cases hs : splitChars sep a with
      | nil => exact absurd hs hne
      | cons e es => rfl

theorem filepathSplit_of_not_mem (x : List Char) (h : '/' ∉ x) :
    filepathSplit (String.mk x) = ("", String.mk x) := by
  have hr : ∀ c ∈ x.reverse, (decide (c ≠ '/')) = true := by
    intro c hc
    have : c ≠ '/' := fun e => h (e ▸ List.mem_reverse.1 hc)
    simpa using this
  unfold filepathSplit
  simp only [List.takeWhile_eq_self_iff.2 hr, List.dropWhile_eq_nil_iff.2 hr, List.reverse_reverse,
    List.reverse_nil]

theorem filepathSplit_append (d x : List Char) (h : '/' ∉ x) :
    filepathSplit (String.mk (d ++ '/' :: x)) = (String.mk (d ++ ['/']), String.mk x) := by
  have hr : ∀ c ∈ x.reverse, (decide (c ≠ '/')) = true := by
    intro c hc
    have : c ≠ '/' := fun e => h (e ▸ List.mem_reverse.1 hc)
    simpa using this
  unfold filepathSplit
  have e1 : (d ++ '/' :: x).reverse = x.reverse ++ '/' :: d.reverse := by simp
  simp only [e1]
  rw [List.takeWhile_append_of_pos hr, List.dropWhile_append_of_pos hr]
  simp

theorem filepathJoin_cons (e : String) (rest : List String) (h : e ≠ "") :
    filepathJoin (e :: rest) = filepathClean ("/".intercalate (e :: rest)) := by
  unfold filepathJoin
  rw [if_pos h]

/-- The characters of the joined path `clusters/<name>/<file>`. -/
theorem clusters_path_data (name file : String) :
    ("/".intercalate ["clusters", name, file]).data =
      "clusters".data ++ '/' :: (name.data ++ '/' :: file.data) := by
  simp [String.intercalate, String.intercalate.go]

theorem filepathJoin_clusters (name : String) (file : List Char) (hf1 : '/' ∉ file)
    (hf2 : file ≠ []) (hf3 : file ≠ ['.']) (hf4 : file ≠ ['.', '.']) :
    filepathJoin ["clusters", name, String.mk file] =
      String.mk (['/'].intercalate ((clustersKept name).reverse ++ [file])) := by
  rw [filepathJoin_cons _ _ (by decide)]
  unfold filepathClean
  simp only [clusters_path_data]
  have hroot : ((("clusters".data ++ '/' :: (name.data ++ '/' :: file)).head? == some '/') = false) := by
    rfl
  simp only [hroot]
  rw [splitChars_append, splitChars_append, splitChars_of_not_mem _ _ hf1,
    splitChars_of_not_mem '/' "clusters".data (by decide)]
  simp only [List.foldl_append, List.foldl_cons, List.foldl_nil]
  have h1 : filepathClean.step false [] "clusters".data = ["clusters".data] := by decide
  rw [h1]
  have h2 : ∀ rev, filepathClean.step false rev file = file :: rev := by
    intro rev
    unfold filepathClean.step
    rw [if_neg (by simp [hf2, hf3]), if_neg hf4]
  rw [h2]
  simp [clustersKept]

theorem intercalate_snoc (K : List (List Char)) (x : List Char) :
    ['/'].intercalate (K ++ [x]) =
      if K = [] then x else ['/'].intercalate K ++ '/' :: x := by
  induction K with
  | nil => simp [List.intercalate]
  | cons k K ih =>
    cases K with
    | nil => simp [List.intercalate]
    | cons k2 K =>
      simp only [List.cons_append, reduceCtorEq, if_false] at ih ⊢
      have e : ∀ (a : List Char) (L : List (List Char)) (b : List Char),
          ['/'].intercalate (a :: b :: L) = a ++ '/' :: ['/'].intercalate (b :: L) := by
        intro a L b
        simp [List.intercalate, List.intersperse]
      rw [e, e k, ih]
      simp

theorem filepathSplit_clusters (name : String) (file : List Char) (hf1 : '/' ∉ file)
    (hf2 : file ≠ []) (hf3 : file ≠ ['.']) (hf4 : file ≠ ['.', '.']) :
    (filepathSplit (filepathJoin ["clusters", name, String.mk file])).1 =
      if clustersKept name = [] then ""
      else String.mk (['/'].intercalate (clustersKept name).reverse ++ ['/']) := by
  rw [filepathJoin_clusters name file hf1 hf2 hf3 hf4, intercalate_snoc]
  by_cases hk : clustersKept name = []
  · simp only [hk, List.reverse_nil, if_true]
    rw [filepathSplit_of_not_mem _ hf1]
  · have hk' : (clustersKept name).reverse ≠ [] := by simpa using hk
    rw [if_neg hk', if_neg hk, filepathSplit_append _ _ hf1]

theorem clustersKept_of_element (name : String) (h : IsPathElement name) :
    clustersKept name = [name.data, "clusters".data] := by
  obtain ⟨h1, h2, h3, h4⟩ := h
  unfold clustersKept
  rw [splitChars_of_not_mem _ _ h2]
  simp only [List.foldl_cons, List.foldl_nil]
  unfold filepathClean.step
  have e1 : name.data ≠ [] := fun e => h1 (String.ext e)
  have e3 : name.data ≠ ['.'] := fun e => h3 (String.ext e)
  have e4 : name.data ≠ ['.', '.'] := fun e => h4 (String.ext e)
  rw [if_neg (by simp [e1, e3]), if_neg e4]

/-! ## Cluster directories: claims -/

/-- C23: `SetDirs(name)` sets `PlanFile` to `clusters/<name>/kismatic-cluster.yaml`
and `GeneratedDir` to `clusters/<name>/generated`.  For every name the two are
these paths as `filepath.Join` cleans them, they depend on nothing but the
name, and they lie in the same directory; for every name that is one proper
path element they are these very strings, in the directory `clusters/<name>/`;
for `prod` they are `clusters/prod/kismatic-cluster.yaml` and
`clusters/prod/generated`. -/
theorem C23_SetDirs_paths :
    (∀ (fp : FilePlanner) (name : String),
      (fp.SetDirs name).PlanFile = filepathClean ("clusters/" ++ name ++ "/kismatic-cluster.yaml") ∧
      (fp.SetDirs name).GeneratedDir = filepathClean ("clusters/" ++ name ++ "/generated")) ∧
    (∀ (fp fp' : FilePlanner) (name : String), fp.SetDirs name = fp'.SetDirs name) ∧
    (∀ (fp : FilePlanner) (name : String),
      (filepathSplit (fp.SetDirs name).PlanFile).1 = (filepathSplit (fp.SetDirs name).GeneratedDir).1) ∧
    (∀ (fp : FilePlanner) (name : String), IsPathElement name →
      (fp.SetDirs name).PlanFile = "clusters/" ++ name ++ "/kismatic-cluster.yaml" ∧
      (fp.SetDirs name).GeneratedDir = "clusters/" ++ name ++ "/generated" ∧
      filepathSplit (fp.SetDirs name).PlanFile = ("clusters/" ++ name ++ "/", "kismatic-cluster.yaml") ∧
      filepathSplit (fp.SetDirs name).GeneratedDir = ("clusters/" ++ name ++ "/", "generated")) ∧
    FilePlanner.SetDirs {} "prod" =
      { PlanFile := "clusters/prod/kismatic-cluster.yaml", GeneratedDir := "clusters/prod/generated" } := by
  have hP : ∀ (fp : FilePlanner) (name : String),
      (fp.SetDirs name).PlanFile = filepathJoin ["clusters", name, "kismatic-cluster.yaml"] :=
    fun _ _ => rfl
  have hG : ∀ (fp : FilePlanner) (name : String),
      (fp.SetDirs name).GeneratedDir = filepathJoin ["clusters", name, "generated"] :=
    fun _ _ => rfl
  refine ⟨?_, fun _ _ _ => rfl, ?_, ?_, by decide⟩
  · intro fp name
    rw [hP, hG, filepathJoin_cons _ _ (by decide), filepathJoin_cons _ _ (by decide)]
    constructor <;>
    · congr 1
      apply String.ext
      simp [String.intercalate, String.intercalate.go]
  · intro fp name
    rw [hP, hG]
    have h1 := filepathSplit_clusters name "kismatic-cluster.yaml".data (by decide) (by decide)
      (by decide) (by decide)
    have h2 := filepathSplit_clusters name "generated".data (by decide) (by decide)
      (by decide) (by decide)
    exact h1.trans h2.symm
  · intro fp name hname
    have hk := clustersKept_of_element name hname
    have e1 : (fp.SetDirs name).PlanFile = "clusters/" ++ name ++ "/kismatic-cluster.yaml" := by
      rw [hP]
      have := filepathJoin_clusters name "kismatic-cluster.yaml".data (by decide) (by decide)
        (by decide) (by decide)
      rw [hk] at this
      rw [show ("kismatic-cluster.yaml" : String) = String.mk "kismatic-cluster.yaml".data from rfl,
        this]
      apply String.ext
      simp [List.intercalate, List.intersperse]
    have e2 : (fp.SetDirs name).GeneratedDir = "clusters/" ++ name ++ "/generated" := by
      rw [hG]
      have := filepathJoin_clusters name "generated".data (by decide) (by decide)
        (by decide) (by decide)
      rw [hk] at this
      rw [show ("generated" : String) = String.mk "generated".data from rfl, this]
      apply String.ext
      simp [List.intercalate, List.intersperse]
    refine ⟨e1, e2, ?_, ?_⟩
    · rw [e1]
      have := filepathSplit_append ("clusters/" ++ name).data "kismatic-cluster.yaml".data (by decide)
      have e : "clusters/" ++ name ++ "/kismatic-cluster.yaml" =
          String.mk (("clusters/" ++ name).data ++ '/' :: "kismatic-cluster.yaml".data) := by
        apply String.ext
        simp
      rw [e, this]
      refine Prod.ext ?_ rfl
      apply String.ext
      simp
    · rw [e2]
      have := filepathSplit_append ("clusters/" ++ name).data "generated".data (by decide)
      have e : "clusters/" ++ name ++ "/generated" =
          String.mk (("clusters/" ++ name).data ++ '/' :: "generated".data) := by
        apply String.ext
        simp
      rw [e, this]
      refine Prod.ext ?_ rfl
      apply String.ext
      simp

/-- Witness for C23: the name `staging` is one proper path element. -/
theorem C23_SetDirs_paths_witness :
    (FilePlanner.SetDirs {} "staging").PlanFile = "clusters/" ++ "staging" ++ "/kismatic-cluster.yaml" ∧
    (FilePlanner.SetDirs {} "staging").GeneratedDir = "clusters/" ++ "staging" ++ "/generated" ∧
    filepathSplit (FilePlanner.SetDirs {} "staging").PlanFile =
      ("clusters/" ++ "staging" ++ "/", "kismatic-cluster.yaml") ∧
    filepathSplit (FilePlanner.SetDirs {} "staging").GeneratedDir =
      ("clusters/" ++ "staging" ++ "/", "generated") :=
  C23_SetDirs_paths.2.2.2.1 {} "staging" (by decide)

/-- C27 fails on the code: `defaultClusterPath` is
`clusters/kubernetes/kismatic-kismatic.yaml`, not the plan file
`clusters/kubernetes/kismatic-cluster.yaml` that `SetDirs("kubernetes")`
produces; `defaultGeneratedPath` is the generated directory that
`SetDirs("kubernetes")` produces. -/
theorem C27_default_plan_path_off_layout :
    defaultClusterPath = "clusters/kubernetes/kismatic-kismatic.yaml" ∧
    (FilePlanner.SetDirs {} "kubernetes").PlanFile = "clusters/kubernetes/kismatic-cluster.yaml" ∧
    defaultClusterPath ≠ (FilePlanner.SetDirs {} "kubernetes").PlanFile ∧
    defaultGeneratedPath = (FilePlanner.SetDirs {} "kubernetes").GeneratedDir ∧
    defaultGeneratedPath = "clusters/kubernetes/generated" := by
  refine ⟨by decide, by decide, by decide, by decide, by decide⟩

/-! ## The commands: lemmas on the loops over cluster names -/

theorem resolvedPairs_append (t u : List CliCall) :
    resolvedPairs (t ++ u) = resolvedPairs t ++ resolvedPairs u := by
  simp [resolvedPairs, List.filterMap_append]

theorem SetDirs_pair (fp : FilePlanner) (name : String) :
    ((fp.SetDirs name).PlanFile, (fp.SetDirs name).GeneratedDir) =
      ((FilePlanner.SetDirs {} name).PlanFile, (FilePlanner.SetDirs {} name).GeneratedDir) := rfl

theorem NewCmdValidate_loop_pairs (env : CliCollaborators) (names : List String) :
    ∀ (planner : FilePlanner) (t : List CliCall) (pr : String × String),
      pr ∈ resolvedPairs (NewCmdValidate.loop env planner names t).1 →
        pr ∈ resolvedPairs t ∨ ∃ n ∈ names,
          pr = ((FilePlanner.SetDirs {} n).PlanFile, (FilePlanner.SetDirs {} n).GeneratedDir) := by
  induction names with
  | nil =>
    intro planner t pr h
    exact Or.inl (by simpa [NewCmdValidate.loop] using h)
  | cons n rest ih =>
    intro planner t pr h
    unfold NewCmdValidate.loop at h
    simp only at h
    have hstep : pr ∈ resolvedPairs (t ++ [CliCall.doValidate (planner.SetDirs n)]) →
        pr ∈ resolvedPairs t ∨ ∃ m ∈ n :: rest,
          pr = ((FilePlanner.SetDirs {} m).PlanFile, (FilePlanner.SetDirs {} m).GeneratedDir) := by
      intro h'
      rw [resolvedPairs_append] at h'
      rcases List.mem_append.1 h' with h' | h'
      · exact Or.inl h'
      · refine Or.inr ⟨n, List.mem_cons_self _ _, ?_⟩
        simpa [resolvedPairs, CliCall.resolved?, SetDirs_pair] using h'
    cases hv : env.doValidate (planner.SetDirs n) with
    | some err =>
      rw [hv] at h
      exact hstep h
    | none =>
      rw [hv] at h
      rcases ih _ _ pr h with h' | ⟨m, hm, e⟩
      · exact hstep h'
      · exact Or.inr ⟨m, List.mem_cons_of_mem _ hm, e⟩

theorem NewCmdProvision_loop_pairs (env : CliCollaborators) (names : List String) :
    ∀ (planner : FilePlanner) (t : List CliCall) (pr : String × String),
      pr ∈ resolvedPairs (NewCmdProvision.loop env planner names t).1 →
        pr ∈ resolvedPairs t ∨ ∃ n ∈ names,
          pr = ((FilePlanner.SetDirs {} n).PlanFile, (FilePlanner.SetDirs {} n).GeneratedDir) := by
  induction names with
  | nil =>
    intro planner t pr h
    exact Or.inl (by simpa [NewCmdProvision.loop] using h)
  | cons n rest ih =>
    intro planner t pr h
    unfold NewCmdProvision.loop at h
    simp only at h
    have hstep : pr ∈ resolvedPairs (t ++ [CliCall.doProvision (planner.SetDirs n)]) →
        pr ∈ resolvedPairs t ∨ ∃ m ∈ n :: rest,
          pr = ((FilePlanner.SetDirs {} m).PlanFile, (FilePlanner.SetDirs {} m).GeneratedDir) := by
      intro h'
      rw [resolvedPairs_append] at h'
      rcases List.mem_append.1 h' with h' | h'
      · exact Or.inl h'
      · refine Or.inr ⟨n, List.mem_cons_self _ _, ?_⟩
        simpa [resolvedPairs, CliCall.resolved?, SetDirs_pair] using h'
    cases hv : env.doProvision (planner.SetDirs n) with
    | some err =>
      rw [hv] at h
      exact hstep h
    | none =>
      rw [hv] at h
      rcases ih _ _ pr h with h' | ⟨m, hm, e⟩
      · exact hstep h'
      · exact Or.inr ⟨m, List.mem_cons_of_mem _ hm, e⟩

theorem NewCmdDestroy_loop_pairs (env : CliCollaborators) (names : List String) :
    ∀ (planner : FilePlanner) (t : List CliCall) (pr : String × String),
      pr ∈ resolvedPairs (NewCmdDestroy.loop env planner names t).1 →
        pr ∈ resolvedPairs t ∨ ∃ n ∈ names,
          pr = ((FilePlanner.SetDirs {} n).PlanFile, (FilePlanner.SetDirs {} n).GeneratedDir) := by
  induction names with
  | nil =>
    intro planner t pr h
    exact Or.inl (by simpa [NewCmdDestroy.loop] using h)
  | cons n rest ih =>
    intro planner t pr h
    unfold NewCmdDestroy.loop at h
    simp only at h
    have hstep : pr ∈ resolvedPairs (t ++ [CliCall.doDestroy (planner.SetDirs n)]) →
        pr ∈ resolvedPairs t ∨ ∃ m ∈ n :: rest,
          pr = ((FilePlanner.SetDirs {} m).PlanFile, (FilePlanner.SetDirs {} m).GeneratedDir) := by
      intro h'
      rw [resolvedPairs_append] at h'
      rcases List.mem_append.1 h' with h' | h'
      · exact Or.inl h'
      · refine Or.inr ⟨n, List.mem_cons_self _ _, ?_⟩
        simpa [resolvedPairs, CliCall.resolved?, SetDirs_pair] using h'
    cases hv : env.doDestroy (planner.SetDirs n) with
    | some err =>
      rw [hv] at h
      exact hstep h
    | none =>
      rw [hv] at h
      rcases ih _ _ pr h with h' | ⟨m, hm, e⟩
      · exact hstep h'
      · exact Or.inr ⟨m, List.mem_cons_of_mem _ hm, e⟩

theorem NewCmdApply_run_pairs (env : CliCollaborators) (planner : FilePlanner) (t : List CliCall)
    (pr : String × String) (h : pr ∈ resolvedPairs (NewCmdApply.run env planner t).1) :
    pr ∈ resolvedPairs t ∨ pr = (planner.PlanFile, planner.GeneratedDir) := by
  unfold NewCmdApply.run at h
  simp only at h
  cases hv : env.NewExecutor planner.PlanFile with
  | some err =>
    rw [hv] at h
    left
    simpa [resolvedPairs_append, resolvedPairs, CliCall.resolved?] using h
  | none =>
    rw [hv] at h
    simp only [resolvedPairs_append, List.mem_append] at h
    rcases h with (h | h) | h
    · exact Or.inl h
    · simp [resolvedPairs, CliCall.resolved?] at h
    · right
      simpa [resolvedPairs, CliCall.resolved?] using h

theorem NewCmdApply_loop_pairs (env : CliCollaborators) (names : List String) :
    ∀ (planner : FilePlanner) (t : List CliCall) (pr : String × String),
      pr ∈ resolvedPairs (NewCmdApply.loop env planner names t).1 →
        pr ∈ resolvedPairs t ∨ ∃ n ∈ names,
          pr = ((FilePlanner.SetDirs {} n).PlanFile, (FilePlanner.SetDirs {} n).GeneratedDir) := by
  induction names with
  | nil =>
    intro planner t pr h
    exact Or.inl (by simpa [NewCmdApply.loop] using h)
  | cons n rest ih =>
    intro planner t pr h
    unfold NewCmdApply.loop at h
    simp only at h
    have hstep : pr ∈ resolvedPairs (NewCmdApply.run env (planner.SetDirs n) t).1 →
        pr ∈ resolvedPairs t ∨ ∃ m ∈ n :: rest,
          pr = ((FilePlanner.SetDirs {} m).PlanFile, (FilePlanner.SetDirs {} m).GeneratedDir) := by
      intro h'
      rcases NewCmdApply_run_pairs env _ t pr h' with h' | h'
      · exact Or.inl h'
      · exact Or.inr ⟨n, List.mem_cons_self _ _, h'.trans (SetDirs_pair planner n)⟩
    cases hv : NewCmdApply.run env (planner.SetDirs n) t with
    | mk t1 e1 =>
      rw [hv] at h hstep
      cases e1 with
      | some err => exact hstep h
      | none =>
        simp only at h
        rcases ih _ _ pr h with h' | ⟨m, hm, e⟩
        · exact hstep h'
        · exact Or.inr ⟨m, List.mem_cons_of_mem _ hm, e⟩

theorem NewCmdStep_loop_pairs (env : CliCollaborators) (names : List String) :
    ∀ (t : List CliCall) (pr : String × String),
      pr ∈ resolvedPairs (NewCmdStep.loop env names t).1 →
        pr ∈ resolvedPairs t ∨ ∃ n ∈ names,
          pr = ((FilePlanner.SetDirs {} n).PlanFile, (FilePlanner.SetDirs {} n).GeneratedDir) := by
  induction names with
  | nil =>
    intro t pr h
    exact Or.inl (by simpa [NewCmdStep.loop] using h)
  | cons n rest ih =>
    intro t pr h
    unfold NewCmdStep.loop at h
    simp only at h
    cases hv : env.NewExecutor (FilePlanner.SetDirs {} n).GeneratedDir with
    | some err =>
      rw [hv] at h
      left
      simpa [resolvedPairs_append, resolvedPairs, CliCall.resolved?] using h
    | none =>
      rw [hv] at h
      simp only at h
      have hstep : pr ∈ resolvedPairs ((t ++ [CliCall.NewExecutor (FilePlanner.SetDirs {} n).GeneratedDir]) ++
          [CliCall.stepCmdRun (FilePlanner.SetDirs {} n) (FilePlanner.SetDirs {} n).PlanFile
            (FilePlanner.SetDirs {} n).GeneratedDir]) →
          pr ∈ resolvedPairs t ∨ ∃ m ∈ n :: rest,
            pr = ((FilePlanner.SetDirs {} m).PlanFile, (FilePlanner.SetDirs {} m).GeneratedDir) := by
        intro h'
        simp only [resolvedPairs_append, List.mem_append] at h'
        rcases h' with (h' | h') | h'
        · exact Or.inl h'
        · simp [resolvedPairs, CliCall.resolved?] at h'
        · refine Or.inr ⟨n, List.mem_cons_self _ _, ?_⟩
          simpa [resolvedPairs, CliCall.resolved?] using h'
      cases hr : env.stepCmdRun (FilePlanner.SetDirs {} n) (FilePlanner.SetDirs {} n).PlanFile
          (FilePlanner.SetDirs {} n).GeneratedDir with
      | some err =>
        rw [hr] at h
        exact hstep h
      | none =>
        rw [hr] at h
        rcases ih _ pr h with h' | ⟨m, hm, e⟩
        · exact hstep h'
        · exact Or.inr ⟨m, List.mem_cons_of_mem _ hm, e⟩

/-- With a name and the default flag values, the pairs `validate`, `apply`,
`provision` and `destroy` work with are those of `SetDirs` on a given name. -/
theorem named_pairs (env : CliCollaborators) (name : String) (rest : List String)
    (pr : String × String)
    (h : pr ∈ resolvedPairs (NewCmdValidate.RunE env defaultInstallOpts (name :: rest)).1 ∨
      pr ∈ resolvedPairs (NewCmdApply.RunE env defaultInstallOpts (name :: rest)).1 ∨
      pr ∈ resolvedPairs (NewCmdProvision.RunE env defaultInstallOpts (name :: rest)).1 ∨
      pr ∈ resolvedPairs (NewCmdDestroy.RunE env defaultInstallOpts (name :: rest)).1) :
    ∃ n ∈ name :: rest,
      pr = ((FilePlanner.SetDirs {} n).PlanFile, (FilePlanner.SetDirs {} n).GeneratedDir) := by
  have hnil : pr ∉ resolvedPairs [] := by simp [resolvedPairs]
  rcases h with h | h | h | h
  · simp only [NewCmdValidate.RunE, defaultInstallOpts, List.length_cons, gt_iff_lt,
      Nat.zero_lt_succ, and_self, if_true] at h
    exact (NewCmdValidate_loop_pairs env _ _ _ pr h).resolve_left hnil
  · simp only [NewCmdApply.RunE, defaultInstallOpts, List.length_cons, gt_iff_lt,
      Nat.zero_lt_succ, and_self, if_true] at h
    exact (NewCmdApply_loop_pairs env _ _ _ pr h).resolve_left hnil
  · simp [NewCmdProvision.RunE, defaultInstallOpts] at h
    exact (NewCmdProvision_loop_pairs env _ _ _ pr h).resolve_left hnil
  · simp [NewCmdDestroy.RunE, defaultInstallOpts] at h
    exact (NewCmdDestroy_loop_pairs env _ _ _ pr h).resolve_left hnil

/-- With a name, a play and the default flag values, the pairs `step` works
with are those of `SetDirs` on a given name. -/
theorem named_pairs_step (env : CliCollaborators) (name : String) (rest : List String)
    (play : String) (pr : String × String)
    (h : pr ∈ resolvedPairs (NewCmdStep.RunE env defaultInstallOpts (name :: rest ++ [play])).1) :
    ∃ n ∈ name :: rest,
      pr = ((FilePlanner.SetDirs {} n).PlanFile, (FilePlanner.SetDirs {} n).GeneratedDir) := by
  have hlast : (name :: rest ++ [play]).getLast? = some play := by
    have : ((name :: rest) ++ [play]).getLast? = some play := List.getLast?_concat _
    exact this
  have hdrop : (name :: rest ++ [play]).dropLast = name :: rest := by
    have : ((name :: rest) ++ [play]).dropLast = name :: rest := List.dropLast_concat
    exact this
  have hlen : (name :: rest ++ [play]).length > 1 := by simp
  have hlen1 : ¬ (name :: rest ++ [play]).length = 1 := by simp
  have hflags : ¬ (defaultInstallOpts.GeneratedDir ≠ defaultGeneratedPath ∨
      defaultInstallOpts.PlanFile ≠ defaultClusterPath) := by
    simp [defaultInstallOpts]
  unfold NewCmdStep.RunE at h
  rw [hlast] at h
  simp only at h
  by_cases h1 : (env.ValidatePlaybookExists play).1 = false
  · rw [if_pos h1] at h
    simp [resolvedPairs, CliCall.resolved?] at h
  · rw [if_neg h1] at h
    cases hv : (env.ValidatePlaybookExists play).2 with
    | some err =>
      rw [hv] at h
      simp [resolvedPairs, CliCall.resolved?] at h
    | none =>
      rw [hv] at h
      simp only at h
      rw [if_pos hlen, if_neg hflags, hdrop] at h
      rcases NewCmdStep_loop_pairs env _ _ pr h with h' | h'
      · simp [resolvedPairs, CliCall.resolved?] at h'
      · exact h'


/-! ## The commands: claims -/

/-- C24 fails on the code: `add-node` called with a cluster name and the
default flag values hands `doAddNode` the empty planner, in its form of three
arguments and in its form of four, so the plan is read and written at the
empty path and not at `clusters/prod/kismatic-cluster.yaml`.  The other five
commands do use `SetDirs` on the names they are given. -/
theorem C24_add_node_ignores_cluster_name :
    NewCmdAddNode.RunE exampleCliCollaborators defaultInstallOpts {} ["prod", "node1", "10.0.0.9"] =
      ([CliCall.ValidateClusterExists "prod",
        CliCall.doAddNode { PlanFile := "", GeneratedDir := "" } { Roles := ["worker"] }
          { Host := "node1", IP := "10.0.0.9" }], none) ∧
    NewCmdAddNode.RunE exampleCliCollaborators defaultInstallOpts {}
        ["prod", "node1", "10.0.0.9", "10.1.0.9"] =
      ([CliCall.ValidateClusterExists "prod",
        CliCall.doAddNode { PlanFile := "", GeneratedDir := "" } { Roles := ["worker"] }
          { Host := "node1", IP := "10.0.0.9", InternalIP := "10.1.0.9" }], none) ∧
    FilePlanner.SetDirs {} "prod" =
      { PlanFile := "clusters/prod/kismatic-cluster.yaml", GeneratedDir := "clusters/prod/generated" } ∧
    (∀ (env : CliCollaborators) (name : String) (rest : List String) (pr : String × String),
      (pr ∈ resolvedPairs (NewCmdValidate.RunE env defaultInstallOpts (name :: rest)).1 ∨
        pr ∈ resolvedPairs (NewCmdApply.RunE env defaultInstallOpts (name :: rest)).1 ∨
        pr ∈ resolvedPairs (NewCmdProvision.RunE env defaultInstallOpts (name :: rest)).1 ∨
        pr ∈ resolvedPairs (NewCmdDestroy.RunE env defaultInstallOpts (name :: rest)).1) →
      ∃ n ∈ name :: rest,
        pr = ((FilePlanner.SetDirs {} n).PlanFile, (FilePlanner.SetDirs {} n).GeneratedDir)) ∧
    (∀ (env : CliCollaborators) (name : String) (rest : List String) (play : String)
        (pr : String × String),
      pr ∈ resolvedPairs (NewCmdStep.RunE env defaultInstallOpts (name :: rest ++ [play])).1 →
      ∃ n ∈ name :: rest,
        pr = ((FilePlanner.SetDirs {} n).PlanFile, (FilePlanner.SetDirs {} n).GeneratedDir)) ∧
    resolvedPairs (NewCmdValidate.RunE exampleCliCollaborators defaultInstallOpts ["prod"]).1 =
      [("clusters/prod/kismatic-cluster.yaml", "clusters/prod/generated")] ∧
    resolvedPairs (NewCmdApply.RunE exampleCliCollaborators defaultInstallOpts ["prod"]).1 =
      [("clusters/prod/kismatic-cluster.yaml", "clusters/prod/generated")] ∧
    resolvedPairs (NewCmdProvision.RunE exampleCliCollaborators defaultInstallOpts ["prod"]).1 =
      [("clusters/prod/kismatic-cluster.yaml", "clusters/prod/generated")] ∧
    resolvedPairs (NewCmdDestroy.RunE exampleCliCollaborators defaultInstallOpts ["prod"]).1 =
      [("clusters/prod/kismatic-cluster.yaml", "clusters/prod/generated")] ∧
    resolvedPairs (NewCmdStep.RunE exampleCliCollaborators defaultInstallOpts ["prod", "kubeconfig"]).1 =
      [("clusters/prod/kismatic-cluster.yaml", "clusters/prod/generated")] := by
  refine ⟨by decide, by decide, by decide, named_pairs, named_pairs_step,
    by decide, by decide, by decide, by decide, by decide⟩

/-- Witness for C24: `provision prod` under collaborators that all succeed. -/
theorem C24_add_node_ignores_cluster_name_witness :
    ∃ n ∈ ["prod"], ("clusters/prod/kismatic-cluster.yaml", "clusters/prod/generated") =
      ((FilePlanner.SetDirs {} n).PlanFile, (FilePlanner.SetDirs {} n).GeneratedDir) :=
  C24_add_node_ignores_cluster_name.2.2.2.1 exampleCliCollaborators "prod" []
    ("clusters/prod/kismatic-cluster.yaml", "clusters/prod/generated")
    (Or.inr (Or.inr (Or.inl (by decide))))

/-- C25 fails on the code: `add-node` called with four arguments and
`--plan-file=/tmp/p.yaml` returns no error for the conflict and goes on to
`doAddNode`, which reads the plan.  With a name and a flag value that differs
from its default, `validate`, `apply`, `provision` and `destroy` return their
error before any other call, `step` returns an error before any call that
reads a plan, and so does `add-node` in its named form of three arguments. -/
theorem C25_add_node_four_arguments_skip_conflict_check :
    NewCmdAddNode.RunE exampleCliCollaborators { defaultInstallOpts with PlanFile := "/tmp/p.yaml" } {}
        ["prod", "node1", "10.0.0.9", "10.1.0.9"] =
      ([CliCall.ValidateClusterExists "prod",
        CliCall.doAddNode { PlanFile := "", GeneratedDir := "" } { Roles := ["worker"] }
          { Host := "node1", IP := "10.0.0.9", InternalIP := "10.1.0.9" }], none) ∧
    NewCmdAddNode.RunE exampleCliCollaborators { defaultInstallOpts with PlanFile := "/tmp/p.yaml" } {}
        ["prod", "node1", "10.0.0.9"] =
      ([], some "cannot specify clusters by name and by plan or generated flags") ∧
    (∀ (env : CliCollaborators) (installOpts : InstallOpts) (name : String) (rest : List String),
      (installOpts.PlanFile ≠ defaultClusterPath ∨ installOpts.GeneratedDir ≠ defaultGeneratedPath) →
      NewCmdValidate.RunE env installOpts (name :: rest) =
        ([], some "Error validating: cannot specify clusters by name and by plan file flag or generated dir flag") ∧
      NewCmdApply.RunE env installOpts (name :: rest) =
        ([], some "Error validating: cannot specify clusters by name and by plan file flag or generated dir flag") ∧
      NewCmdProvision.RunE env installOpts (name :: rest) =
        ([], some "cannot specify clusters by name and by plan file or generated dir flag") ∧
      NewCmdDestroy.RunE env installOpts (name :: rest) =
        ([], some "cannot specify clusters by name and by plan file or generated dir flag")) ∧
    (∀ (env : CliCollaborators) (installOpts : InstallOpts) (name : String) (rest : List String)
        (play : String),
      (installOpts.PlanFile ≠ defaultClusterPath ∨ installOpts.GeneratedDir ≠ defaultGeneratedPath) →
      (NewCmdStep.RunE env installOpts (name :: rest ++ [play])).2 ≠ none ∧
      (NewCmdStep.RunE env installOpts (name :: rest ++ [play])).1 =
        [CliCall.ValidatePlaybookExists play]) ∧
    (∀ (env : CliCollaborators) (installOpts : InstallOpts) (opts : addNodeOpts) (a0 a1 a2 : String),
      (installOpts.PlanFile ≠ defaultClusterPath ∨ installOpts.GeneratedDir ≠ defaultGeneratedPath) →
      env.ValidateAllowedAddress a1 = false → env.ValidateAllowedAddress a2 = true →
      NewCmdAddNode.RunE env installOpts opts [a0, a1, a2] =
        ([], some "cannot specify clusters by name and by plan or generated flags")) := by
  refine ⟨by decide, by decide, ?_, ?_, ?_⟩
  · intro env installOpts name rest hflags
    have h1 : ¬ (installOpts.GeneratedDir = defaultGeneratedPath ∧
        installOpts.PlanFile = defaultClusterPath ∧ (name :: rest).length > 0) := by
      rintro ⟨hg, hp, -⟩
      rcases hflags with h | h
      · exact h hp
      · exact h hg
    refine ⟨?_, ?_, ?_, ?_⟩
    · unfold NewCmdValidate.RunE
      simp only [if_neg h1]
      simp
    · unfold NewCmdApply.RunE
      simp only [if_neg h1]
      simp
    · unfold NewCmdProvision.RunE
      rw [if_pos ⟨hflags, by simp⟩]
    · unfold NewCmdDestroy.RunE
      rw [if_pos ⟨hflags, by simp⟩]
  · intro env installOpts name rest play hflags
    have hlast : (name :: rest ++ [play]).getLast? = some play := by
      have : ((name :: rest) ++ [play]).getLast? = some play := List.getLast?_concat _
      exact this
    have hlen : (name :: rest ++ [play]).length > 1 := by simp
    have hflags' : installOpts.GeneratedDir ≠ defaultGeneratedPath ∨
        installOpts.PlanFile ≠ defaultClusterPath := hflags.symm
    unfold NewCmdStep.RunE
    rw [hlast]
    simp only
    by_cases h1 : (env.ValidatePlaybookExists play).1 = false
    · rw [if_pos h1]
      simp
    · rw [if_neg h1]
      cases hv : (env.ValidatePlaybookExists play).2 with
      | some err => simp
      | none =>
        simp only
        rw [if_pos hlen, if_pos hflags']
        simp
  · intro env installOpts opts a0 a1 a2 hflags h1 h2
    have hflags' : installOpts.GeneratedDir ≠ defaultGeneratedPath ∨
        installOpts.PlanFile ≠ defaultClusterPath := hflags.symm
    unfold NewCmdAddNode.RunE NewCmdAddNode.arguments
    simp [h1, h2, hflags']

/-- Witness for C25: `provision prod --plan-file=/tmp/p.yaml` and its three
siblings. -/
theorem C25_add_node_four_arguments_skip_conflict_check_witness :
    NewCmdValidate.RunE exampleCliCollaborators { defaultInstallOpts with PlanFile := "/tmp/p.yaml" }
        ("prod" :: []) =
      ([], some "Error validating: cannot specify clusters by name and by plan file flag or generated dir flag") ∧
    NewCmdApply.RunE exampleCliCollaborators { defaultInstallOpts with PlanFile := "/tmp/p.yaml" }
        ("prod" :: []) =
      ([], some "Error validating: cannot specify clusters by name and by plan file flag or generated dir flag") ∧
    NewCmdProvision.RunE exampleCliCollaborators { defaultInstallOpts with PlanFile := "/tmp/p.yaml" }
        ("prod" :: []) =
      ([], some "cannot specify clusters by name and by plan file or generated dir flag") ∧
    NewCmdDestroy.RunE exampleCliCollaborators { defaultInstallOpts with PlanFile := "/tmp/p.yaml" }
        ("prod" :: []) =
      ([], some "cannot specify clusters by name and by plan file or generated dir flag") :=
  C25_add_node_four_arguments_skip_conflict_check.2.2.1 exampleCliCollaborators
    { defaultInstallOpts with PlanFile := "/tmp/p.yaml" } "prod" [] (Or.inl (by decide))

/-- C26 fails on the code: with no cluster name and both flags at their
defaults, `validate` and `apply` go on with the empty planner, and so does
`add-node` called with two arguments; none of them uses the default paths.
`provision` and `destroy` use the two defaults, `step` and `add-node` with
three arguments work with them too. -/
theorem C26_defaults_not_applied :
    (∀ env : CliCollaborators, NewCmdValidate.RunE env defaultInstallOpts [] =
      ([CliCall.doValidate { PlanFile := "", GeneratedDir := "" }],
        env.doValidate { PlanFile := "", GeneratedDir := "" })) ∧
    (∀ env : CliCollaborators, NewCmdApply.RunE env defaultInstallOpts [] =
      NewCmdApply.run env { PlanFile := "", GeneratedDir := "" } []) ∧
    NewCmdApply.RunE exampleCliCollaborators defaultInstallOpts [] =
      ([CliCall.NewExecutor "",
        CliCall.applyCmdRun { PlanFile := "", GeneratedDir := "" } "" ""], none) ∧
    NewCmdAddNode.RunE exampleCliCollaborators defaultInstallOpts {} ["node1", "10.0.0.9"] =
      ([CliCall.doAddNode { PlanFile := "", GeneratedDir := "" } { Roles := ["worker"] } {}], none) ∧
    defaultInstallOpts =
      { PlanFile := "clusters/kubernetes/kismatic-kismatic.yaml",
        GeneratedDir := "clusters/kubernetes/generated" } ∧
    (∀ env : CliCollaborators, NewCmdProvision.RunE env defaultInstallOpts [] =
      ([CliCall.doProvision defaultInstallOpts], env.doProvision defaultInstallOpts)) ∧
    (∀ env : CliCollaborators, NewCmdDestroy.RunE env defaultInstallOpts [] =
      ([CliCall.doDestroy defaultInstallOpts], env.doDestroy defaultInstallOpts)) ∧
    NewCmdStep.RunE exampleCliCollaborators defaultInstallOpts ["kubeconfig"] =
      ([CliCall.ValidatePlaybookExists "kubeconfig",
        CliCall.NewExecutor "clusters/kubernetes/generated",
        CliCall.stepCmdRun { PlanFile := "clusters/kubernetes/kismatic-kismatic.yaml" }
          "clusters/kubernetes/kismatic-kismatic.yaml" "clusters/kubernetes/generated"], none) ∧
    NewCmdAddNode.RunE exampleCliCollaborators defaultInstallOpts {}
        ["node1", "10.0.0.9", "10.1.0.9"] =
      ([CliCall.doAddNode defaultInstallOpts { Roles := ["worker"] }
          { Host := "node1", IP := "10.0.0.9", InternalIP := "10.1.0.9" }], none) := by
  refine ⟨?_, ?_, by decide, by decide, by decide, ?_, ?_, by decide, by decide⟩
  · intro env
    simp [NewCmdValidate.RunE, defaultInstallOpts]
  · intro env
    simp [NewCmdApply.RunE, defaultInstallOpts]
  · intro env
    simp [NewCmdProvision.RunE, defaultInstallOpts]
  · intro env
    simp [NewCmdDestroy.RunE, defaultInstallOpts]

/-- C28 fails on the code: with no name and only `--generated-assets-dir=/tmp/g`,
`validate` and `apply` derive the plan file but leave the generated directory
of the planner empty; with only `--plan-file=/tmp/p.yaml` they derive the
generated directory but leave the plan file empty; `add-node` called with two
arguments uses neither flag.  `provision` and `destroy` keep the explicit flag
and derive the other path from it, for every flag value, and so do `step` and
`add-node` with three arguments on the example. -/
theorem C28_validate_apply_drop_explicit_flag :
    (∀ env : CliCollaborators,
      NewCmdValidate.RunE env { defaultInstallOpts with GeneratedDir := "/tmp/g" } [] =
        ([CliCall.doValidate { PlanFile := "/tmp/kismatic-cluster.yaml", GeneratedDir := "" }],
          env.doValidate { PlanFile := "/tmp/kismatic-cluster.yaml", GeneratedDir := "" })) ∧
    (∀ env : CliCollaborators,
      NewCmdValidate.RunE env { defaultInstallOpts with PlanFile := "/tmp/p.yaml" } [] =
        ([CliCall.doValidate { PlanFile := "", GeneratedDir := "/tmp/generated" }],
          env.doValidate { PlanFile := "", GeneratedDir := "/tmp/generated" })) ∧
    NewCmdApply.RunE exampleCliCollaborators { defaultInstallOpts with GeneratedDir := "/tmp/g" } [] =
      ([CliCall.NewExecutor "/tmp/kismatic-cluster.yaml",
        CliCall.applyCmdRun { PlanFile := "/tmp/kismatic-cluster.yaml", GeneratedDir := "" }
          "/tmp/kismatic-cluster.yaml" ""], none) ∧
    NewCmdApply.RunE exampleCliCollaborators { defaultInstallOpts with PlanFile := "/tmp/p.yaml" } [] =
      ([CliCall.NewExecutor "",
        CliCall.applyCmdRun { PlanFile := "", GeneratedDir := "/tmp/generated" }
          "" "/tmp/generated"], none) ∧
    NewCmdAddNode.RunE exampleCliCollaborators { defaultInstallOpts with GeneratedDir := "/tmp/g" } {}
        ["node1", "10.0.0.9"] =
      ([CliCall.doAddNode { PlanFile := "", GeneratedDir := "" } { Roles := ["worker"] } {}], none) ∧
    (∀ (env : CliCollaborators) (G : String), G ≠ defaultGeneratedPath →
      NewCmdProvision.RunE env { PlanFile := defaultClusterPath, GeneratedDir := G } [] =
        ([CliCall.doProvision
            { PlanFile := filepathJoin [(filepathSplit G).1, "kismatic-cluster.yaml"],
              GeneratedDir := G }],
          env.doProvision
            { PlanFile := filepathJoin [(filepathSplit G).1, "kismatic-cluster.yaml"],
              GeneratedDir := G }) ∧
      NewCmdDestroy.RunE env { PlanFile := defaultClusterPath, GeneratedDir := G } [] =
        ([CliCall.doDestroy
            { PlanFile := filepathJoin [(filepathSplit G).1, "kismatic-cluster.yaml"],
              GeneratedDir := G }],
          env.doDestroy
            { PlanFile := filepathJoin [(filepathSplit G).1, "kismatic-cluster.yaml"],
              GeneratedDir := G })) ∧
    (∀ (env : CliCollaborators) (P : String), P ≠ defaultClusterPath →
      NewCmdProvision.RunE env { PlanFile := P, GeneratedDir := defaultGeneratedPath } [] =
        ([CliCall.doProvision
            { PlanFile := P, GeneratedDir := filepathJoin [(filepathSplit P).1, "generated"] }],
          env.doProvision
            { PlanFile := P, GeneratedDir := filepathJoin [(filepathSplit P).1, "generated"] }) ∧
      NewCmdDestroy.RunE env { PlanFile := P, GeneratedDir := defaultGeneratedPath } [] =
        ([CliCall.doDestroy
            { PlanFile := P, GeneratedDir := filepathJoin [(filepathSplit P).1, "generated"] }],
          env.doDestroy
            { PlanFile := P, GeneratedDir := filepathJoin [(filepathSplit P).1, "generated"] })) ∧
    resolvedPairs (NewCmdProvision.RunE exampleCliCollaborators
      { defaultInstallOpts with GeneratedDir := "/tmp/g" } []).1 =
        [("/tmp/kismatic-cluster.yaml", "/tmp/g")] ∧
    resolvedPairs (NewCmdDestroy.RunE exampleCliCollaborators
      { defaultInstallOpts with GeneratedDir := "/tmp/g" } []).1 =
        [("/tmp/kismatic-cluster.yaml", "/tmp/g")] ∧
    resolvedPairs (NewCmdStep.RunE exampleCliCollaborators
      { defaultInstallOpts with GeneratedDir := "/tmp/g" } ["kubeconfig"]).1 =
        [("/tmp/kismatic-cluster.yaml", "/tmp/g")] ∧
    resolvedPairs (NewCmdAddNode.RunE exampleCliCollaborators
      { defaultInstallOpts with GeneratedDir := "/tmp/g" } {} ["node1", "10.0.0.9", "10.1.0.9"]).1 =
        [("/tmp/kismatic-cluster.yaml", "/tmp/g")] := by
  have hg : ("/tmp/g" : String) ≠ defaultGeneratedPath := by decide
  have hp : ("/tmp/p.yaml" : String) ≠ defaultClusterPath := by decide
  have e1 : filepathJoin [(filepathSplit "/tmp/g").1, "kismatic-cluster.yaml"] =
      "/tmp/kismatic-cluster.yaml" := by decide
  have e2 : filepathJoin [(filepathSplit "/tmp/p.yaml").1, "generated"] = "/tmp/generated" := by
    decide
  refine ⟨?_, ?_, by decide, by decide, by decide, ?_, ?_, by decide, by decide, by decide,
    by decide⟩
  · intro env
    simp [NewCmdValidate.RunE, defaultInstallOpts, hg, e1]
  · intro env
    simp [NewCmdValidate.RunE, defaultInstallOpts, hp, e2]
  · intro env G hG
    constructor
    · simp [NewCmdProvision.RunE, hG]
    · simp [NewCmdDestroy.RunE, hG]
  · intro env P hP
    constructor
    · simp [NewCmdProvision.RunE, hP]
    · simp [NewCmdDestroy.RunE, hP]

/-- Witness for C28: `provision --generated-assets-dir=/tmp/g` and `destroy`
with the same flag. -/
theorem C28_validate_apply_drop_explicit_flag_witness :
    NewCmdProvision.RunE exampleCliCollaborators
        { PlanFile := defaultClusterPath, GeneratedDir := "/tmp/g" } [] =
      ([CliCall.doProvision
          { PlanFile := filepathJoin [(filepathSplit "/tmp/g").1, "kismatic-cluster.yaml"],
            GeneratedDir := "/tmp/g" }],
        exampleCliCollaborators.doProvision
          { PlanFile := filepathJoin [(filepathSplit "/tmp/g").1, "kismatic-cluster.yaml"],
            GeneratedDir := "/tmp/g" }) ∧
    NewCmdDestroy.RunE exampleCliCollaborators
        { PlanFile := defaultClusterPath, GeneratedDir := "/tmp/g" } [] =
      ([CliCall.doDestroy
          { PlanFile := filepathJoin [(filepathSplit "/tmp/g").1, "kismatic-cluster.yaml"],
            GeneratedDir := "/tmp/g" }],
        exampleCliCollaborators.doDestroy
          { PlanFile := filepathJoin [(filepathSplit "/tmp/g").1, "kismatic-cluster.yaml"],
            GeneratedDir := "/tmp/g" }) :=
  C28_validate_apply_drop_explicit_flag.2.2.2.2.2.1 exampleCliCollaborators "/tmp/g" (by decide)

/-- C29 fails on the code: `add-node` called with two arguments and both
flags set goes on with the empty planner and uses neither flag value.  With
no name and both flags differing from their defaults, `validate`, `apply`,
`provision`, `destroy`, `step` and `add-node` with three arguments work with
exactly the two flag values. -/
theorem C29_add_node_two_arguments_ignore_flags :
    NewCmdAddNode.RunE exampleCliCollaborators { PlanFile := "/tmp/p.yaml", GeneratedDir := "/tmp/g" } {}
        ["node1", "10.0.0.9"] =
      ([CliCall.doAddNode { PlanFile := "", GeneratedDir := "" } { Roles := ["worker"] } {}], none) ∧
    (∀ (env : CliCollaborators) (P G : String), P ≠ defaultClusterPath → G ≠ defaultGeneratedPath →
      NewCmdValidate.RunE env { PlanFile := P, GeneratedDir := G } [] =
        ([CliCall.doValidate { PlanFile := P, GeneratedDir := G }],
          env.doValidate { PlanFile := P, GeneratedDir := G }) ∧
      NewCmdApply.RunE env { PlanFile := P, GeneratedDir := G } [] =
        NewCmdApply.run env { PlanFile := P, GeneratedDir := G } [] ∧
      NewCmdProvision.RunE env { PlanFile := P, GeneratedDir := G } [] =
        ([CliCall.doProvision { PlanFile := P, GeneratedDir := G }],
          env.doProvision { PlanFile := P, GeneratedDir := G }) ∧
      NewCmdDestroy.RunE env { PlanFile := P, GeneratedDir := G } [] =
        ([CliCall.doDestroy { PlanFile := P, GeneratedDir := G }],
          env.doDestroy { PlanFile := P, GeneratedDir := G }) ∧
      (∀ pr ∈ resolvedPairs (NewCmdApply.RunE env { PlanFile := P, GeneratedDir := G } []).1,
        pr = (P, G)) ∧
      (∀ play : String, ∀ pr ∈ resolvedPairs
          (NewCmdStep.RunE env { PlanFile := P, GeneratedDir := G } [play]).1, pr = (P, G)) ∧
      (∀ (opts : addNodeOpts) (a0 a1 a2 : String), env.ValidateAllowedAddress a1 = true →
        ∀ pr ∈ resolvedPairs
          (NewCmdAddNode.RunE env { PlanFile := P, GeneratedDir := G } opts [a0, a1, a2]).1,
          pr = (P, G))) ∧
    resolvedPairs (NewCmdApply.RunE exampleCliCollaborators
      { PlanFile := "/tmp/p.yaml", GeneratedDir := "/tmp/g" } []).1 = [("/tmp/p.yaml", "/tmp/g")] ∧
    resolvedPairs (NewCmdStep.RunE exampleCliCollaborators
      { PlanFile := "/tmp/p.yaml", GeneratedDir := "/tmp/g" } ["kubeconfig"]).1 =
        [("/tmp/p.yaml", "/tmp/g")] ∧
    resolvedPairs (NewCmdAddNode.RunE exampleCliCollaborators
      { PlanFile := "/tmp/p.yaml", GeneratedDir := "/tmp/g" } {} ["node1", "10.0.0.9", "10.1.0.9"]).1 =
        [("/tmp/p.yaml", "/tmp/g")] := by
  refine ⟨by decide, ?_, by decide, by decide, by decide⟩
  intro env P G hP hG
  have happly : NewCmdApply.RunE env { PlanFile := P, GeneratedDir := G } [] =
      NewCmdApply.run env { PlanFile := P, GeneratedDir := G } [] := by
    simp [NewCmdApply.RunE, hP, hG]
  refine ⟨?_, happly, ?_, ?_, ?_, ?_, ?_⟩
  · simp [NewCmdValidate.RunE, hP, hG]
  · simp [NewCmdProvision.RunE, hP, hG]
  · simp [NewCmdDestroy.RunE, hP, hG]
  · intro pr hpr
    rw [happly] at hpr
    rcases NewCmdApply_run_pairs env _ _ pr hpr with h | h
    · simp [resolvedPairs] at h
    · exact h
  · intro play pr hpr
    unfold NewCmdStep.RunE at hpr
    simp only [List.getLast?_singleton, List.length_singleton, if_true, hP, hG, ne_eq,
      not_false_eq_true, not_true_eq_false, and_false, and_true, if_false, gt_iff_lt,
      lt_self_iff_false] at hpr
    by_cases h1 : (env.ValidatePlaybookExists play).1 = false
    · rw [if_pos h1] at hpr
      simp [resolvedPairs, CliCall.resolved?] at hpr
    · rw [if_neg h1] at hpr
      cases hv : (env.ValidatePlaybookExists play).2 with
      | some err =>
        rw [hv] at hpr
        simp [resolvedPairs, CliCall.resolved?] at hpr
      | none =>
        rw [hv] at hpr
        simp only at hpr
        cases hx : env.NewExecutor G with
        | some err =>
          rw [hx] at hpr
          simp [resolvedPairs, CliCall.resolved?] at hpr
        | none =>
          rw [hx] at hpr
          simpa [resolvedPairs, CliCall.resolved?] using hpr
  · intro opts a0 a1 a2 ha pr hpr
    have harg : NewCmdAddNode.arguments env { PlanFile := P, GeneratedDir := G } [a0, a1, a2] =
        .ok ([], { PlanFile := P, GeneratedDir := G },
          { Host := a0, IP := a1, InternalIP := a2 }) := by
      simp [NewCmdAddNode.arguments, hP, hG, ha]
    unfold NewCmdAddNode.RunE at hpr
    rw [harg] at hpr
    simp only at hpr
    split at hpr
    · simp [resolvedPairs] at hpr
    · split at hpr
      · simp [resolvedPairs] at hpr
      · simpa [resolvedPairs, CliCall.resolved?] using hpr

/-- Witness for C29: `provision --plan-file=/tmp/p.yaml
--generated-assets-dir=/tmp/g` and its siblings. -/
theorem C29_add_node_two_arguments_ignore_flags_witness :
    NewCmdProvision.RunE exampleCliCollaborators { PlanFile := "/tmp/p.yaml", GeneratedDir := "/tmp/g" } [] =
      ([CliCall.doProvision { PlanFile := "/tmp/p.yaml", GeneratedDir := "/tmp/g" }],
        exampleCliCollaborators.doProvision { PlanFile := "/tmp/p.yaml", GeneratedDir := "/tmp/g" }) :=
  (C29_add_node_two_arguments_ignore_flags.2.1 exampleCliCollaborators "/tmp/p.yaml" "/tmp/g"
    (by decide) (by decide)).2.2.1

/-- C30 fails on the code: the same input does not resolve to the same pair
in every command.  With no name and only `--plan-file=/tmp/p.yaml`,
`provision`, `destroy`, `step` and `add-node` with three arguments work with
`(/tmp/p.yaml, /tmp/generated)`, `validate` and `apply` with the empty plan
file and `/tmp/generated`, `add-node` with two arguments with two empty paths,
and none of them fails; with the name `prod` and the default flags,
`provision` works with the paths of `clusters/prod` and `add-node` with two
empty paths.  `provision` and `destroy` do resolve alike when no name is
given. -/
theorem C30_commands_resolve_differently :
    resolvedPairs (NewCmdProvision.RunE exampleCliCollaborators
      { defaultInstallOpts with PlanFile := "/tmp/p.yaml" } []).1 = [("/tmp/p.yaml", "/tmp/generated")] ∧
    resolvedPairs (NewCmdDestroy.RunE exampleCliCollaborators
      { defaultInstallOpts with PlanFile := "/tmp/p.yaml" } []).1 = [("/tmp/p.yaml", "/tmp/generated")] ∧
    resolvedPairs (NewCmdStep.RunE exampleCliCollaborators
      { defaultInstallOpts with PlanFile := "/tmp/p.yaml" } ["kubeconfig"]).1 =
        [("/tmp/p.yaml", "/tmp/generated")] ∧
    resolvedPairs (NewCmdAddNode.RunE exampleCliCollaborators
      { defaultInstallOpts with PlanFile := "/tmp/p.yaml" } {} ["node1", "10.0.0.9", "10.1.0.9"]).1 =
        [("/tmp/p.yaml", "/tmp/generated")] ∧
    resolvedPairs (NewCmdValidate.RunE exampleCliCollaborators
      { defaultInstallOpts with PlanFile := "/tmp/p.yaml" } []).1 = [("", "/tmp/generated")] ∧
    resolvedPairs (NewCmdApply.RunE exampleCliCollaborators
      { defaultInstallOpts with PlanFile := "/tmp/p.yaml" } []).1 = [("", "/tmp/generated")] ∧
    resolvedPairs (NewCmdAddNode.RunE exampleCliCollaborators
      { defaultInstallOpts with PlanFile := "/tmp/p.yaml" } {} ["node1", "10.0.0.9"]).1 = [("", "")] ∧
    (NewCmdProvision.RunE exampleCliCollaborators
      { defaultInstallOpts with PlanFile := "/tmp/p.yaml" } []).2 = none ∧
    (NewCmdValidate.RunE exampleCliCollaborators
      { defaultInstallOpts with PlanFile := "/tmp/p.yaml" } []).2 = none ∧
    (NewCmdApply.RunE exampleCliCollaborators
      { defaultInstallOpts with PlanFile := "/tmp/p.yaml" } []).2 = none ∧
    (NewCmdAddNode.RunE exampleCliCollaborators
      { defaultInstallOpts with PlanFile := "/tmp/p.yaml" } {} ["node1", "10.0.0.9"]).2 = none ∧
    resolvedPairs (NewCmdProvision.RunE exampleCliCollaborators defaultInstallOpts ["prod"]).1 =
      [("clusters/prod/kismatic-cluster.yaml", "clusters/prod/generated")] ∧
    resolvedPairs (NewCmdAddNode.RunE exampleCliCollaborators defaultInstallOpts {}
      ["prod", "node1", "10.0.0.9"]).1 = [("", "")] ∧
    (∀ (env : CliCollaborators) (installOpts : InstallOpts),
      resolvedPairs (NewCmdProvision.RunE env installOpts []).1 =
        resolvedPairs (NewCmdDestroy.RunE env installOpts []).1) := by
  refine ⟨by decide, by decide, by decide, by decide, by decide, by decide, by decide, by decide,
    by decide, by decide, by decide, by decide, by decide, ?_⟩
  intro env installOpts
  simp [NewCmdProvision.RunE, NewCmdDestroy.RunE, resolvedPairs, CliCall.resolved?]

/-! ## The scan loop: loop invariants -/

theorem scanLine_etcd_flag (processed : List String) (st : ScanState) (text m0 m1 : String)
    (hkey : yamlKeyRE.FindStringSubmatch text = some (m0, m1))
    (hI2 : st.etcdBlock = inEtcdBlock processed) :
    (scanLine.etcd st ((countBlanks m0 / 2 : Nat) : Int) text).etcdBlock =
      inEtcdBlock (processed ++ [text]) := by
  have htop : isTopLevelKeyLine text = decide (countBlanks m0 / 2 = 0) := by
    simp [isTopLevelKeyLine, hkey]
  obtain ⟨-, -, -, -, -, e6⟩ := scanLine_etcd_fields st ((countBlanks m0 / 2 : Nat) : Int) text
  rw [e6, inEtcdBlock_snoc, htop]
  by_cases h0 : countBlanks m0 / 2 = 0
  · have hz : ((countBlanks m0 / 2 : Nat) : Int) = 0 := by exact_mod_cast h0
    rw [if_pos hz, if_pos (by simpa using h0)]
  · have hz : ¬ ((countBlanks m0 / 2 : Nat) : Int) = 0 := by exact_mod_cast h0
    rw [if_neg hz, if_neg (by simpa using h0), hI2]

theorem scanLoop_invariants (comments : CommentTable) (lines : List String) :
    ∀ (processed : List String) (st st' : ScanState),
      (∀ e ∈ st.oneTimeComments, e ∈ comments) → st.etcdBlock = inEtcdBlock processed →
      scanLoop st lines = (st', none) →
        (∀ e ∈ st'.oneTimeComments, e ∈ comments) ∧
        st'.etcdBlock = inEtcdBlock (processed ++ lines) := by
  induction lines with
  | nil =>
    intro processed st st' hI1 hI2 h
    simp only [scanLoop] at h
    obtain ⟨rfl, -⟩ := Prod.mk.inj h
    exact ⟨hI1, by simpa using hI2⟩
  | cons text lines ih =>
    intro processed st st' hI1 hI2 h
    rw [scanLoop_cons] at h
    cases hstep : scanLine st text with
    | mk st1 err1 =>
      obtain ⟨hI1', hI2', -⟩ := scanLine_spec comments processed st st1 text err1 hI1 hI2 hstep
      rw [hstep] at h
      cases err1 with
      | some e =>
        have := (Prod.mk.inj h).2
        simp at this
      | none =>
        simp only at h
        have := ih (processed ++ [text]) st1 st' hI1' hI2' h
        simpa using this

theorem scanStart_invariants (comments : CommentTable) (before : List String) (st : ScanState)
    (h : scanLoop (scanStart comments) before = (st, none)) :
    (∀ e ∈ st.oneTimeComments, e ∈ comments) ∧ st.etcdBlock = inEtcdBlock before := by
  have := scanLoop_invariants comments before [] (scanStart comments) st (fun e he => he) rfl h
  simpa using this

/-- A matched line with `labels: {}` met while `etcdBlock` is set is left
out: the iteration writes nothing, changes no variable and returns no
error. -/
theorem scanLine_omits (processed : List String) (st : ScanState) (text m0 m1 : String)
    (hkey : yamlKeyRE.FindStringSubmatch text = some (m0, m1))
    (hI2 : st.etcdBlock = inEtcdBlock processed)
    (hc : stringsContains text "labels: \x7b\x7d" = true)
    (hetcd : inEtcdBlock (processed ++ [text]) = true) :
    scanLine st text = (st, none) := by
  have hflag := scanLine_etcd_flag processed st text m0 m1 hkey hI2
  have hsame : scanLine.etcd st ((countBlanks m0 / 2 : Nat) : Int) text = st := by
    unfold scanLine.etcd
    split_ifs with h0
    · have hf : (scanLine.etcd st ((countBlanks m0 / 2 : Nat) : Int) text).etcdBlock =
          (text == "etcd:") := by
        unfold scanLine.etcd
        rw [if_pos h0]
      rw [hflag, hetcd] at hf
      have ht : text = "etcd:" := by simpa using hf.symm
      rw [ht] at hc
      exact absurd hc (by decide)
    · rfl
  unfold scanLine
  simp only [hkey]
  rw [hsame] at hflag ⊢
  rw [hflag, hetcd, hc]
  rfl

theorem comment_line_ne_empty (n : Nat) (c : String) : blanks n ++ "# " ++ c ≠ "" := by
  intro h
  have := congrArg String.length h
  simp only [String.length_append] at this
  have h2 : ("# " : String).length = 2 := by decide
  have h0 : ("" : String).length = 0 := by decide
  omega

/-- What the iteration writes for a matched line that it does not leave out
and at which it does not fail: at most one empty line, exactly one when the
level computed for the line is below `prevIndent`, then the comment lines,
then the line; the computed level is recorded. -/
theorem scanLine_key_lines (comments : CommentTable) (st st' : ScanState) (text m0 m1 : String)
    (hI1 : ∀ e ∈ st.oneTimeComments, e ∈ comments)
    (hkey : yamlKeyRE.FindStringSubmatch text = some (m0, m1))
    (hstep : scanLine st text = (st', none))
    (hshown : ¬ (st'.etcdBlock = true ∧ stringsContains text "labels: \x7b\x7d" = true)) :
    st'.prevIndent = ((countBlanks m0 / 2 : Nat) : Int) ∧
    ∃ pre cmts, (pre = [] ∨ pre = [""]) ∧
      (((countBlanks m0 / 2 : Nat) : Int) < st.prevIndent → pre = [""]) ∧
      (∀ x ∈ cmts, x ≠ "" ∧ IsInsertedLine comments x) ∧
      fileContent st'.written = fileContent st.written ++ textOf (pre ++ cmts ++ [text]) := by
  unfold scanLine at hstep
  simp only [hkey] at hstep
  obtain ⟨e1, e2, -, e4, e5, -⟩ := scanLine_etcd_fields st ((countBlanks m0 / 2 : Nat) : Int) text
  generalize scanLine.etcd st ((countBlanks m0 / 2 : Nat) : Int) text = st1 at hstep e1 e2 e4 e5
  generalize ((countBlanks m0 / 2 : Nat) : Int) = indent at hstep ⊢
  split_ifs at hstep with hskip
  · obtain ⟨rfl, -⟩ := Prod.mk.inj hstep
    simp only [Bool.and_eq_true] at hskip
    exact absurd hskip hshown
  · obtain ⟨l1, l2, -, -, -, l6⟩ := scanLine_leave_fields st1 indent
    cases hp : scanLine.pop (scanLine.leave st1 indent) indent with
    | error e =>
      simp only [hp] at hstep
      have := (Prod.mk.inj hstep).2
      simp at this
    | ok s =>
      simp only [hp] at hstep
      obtain ⟨rfl, -⟩ := Prod.mk.inj hstep
      have hprev : (scanLine.print (scanLine.push (scanLine.leave st1 indent) s m1 indent)
          text m1).prevIndent = indent := by
        unfold scanLine.print
        cases (scanLine.push (scanLine.leave st1 indent) s m1 indent).oneTimeComments.get?
          (".".intercalate (scanLine.push (scanLine.leave st1 indent) s m1 indent).s) <;> rfl
      refine ⟨hprev, ?_⟩
      rw [scanLine_print_written]
      have hw2 : (scanLine.push (scanLine.leave st1 indent) s m1 indent).written =
          (scanLine.leave st1 indent).written := rfl
      have hsub : ∀ e ∈ (scanLine.push (scanLine.leave st1 indent) s m1 indent).oneTimeComments,
          e ∈ comments := by
        intro e he
        have he' : e ∈ (scanLine.leave st1 indent).oneTimeComments := he
        rw [l2, e2] at he'
        exact hI1 e he'
      have hadd : (scanLine.push (scanLine.leave st1 indent) s m1 indent).addNewLineBeforeComment =
          (if indent < st1.prevIndent then false else st1.addNewLineBeforeComment) := l6
      rw [hw2, l1, e1]
      generalize scanLine.push (scanLine.leave st1 indent) s m1 indent = st2 at hsub hadd ⊢
      rw [e4] at hadd ⊢
      -- the lines put before the line by the print
      have hpb : ∃ pre2 cmts, printedBefore st2 text = pre2 ++ cmts ∧
          (pre2 = [] ∨ (pre2 = [""] ∧ st2.addNewLineBeforeComment = true)) ∧
          (∀ x ∈ cmts, x ≠ "" ∧ IsInsertedLine comments x) := by
        unfold printedBefore
        cases hg : st2.oneTimeComments.get? (".".intercalate st2.s) with
        | none => exact ⟨[], [], rfl, Or.inl rfl, by simp⟩
        | some cs =>
          have hmem := hsub _ (CommentTable.mem_of_get? _ _ _ hg)
          refine ⟨if st2.addNewLineBeforeComment then [""] else [],
            cs.map (fun c => blanks (countLeadingSpace text) ++ "# " ++ c), rfl, ?_, ?_⟩
          · cases st2.addNewLineBeforeComment <;> simp
          · intro x hx
            refine ⟨?_, isInsertedLine_comment comments _ cs hmem _ x hx⟩
            obtain ⟨c, -, rfl⟩ := List.mem_map.1 hx
            exact comment_line_ne_empty _ _
      obtain ⟨pre2, cmts, hpbe, hpre2, hcm⟩ := hpb
      rw [hpbe]
      by_cases hlt : indent < st.prevIndent
      · -- leaving a block: the empty line is written, the print adds none
        have hno : pre2 = [] := by
          rcases hpre2 with h | ⟨-, h⟩
          · exact h
          · rw [hadd, if_pos hlt] at h
            exact absurd h (by decide)
        subst hno
        refine ⟨[""], cmts, Or.inr rfl, fun _ => rfl, hcm, ?_⟩
        simp only [if_pos hlt]
        apply String.ext
        simp [fileContent_append, fileContent_singleton, textOf_append, textOf_singleton,
          textOf_cons]
      · refine ⟨pre2, cmts, ?_, fun h => absurd h hlt, hcm, ?_⟩
        · rcases hpre2 with h | ⟨h, -⟩
          · exact Or.inl h
          · exact Or.inr h
        · simp only [if_neg hlt, List.append_nil, List.append_assoc]

/-- What any iteration writes: the line after at most one empty line and
comment lines, or nothing for a line that is left out, or at most one empty
line when it fails. -/
theorem scanLine_lines (comments : CommentTable) (st st' : ScanState) (text : String)
    (err : Option String)
    (hI1 : ∀ e ∈ st.oneTimeComments, e ∈ comments)
    (h : scanLine st text = (st', err)) :
    ∃ pre cmts, (pre = [] ∨ pre = [""]) ∧ (∀ x ∈ cmts, x ≠ "" ∧ IsInsertedLine comments x) ∧
      ((err = none ∧
          fileContent st'.written = fileContent st.written ++ textOf (pre ++ cmts ++ [text])) ∨
        (err = none ∧ st'.written = st.written) ∨
        (err = some "Empty Stack" ∧
          fileContent st'.written = fileContent st.written ++ textOf pre)) := by
  cases hm : yamlKeyRE.FindStringSubmatch text with
  | none =>
    unfold scanLine at h
    simp only [hm] at h
    obtain ⟨rfl, rfl⟩ := Prod.mk.inj h
    refine ⟨[], [], Or.inl rfl, by simp, Or.inl ⟨rfl, ?_⟩⟩
    simp [scanLine.plain, fileContent_append, fileContent_singleton, textOf_singleton]
  | some m =>
    obtain ⟨m0, m1⟩ := m
    cases err with
    | none =>
      by_cases hshown : st'.etcdBlock = true ∧ stringsContains text "labels: \x7b\x7d" = true
      · -- left out, or written all the same
        have h' := h
        unfold scanLine at h'
        simp only [hm] at h'
        obtain ⟨e1, -, -, -, -, -⟩ := scanLine_etcd_fields st ((countBlanks m0 / 2 : Nat) : Int) text
        have hflag : (scanLine.etcd st ((countBlanks m0 / 2 : Nat) : Int) text).etcdBlock =
            st'.etcdBlock := by
          generalize scanLine.etcd st ((countBlanks m0 / 2 : Nat) : Int) text = st1 at h'
          generalize ((countBlanks m0 / 2 : Nat) : Int) = indent at h'
          split_ifs at h' with hskip
          · obtain ⟨rfl, -⟩ := Prod.mk.inj h'
            rfl
          · obtain ⟨-, -, -, -, l5, -⟩ := scanLine_leave_fields st1 indent
            cases hp : scanLine.pop (scanLine.leave st1 indent) indent with
            | error e =>
              simp only [hp] at h'
              have := (Prod.mk.inj h').2
              simp at this
            | ok s =>
              simp only [hp] at h'
              obtain ⟨rfl, -⟩ := Prod.mk.inj h'
              rw [(scanLine_print_fields _ _ _).1]
              exact l5.symm
        generalize scanLine.etcd st ((countBlanks m0 / 2 : Nat) : Int) text = st1 at h' e1 hflag
        generalize ((countBlanks m0 / 2 : Nat) : Int) = indent at h'
        rw [if_pos (by simp [hflag, hshown.1, hshown.2])] at h'
        obtain ⟨rfl, -⟩ := Prod.mk.inj h'
        exact ⟨[], [], Or.inl rfl, by simp, Or.inr (Or.inl ⟨rfl, e1⟩)⟩
      · obtain ⟨-, pre, cmts, hpre, -, hcm, hw⟩ :=
          scanLine_key_lines comments st st' text m0 m1 hI1 hm h hshown
        exact ⟨pre, cmts, hpre, hcm, Or.inl ⟨rfl, hw⟩⟩
    | some e =>
      unfold scanLine at h
      simp only [hm] at h
      obtain ⟨e1, -, -, -, -, -⟩ := scanLine_etcd_fields st ((countBlanks m0 / 2 : Nat) : Int) text
      generalize scanLine.etcd st ((countBlanks m0 / 2 : Nat) : Int) text = st1 at h e1
      generalize ((countBlanks m0 / 2 : Nat) : Int) = indent at h
      split_ifs at h with hskip
      · have := (Prod.mk.inj h).2
        simp at this
      · obtain ⟨l1, -, -, -, -, -⟩ := scanLine_leave_fields st1 indent
        cases hp : scanLine.pop (scanLine.leave st1 indent) indent with
        | ok s =>
          simp only [hp] at h
          have := (Prod.mk.inj h).2
          simp at this
        | error e' =>
          simp only [hp] at h
          obtain ⟨rfl, he⟩ := Prod.mk.inj h
          have he' := scanLine_pop_error _ _ _ hp
          subst he'
          simp only [Option.some.injEq] at he
          subst he
          rw [l1, e1]
          by_cases hlt : indent < st1.prevIndent
          · refine ⟨[""], [], Or.inr rfl, by simp, Or.inr (Or.inr ⟨rfl, ?_⟩)⟩
            simp [hlt, fileContent_append, fileContent_singleton, textOf_singleton]
          · refine ⟨[], [], Or.inl rfl, by simp, Or.inr (Or.inr ⟨rfl, ?_⟩)⟩
            simp [hlt, textOf_nil]


theorem lastKeyIndentFrom_cons (processed : List String) (prev : Int) (l : String)
    (rest : List String) :
    lastKeyIndentFrom processed prev (l :: rest) =
      match keyIndent l with
      | some i =>
        if inEtcdBlock (processed ++ [l]) && stringsContains l "labels: \x7b\x7d" then
          lastKeyIndentFrom (processed ++ [l]) prev rest
        else lastKeyIndentFrom (processed ++ [l]) (i : Int) rest
      | none => lastKeyIndentFrom (processed ++ [l]) prev rest := rfl

theorem lastKeyIndentFrom_append (xs ys : List String) :
    ∀ (processed : List String) (prev : Int),
      lastKeyIndentFrom processed prev (xs ++ ys) =
        lastKeyIndentFrom (processed ++ xs) (lastKeyIndentFrom processed prev xs) ys := by
  induction xs with
  | nil =>
    intro processed prev
    simp [lastKeyIndentFrom]
  | cons x xs ih =>
    intro processed prev
    have e : processed ++ x :: xs = (processed ++ [x]) ++ xs := by simp
    rw [List.cons_append, lastKeyIndentFrom_cons, lastKeyIndentFrom_cons, e]
    cases keyIndent x with
    | none => exact ih _ _
    | some i =>
      simp only
      split_ifs
      · exact ih _ _
      · exact ih _ _

theorem scanLine_prevIndent (processed : List String) (st st' : ScanState) (text : String)
    (hI2 : st.etcdBlock = inEtcdBlock processed)
    (h : scanLine st text = (st', none)) :
    st'.prevIndent = lastKeyIndentFrom processed st.prevIndent [text] := by
  obtain ⟨-, hflag, -⟩ := scanLine_spec st.oneTimeComments processed st st' text none
    (fun e he => he) hI2 h
  cases hm : yamlKeyRE.FindStringSubmatch text with
  | none =>
    have hk : keyIndent text = none := by simp [keyIndent, hm]
    simp only [lastKeyIndentFrom, hk]
    unfold scanLine at h
    simp only [hm] at h
    obtain ⟨rfl, -⟩ := Prod.mk.inj h
    rfl
  | some m =>
    obtain ⟨m0, m1⟩ := m
    have hk : keyIndent text = some (countBlanks m0 / 2) := by simp [keyIndent, hm]
    simp only [lastKeyIndentFrom, hk]
    by_cases hskip : inEtcdBlock (processed ++ [text]) = true ∧
        stringsContains text "labels: \x7b\x7d" = true
    · have := scanLine_omits processed st text m0 m1 hm hI2 hskip.2 hskip.1
      rw [this] at h
      obtain ⟨rfl, -⟩ := Prod.mk.inj h
      simp [hskip.1, hskip.2]
    · have hshown : ¬ (st'.etcdBlock = true ∧ stringsContains text "labels: \x7b\x7d" = true) := by
        rw [hflag]
        exact hskip
      obtain ⟨hp, -⟩ := scanLine_key_lines st.oneTimeComments st st' text m0 m1
        (fun e he => he) hm h hshown
      rw [hp]
      have hb : (inEtcdBlock (processed ++ [text]) &&
          stringsContains text "labels: \x7b\x7d") = false := by
        simpa using hskip
      simp [hb]

theorem scanLoop_prevIndent (lines : List String) :
    ∀ (processed : List String) (st st' : ScanState),
      st.etcdBlock = inEtcdBlock processed → scanLoop st lines = (st', none) →
        st'.prevIndent = lastKeyIndentFrom processed st.prevIndent lines := by
  induction lines with
  | nil =>
    intro processed st st' _ h
    simp only [scanLoop] at h
    obtain ⟨rfl, -⟩ := Prod.mk.inj h
    rfl
  | cons text lines ih =>
    intro processed st st' hI2 h
    rw [scanLoop_cons] at h
    cases hstep : scanLine st text with
    | mk st1 err1 =>
      rw [hstep] at h
      cases err1 with
      | some e =>
        have := (Prod.mk.inj h).2
        simp at this
      | none =>
        simp only at h
        obtain ⟨-, hI2', -⟩ := scanLine_spec st.oneTimeComments processed st st1 text none
          (fun e he => he) hI2 hstep
        have h1 := scanLine_prevIndent processed st st1 text hI2 hstep
        have h2 := ih (processed ++ [text]) st1 st' hI2' h
        rw [h2, h1]
        have := lastKeyIndentFrom_append [text] lines processed st.prevIndent
        simpa using this.symm

/-! ## The scan loop: empty lines -/

theorem noTwoEmptyLines_of_nonempty (l : List String) (h : ∀ x ∈ l, x ≠ "") :
    NoTwoEmptyLines l := by
  unfold NoTwoEmptyLines
  induction l with
  | nil => exact List.chain'_nil
  | cons a l ih =>
    rw [List.chain'_cons']
    refine ⟨?_, ih (fun x hx => h x (List.mem_cons_of_mem _ hx))⟩
    intro y _ hy
    exact h a (List.mem_cons_self _ _) hy.1

/-- Appending a block of written lines keeps the text free of two consecutive
empty lines. -/
theorem noTwoEmptyLines_block (out pre rest : List String) (hout : NoTwoEmptyLines out)
    (hlast : out.getLast? ≠ some "") (hpre : pre = [] ∨ pre = [""])
    (hrest : ∀ x ∈ rest, x ≠ "") : NoTwoEmptyLines (out ++ (pre ++ rest)) := by
  unfold NoTwoEmptyLines at hout ⊢
  rw [List.chain'_append]
  refine ⟨hout, ?_, ?_⟩
  · rcases hpre with rfl | rfl
    · exact noTwoEmptyLines_of_nonempty rest hrest
    · show List.Chain' _ ("" :: rest)
      rw [List.chain'_cons']
      refine ⟨?_, noTwoEmptyLines_of_nonempty rest hrest⟩
      intro y hy hxy
      have : y ∈ rest := List.mem_of_mem_head? hy
      exact hrest y this hxy.2
  · intro x hx y _ hxy
    apply hlast
    rw [Option.mem_def] at hx
    rw [hx, hxy.1]

theorem scanLine_table (comments : CommentTable) (st st' : ScanState) (text : String)
    (err : Option String) (hI1 : ∀ e ∈ st.oneTimeComments, e ∈ comments)
    (h : scanLine st text = (st', err)) : ∀ e ∈ st'.oneTimeComments, e ∈ comments := by
  cases hb : st.etcdBlock with
  | false => exact (scanLine_spec comments [] st st' text err hI1 (by rw [hb]; rfl) h).1
  | true =>
    exact (scanLine_spec comments ["etcd:"] st st' text err hI1 (by rw [hb]; decide) h).1

theorem scanLoop_noTwoEmpty (comments : CommentTable) (lines : List String) :
    ∀ (st st' : ScanState) (err : Option String) (out0 : List String),
      (∀ l ∈ lines, l ≠ "") → (∀ e ∈ st.oneTimeComments, e ∈ comments) →
      fileContent st.written = textOf out0 → NoTwoEmptyLines out0 → out0.getLast? ≠ some "" →
      scanLoop st lines = (st', err) →
      ∃ out, fileContent st'.written = textOf out ∧ NoTwoEmptyLines out ∧
        (err = none → out.getLast? ≠ some "") ∧
        (∀ x ∈ out, x ∈ out0 ∨ x ∈ lines ∨ IsInsertedLine comments x) := by
  induction lines with
  | nil =>
    intro st st' err out0 _ _ hw hn hl h
    simp only [scanLoop] at h
    obtain ⟨rfl, rfl⟩ := Prod.mk.inj h
    exact ⟨out0, hw, hn, fun _ => hl, fun x hx => Or.inl hx⟩
  | cons text lines ih =>
    intro st st' err out0 hne hI1 hw hn hl h
    rw [scanLoop_cons] at h
    have htext : text ≠ "" := hne text (List.mem_cons_self _ _)
    have hne' : ∀ l ∈ lines, l ≠ "" := fun l hl' => hne l (List.mem_cons_of_mem _ hl')
    cases hstep : scanLine st text with
    | mk st1 err1 =>
      have hI1' := scanLine_table comments st st1 text err1 hI1 hstep
      obtain ⟨pre, cmts, hpre, hcm, hcase⟩ := scanLine_lines comments st st1 text err1 hI1 hstep
      rw [hstep] at h
      have hpreI : ∀ x ∈ pre, IsInsertedLine comments x := by
        intro x hx
        rcases hpre with rfl | rfl
        · simp at hx
        · left
          simpa using hx
      rcases hcase with ⟨rfl, hw1⟩ | ⟨rfl, hw1⟩ | ⟨rfl, hw1⟩
      · simp only at h
        have hrest : ∀ x ∈ cmts ++ [text], x ≠ "" := by
          intro x hx
          rcases List.mem_append.1 hx with hx | hx
          · exact (hcm x hx).1
          · rw [List.mem_singleton.1 hx]
            exact htext
        have hw1' : fileContent st1.written = textOf (out0 ++ (pre ++ (cmts ++ [text]))) := by
          rw [hw1, hw]
          simp only [textOf_append]
          apply String.ext
          simp
        have hn1 := noTwoEmptyLines_block out0 pre (cmts ++ [text]) hn hl hpre hrest
        have hl1 : (out0 ++ (pre ++ (cmts ++ [text]))).getLast? ≠ some "" := by
          have e : out0 ++ (pre ++ (cmts ++ [text])) = (out0 ++ pre ++ cmts) ++ [text] := by simp
          rw [e, List.getLast?_concat]
          intro hh
          exact htext (Option.some.inj hh)
        obtain ⟨out, ho1, ho2, ho3, ho4⟩ := ih st1 st' err _ hne' hI1' hw1' hn1 hl1 h
        refine ⟨out, ho1, ho2, ho3, ?_⟩
        intro x hx
        rcases ho4 x hx with hx | hx | hx
        · rcases List.mem_append.1 hx with hx | hx
          · exact Or.inl hx
          · rcases List.mem_append.1 hx with hx | hx
            · exact Or.inr (Or.inr (hpreI x hx))
            · rcases List.mem_append.1 hx with hx | hx
              · exact Or.inr (Or.inr (hcm x hx).2)
              · rw [List.mem_singleton.1 hx]
                exact Or.inr (Or.inl (List.mem_cons_self _ _))
        · exact Or.inr (Or.inl (List.mem_cons_of_mem _ hx))
        · exact Or.inr (Or.inr hx)
      · simp only at h
        have hw1' : fileContent st1.written = textOf out0 := by rw [hw1, hw]
        obtain ⟨out, ho1, ho2, ho3, ho4⟩ := ih st1 st' err _ hne' hI1' hw1' hn hl h
        refine ⟨out, ho1, ho2, ho3, ?_⟩
        intro x hx
        rcases ho4 x hx with hx | hx | hx
        · exact Or.inl hx
        · exact Or.inr (Or.inl (List.mem_cons_of_mem _ hx))
        · exact Or.inr (Or.inr hx)
      · simp only at h
        obtain ⟨rfl, rfl⟩ := Prod.mk.inj h
        refine ⟨out0 ++ pre, ?_, ?_, fun hh => by simp at hh, ?_⟩
        · rw [hw1, hw, textOf_append]
        · have := noTwoEmptyLines_block out0 pre [] hn hl hpre (by simp)
          simpa using this
        · intro x hx
          rcases List.mem_append.1 hx with hx | hx
          · exact Or.inl hx
          · exact Or.inr (Or.inr (hpreI x hx))

/-! ## The scan loop: further claims -/

set_option maxRecDepth 100000 in
/-- When the loop leaves out a line with `labels: {}`.  A matched line
containing `labels: {}` is left out when `inEtcdBlock` holds with the line
itself counted, that is when the most recent line for which the loop computes
level 0 is exactly `etcd:`; then the iteration writes nothing and changes
neither the stack nor the previous indentation nor any other variable.
Otherwise such a line, when the iteration returns no error, is written
unchanged after at most inserted lines.  On `exampleBlocksText` the line is
left out under `etcd:` and written under `worker:`. -/
theorem scanLoop_labels_left_out :
    (∀ (comments : CommentTable) (before : List String) (st : ScanState) (text m0 m1 : String),
      scanLoop (scanStart comments) before = (st, none) →
      yamlKeyRE.FindStringSubmatch text = some (m0, m1) →
      stringsContains text "labels: \x7b\x7d" = true →
      inEtcdBlock (before ++ [text]) = true →
        scanLine st text = (st, none)) ∧
    (∀ (comments : CommentTable) (before : List String) (st st' : ScanState) (text m0 m1 : String),
      scanLoop (scanStart comments) before = (st, none) →
      yamlKeyRE.FindStringSubmatch text = some (m0, m1) →
      stringsContains text "labels: \x7b\x7d" = true →
      scanLine st text = (st', none) →
        (inEtcdBlock (before ++ [text]) = false →
          ∃ ins, (∀ x ∈ ins, IsInsertedLine comments x) ∧
            fileContent st'.written = fileContent st.written ++ textOf (ins ++ [text])) ∧
        (st'.written = st.written ↔ inEtcdBlock (before ++ [text]) = true)) ∧
    (scanLoop (scanStart (commentMap exampleQuotedMinorVersion)) exampleBlocksText).2 = none ∧
    fileContent (scanLoop (scanStart (commentMap exampleQuotedMinorVersion))
        exampleBlocksText).1.written =
      textOf ["cluster:", "  name: kubernetes", "",
        "  # Networking configuration of your cluster.", "  networking:", "",
        "    # Kubernetes will assign pods IPs in this range. Do not use a range that is",
        "    # already in use on your local network!", "    pod_cidr_block: 172.16.0.0/16", "",
        "  # Generated certs configuration.", "  certificates:", "",
        "    # Self-signed certificate expiration period in hours; default is 2 years.",
        "    expiry: 17520h", "",
        "# Etcd nodes are the ones that run the etcd distributed key-value database.", "etcd:",
        "  expected_count: 1", "",
        "  # Provide the hostname and IP of each node. If the node has an IP for internal",
        "  # traffic, provide it in the internalip field. Otherwise, that field can be",
        "  # left blank.", "  nodes:", "  - host: etcd01", "",
        "# Worker nodes are the ones that will run your workloads on the cluster.", "worker:",
        "  expected_count: 1", "  nodes:", "  - host: worker01", "    labels: \x7b\x7d"] := by
  refine ⟨?_, ?_, by decide, by decide⟩
  · intro comments before st text m0 m1 hbefore hkey hc hetcd
    obtain ⟨-, hI2⟩ := scanStart_invariants comments before st hbefore
    exact scanLine_omits before st text m0 m1 hkey hI2 hc hetcd
  · intro comments before st st' text m0 m1 hbefore hkey hc hstep
    obtain ⟨hI1, hI2⟩ := scanStart_invariants comments before st hbefore
    have hout : inEtcdBlock (before ++ [text]) = false →
        ∃ ins, (∀ x ∈ ins, IsInsertedLine comments x) ∧
          fileContent st'.written = fileContent st.written ++ textOf (ins ++ [text]) := by
      intro hno
      obtain ⟨-, -, hcase⟩ := scanLine_spec comments before st st' text none hI1 hI2 hstep
      rcases hcase with ⟨-, ins, hins, hw⟩ | ⟨-, -, -, hyes⟩ | ⟨he, -⟩
      · exact ⟨ins, hins, hw⟩
      · rw [hno] at hyes
        exact absurd hyes (by decide)
      · simp at he
    refine ⟨hout, ?_, ?_⟩
    · intro hsame
      by_contra hno
      have hno' : inEtcdBlock (before ++ [text]) = false := by simpa using hno
      obtain ⟨ins, -, hw⟩ := hout hno'
      rw [hsame] at hw
      have hlen := congrArg String.length hw
      rw [String.length_append, textOf_append, textOf_singleton] at hlen
      simp only [String.length_append] at hlen
      have h1 : ("\n" : String).length = 1 := by decide
      omega
    · intro hyes
      have := scanLine_omits before st text m0 m1 hkey hI2 hc hyes
      rw [this] at hstep
      obtain ⟨rfl, -⟩ := Prod.mk.inj hstep
      rfl

set_option maxRecDepth 100000 in
/-- The lemma `scanLoop_labels_left_out` at the line `    labels: {}` after
the first node of an etcd block. -/
theorem scanLoop_labels_left_out_example :
    scanLine (scanLoop (scanStart (commentMap exampleQuotedMinorVersion))
        ["etcd:", "  nodes:", "  - host: etcd01"]).1 "    labels: \x7b\x7d" =
      ((scanLoop (scanStart (commentMap exampleQuotedMinorVersion))
        ["etcd:", "  nodes:", "  - host: etcd01"]).1, none) :=
  scanLoop_labels_left_out.1 (commentMap exampleQuotedMinorVersion)
    ["etcd:", "  nodes:", "  - host: etcd01"] _ "    labels: \x7b\x7d" "    labels:" "labels"
    (Prod.ext rfl (by decide)) (by decide) (by decide) (by decide)

/-- Where the loop writes empty lines.  In a text without empty lines, before
every matched line that is written and for which the loop computes a level
below `prevIndent`, the loop writes exactly one empty line, after a line that
is not empty, then the comment lines of the line if it has any, then the line;
and the lines written by the loop, whether it ends with an error or not, never
hold two consecutive empty lines. -/
theorem scanLoop_blank_line_separation :
    (∀ (comments : CommentTable) (before : List String) (st st' : ScanState) (text m0 m1 : String),
      (∀ l ∈ before, l ≠ "") →
      scanLoop (scanStart comments) before = (st, none) →
      yamlKeyRE.FindStringSubmatch text = some (m0, m1) →
      ((countBlanks m0 / 2 : Nat) : Int) < lastKeyIndent before →
      scanLine st text = (st', none) →
      ¬ (inEtcdBlock (before ++ [text]) = true ∧ stringsContains text "labels: \x7b\x7d" = true) →
        ∃ outBefore cmts, fileContent st.written = textOf outBefore ∧
          outBefore.getLast? ≠ some "" ∧
          (∀ x ∈ cmts, x ≠ "" ∧ IsInsertedLine comments x) ∧
          fileContent st'.written = textOf (outBefore ++ [""] ++ cmts ++ [text])) ∧
    (∀ (comments : CommentTable) (lines : List String), (∀ l ∈ lines, l ≠ "") →
      ∃ out, fileContent (scanLoop (scanStart comments) lines).1.written = textOf out ∧
        NoTwoEmptyLines out ∧
        (∀ x ∈ out, x ∈ lines ∨ IsInsertedLine comments x)) := by
  refine ⟨?_, ?_⟩
  · intro comments before st st' text m0 m1 hne hbefore hkey hlt hstep hshown
    obtain ⟨hI1, hI2⟩ := scanStart_invariants comments before st hbefore
    obtain ⟨out, ho1, -, ho3, -⟩ := scanLoop_noTwoEmpty comments before (scanStart comments) st none []
      hne (fun e he => he) (by simp [scanStart, fileContent, textOf]) List.chain'_nil (by simp)
      hbefore
    have hprev : st.prevIndent = lastKeyIndent before :=
      scanLoop_prevIndent before [] (scanStart comments) st rfl hbefore
    obtain ⟨-, hflag, -⟩ := scanLine_spec comments before st st' text none hI1 hI2 hstep
    have hshown' : ¬ (st'.etcdBlock = true ∧ stringsContains text "labels: \x7b\x7d" = true) := by
      rw [hflag]
      exact hshown
    obtain ⟨-, pre, cmts, -, hpre, hcm, hw⟩ :=
      scanLine_key_lines comments st st' text m0 m1 hI1 hkey hstep hshown'
    have hp := hpre (by rw [hprev]; exact hlt)
    subst hp
    refine ⟨out, cmts, ho1, ho3 rfl, hcm, ?_⟩
    rw [hw, ho1, ← textOf_append]
    simp only [List.append_assoc]
  · intro comments lines hne
    obtain ⟨out, ho1, ho2, -, ho4⟩ := scanLoop_noTwoEmpty comments lines (scanStart comments)
      (scanLoop (scanStart comments) lines).1 (scanLoop (scanStart comments) lines).2 []
      hne (fun e he => he) (by simp [scanStart, fileContent, textOf]) List.chain'_nil (by simp) rfl
    refine ⟨out, ho1, ho2, ?_⟩
    intro x hx
    rcases ho4 x hx with h | h | h
    · simp at h
    · exact Or.inl h
    · exact Or.inr h

set_option maxRecDepth 100000 in
/-- The lemma `scanLoop_blank_line_separation` at the line `etcd:` after the
two lines of a `cluster` block. -/
theorem scanLoop_blank_line_separation_example :
    ∃ outBefore cmts,
      fileContent (scanLoop (scanStart (commentMap exampleQuotedMinorVersion))
        ["cluster:", "  name: kubernetes"]).1.written = textOf outBefore ∧
      outBefore.getLast? ≠ some "" ∧
      (∀ x ∈ cmts, x ≠ "" ∧ IsInsertedLine (commentMap exampleQuotedMinorVersion) x) ∧
      fileContent (scanLine (scanLoop (scanStart (commentMap exampleQuotedMinorVersion))
        ["cluster:", "  name: kubernetes"]).1 "etcd:").1.written =
        textOf (outBefore ++ [""] ++ cmts ++ ["etcd:"]) :=
  scanLoop_blank_line_separation.1 (commentMap exampleQuotedMinorVersion)
    ["cluster:", "  name: kubernetes"] _ _ "etcd:" "etcd:" "etcd"
    (by decide) (Prod.ext rfl (by decide)) (by decide) (by decide) (Prod.ext rfl (by decide))
    (by decide)

/-! ## Plan templates: closed form -/

theorem appendLoop_eq {α : Type} (v : α) (k : Nat) (xs : List α) :
    appendLoop v k xs = xs ++ List.replicate k v := by
  induction k generalizing xs with
  | zero => simp [appendLoop]
  | succ k ih =>
    rw [appendLoop, ih, List.replicate_succ]
    simp

theorem buildPlanFromTemplateOptions_eq_closedForm (c : PackageConstants)
    (templateOpts : PlanTemplateOptions) :
    buildPlanFromTemplateOptions c templateOpts =
      buildPlanFromTemplateOptions.closedForm c templateOpts := by
  have hI : ∀ (n : Int) (v : Node), (if n > 0 then List.replicate n.toNat v else []) =
      List.replicate n.toNat v := by
    intro n v
    split_ifs with h
    · rfl
    · have : n.toNat = 0 := by omega
      simp [this]
  unfold buildPlanFromTemplateOptions buildPlanFromTemplateOptions.closedForm
    buildPlanFromTemplateOptions.cluster buildPlanFromTemplateOptions.networking
    buildPlanFromTemplateOptions.docker buildPlanFromTemplateOptions.cni
    buildPlanFromTemplateOptions.addOns buildPlanFromTemplateOptions.counts
    buildPlanFromTemplateOptions.nodes templateCNI
  simp only [appendLoop_eq, List.nil_append, hI]


/-! ## Plan templates: claims -/

/-- C31: template generation.  For template options with non-negative node
counts, each of the five pools of the plan `buildPlanFromTemplateOptions`
returns has `ExpectedCount` equal to the requested count and `Nodes` made of
exactly that many copies of the empty node; three etcd, two master and four
worker nodes give pools of 3, 2 and 4 empty placeholders. -/
theorem C31_template_pools :
    (∀ (c : PackageConstants) (opts : PlanTemplateOptions),
      0 ≤ opts.EtcdNodes → 0 ≤ opts.MasterNodes → 0 ≤ opts.WorkerNodes →
      0 ≤ opts.IngressNodes → 0 ≤ opts.StorageNodes →
        (buildPlanFromTemplateOptions c opts).Etcd =
          { ExpectedCount := opts.EtcdNodes, Nodes := List.replicate opts.EtcdNodes.toNat {} } ∧
        (((buildPlanFromTemplateOptions c opts).Etcd.Nodes.length : Nat) : Int) = opts.EtcdNodes ∧
        (buildPlanFromTemplateOptions c opts).Master =
          { ExpectedCount := opts.MasterNodes, Nodes := List.replicate opts.MasterNodes.toNat {} } ∧
        (((buildPlanFromTemplateOptions c opts).Master.Nodes.length : Nat) : Int) = opts.MasterNodes ∧
        (buildPlanFromTemplateOptions c opts).Worker =
          { ExpectedCount := opts.WorkerNodes, Nodes := List.replicate opts.WorkerNodes.toNat {} } ∧
        (((buildPlanFromTemplateOptions c opts).Worker.Nodes.length : Nat) : Int) = opts.WorkerNodes ∧
        (buildPlanFromTemplateOptions c opts).Ingress =
          { ExpectedCount := opts.IngressNodes, Nodes := List.replicate opts.IngressNodes.toNat {} } ∧
        (((buildPlanFromTemplateOptions c opts).Ingress.Nodes.length : Nat) : Int) = opts.IngressNodes ∧
        (buildPlanFromTemplateOptions c opts).Storage =
          { ExpectedCount := opts.StorageNodes, Nodes := List.replicate opts.StorageNodes.toNat {} } ∧
        (((buildPlanFromTemplateOptions c opts).Storage.Nodes.length : Nat) : Int) = opts.StorageNodes) ∧
    (buildPlanFromTemplateOptions exampleConstants exampleTemplateOptions).Etcd =
      { ExpectedCount := 3, Nodes := [{}, {}, {}] } ∧
    (buildPlanFromTemplateOptions exampleConstants exampleTemplateOptions).Master =
      { ExpectedCount := 2, Nodes := [{}, {}] } ∧
    (buildPlanFromTemplateOptions exampleConstants exampleTemplateOptions).Worker =
      { ExpectedCount := 4, Nodes := [{}, {}, {}, {}] } := by
  refine ⟨?_, by decide, by decide, by decide⟩
  intro c opts h1 h2 h3 h4 h5
  rw [buildPlanFromTemplateOptions_eq_closedForm]
  simp only [buildPlanFromTemplateOptions.closedForm, List.length_replicate, true_and]
  omega

/-- Witness for C31: the pools for three etcd, two master and four worker
nodes. -/
theorem C31_template_pools_witness :
    (buildPlanFromTemplateOptions exampleConstants exampleTemplateOptions).Etcd =
      { ExpectedCount := exampleTemplateOptions.EtcdNodes,
        Nodes := List.replicate exampleTemplateOptions.EtcdNodes.toNat {} } ∧
    (((buildPlanFromTemplateOptions exampleConstants exampleTemplateOptions).Etcd.Nodes.length : Nat) :
      Int) = exampleTemplateOptions.EtcdNodes :=
  have h := C31_template_pools.1 exampleConstants exampleTemplateOptions (by decide) (by decide)
    (by decide) (by decide) (by decide)
  ⟨h.1, h.2.1⟩

/-- C32: the CNI choice of a template.  For the provisioner `azure` the CNI
provider is weave and no Calico option is set; for every other provisioner it
is calico with mode `overlay`, log level `info`, workload MTU 1500, felix
input MTU 1440 and autodetection method `first-found`.  So, the two provider
constants being distinct, the provider is weave exactly for `azure`.
`Provisioner.Provider` is always the requested provisioner. -/
theorem C32_template_cni :
    (∀ (c : PackageConstants) (opts : PlanTemplateOptions),
      opts.InfrastructureProvisioner = "azure" →
        (buildPlanFromTemplateOptions c opts).AddOns.CNI =
          some { Provider := c.cniProviderWeave, Options := { Calico := {} } }) ∧
    (∀ (c : PackageConstants) (opts : PlanTemplateOptions),
      opts.InfrastructureProvisioner ≠ "azure" →
        (buildPlanFromTemplateOptions c opts).AddOns.CNI =
          some { Provider := c.cniProviderCalico,
                 Options := { Calico :=
                   { Mode := "overlay", LogLevel := "info", WorkloadMTU := 1500,
                     FelixInputMTU := 1440, IPAutodetectionMethod := "first-found" } } }) ∧
    (∀ (c : PackageConstants) (opts : PlanTemplateOptions),
      c.cniProviderWeave ≠ c.cniProviderCalico →
        ((∃ cni, (buildPlanFromTemplateOptions c opts).AddOns.CNI = some cni ∧
            cni.Provider = c.cniProviderWeave) ↔ opts.InfrastructureProvisioner = "azure")) ∧
    (∀ (c : PackageConstants) (opts : PlanTemplateOptions),
      (buildPlanFromTemplateOptions c opts).Provisioner.Provider =
        opts.InfrastructureProvisioner) := by
  refine ⟨?_, ?_, ?_, ?_⟩
  · intro c opts h
    rw [buildPlanFromTemplateOptions_eq_closedForm]
    simp [buildPlanFromTemplateOptions.closedForm, templateCNI, h]
  · intro c opts h
    rw [buildPlanFromTemplateOptions_eq_closedForm]
    simp [buildPlanFromTemplateOptions.closedForm, templateCNI, h]
  · intro c opts hc
    rw [buildPlanFromTemplateOptions_eq_closedForm]
    by_cases h : opts.InfrastructureProvisioner = "azure"
    · simp [buildPlanFromTemplateOptions.closedForm, templateCNI, h]
    · simp [buildPlanFromTemplateOptions.closedForm, templateCNI, h, Ne.symm hc]
  · intro c opts
    rw [buildPlanFromTemplateOptions_eq_closedForm]
    rfl

/-- Witness for C32: a template for `azure`. -/
theorem C32_template_cni_witness :
    (buildPlanFromTemplateOptions exampleConstants exampleAzureTemplateOptions).AddOns.CNI =
      some { Provider := exampleConstants.cniProviderWeave, Options := { Calico := {} } } :=
  C32_template_cni.1 exampleConstants exampleAzureTemplateOptions rfl

/-- C33 as stated fails: the template for `azure` has weave as its CNI
provider and no Calico option, and `setDefaults` fills the Calico log level,
the two MTUs and the autodetection method in. -/
theorem C33_azure_template_is_changed :
    (buildPlanFromTemplateOptions exampleConstants exampleAzureTemplateOptions).AddOns.CNI =
      some { Provider := "weave" } ∧
    (setDefaults exampleConstants
        (buildPlanFromTemplateOptions exampleConstants exampleAzureTemplateOptions)).map
      (fun q => q.AddOns.CNI) =
      some (some { Provider := "weave",
                   Options := { Calico :=
                     { LogLevel := "info", WorkloadMTU := 1500, FelixInputMTU := 1440,
                       IPAutodetectionMethod := "first-found" } } }) ∧
    setDefaults exampleConstants
        (buildPlanFromTemplateOptions exampleConstants exampleAzureTemplateOptions) ≠
      some (buildPlanFromTemplateOptions exampleConstants exampleAzureTemplateOptions) := by
  refine ⟨by decide, by decide, by decide⟩

/-- C33, amended: for every provisioner other than `azure` the template
already carries every default, `setDefaults` returns it unchanged; for `azure`
`setDefaults` changes the CNI add-on only, by giving the four Calico options
it finds unset their defaults. -/
theorem C33_template_carries_defaults :
    (∀ (c : PackageConstants) (opts : PlanTemplateOptions),
      opts.InfrastructureProvisioner ≠ "azure" →
        setDefaults c (buildPlanFromTemplateOptions c opts) =
          some (buildPlanFromTemplateOptions c opts)) ∧
    (∀ (c : PackageConstants) (opts : PlanTemplateOptions),
      opts.InfrastructureProvisioner = "azure" →
        setDefaults c (buildPlanFromTemplateOptions c opts) =
          some { buildPlanFromTemplateOptions c opts with
            AddOns := { (buildPlanFromTemplateOptions c opts).AddOns with
              CNI := some { Provider := c.cniProviderWeave,
                            Options := { Calico :=
                              { LogLevel := "info", WorkloadMTU := 1500, FelixInputMTU := 1440,
                                IPAutodetectionMethod := "first-found" } } } } }) := by
  refine ⟨?_, ?_⟩
  · intro c opts h
    rw [buildPlanFromTemplateOptions_eq_closedForm, setDefaults_eq_closedForm]
    simp [buildPlanFromTemplateOptions.closedForm, defaultStorageOpts, setDefaults.closedForm,
      templateCNI, h, defaultCNI, orDefault, orDefaultInt, defaultLogs, defaultBlockDevice,
      defaultHeapster, defaultHeapsterOptions, defaultDashboard, defaultCAExpiry]
  · intro c opts h
    rw [buildPlanFromTemplateOptions_eq_closedForm, setDefaults_eq_closedForm]
    simp [buildPlanFromTemplateOptions.closedForm, defaultStorageOpts, setDefaults.closedForm,
      templateCNI, h, defaultCNI, orDefault, orDefaultInt, defaultLogs, defaultBlockDevice,
      defaultHeapster, defaultHeapsterOptions, defaultDashboard, defaultCAExpiry]

/-- Witness for C33: the template for `aws`. -/
theorem C33_template_carries_defaults_witness :
    setDefaults exampleConstants (buildPlanFromTemplateOptions exampleConstants exampleTemplateOptions) =
      some (buildPlanFromTemplateOptions exampleConstants exampleTemplateOptions) :=
  C33_template_carries_defaults.1 exampleConstants exampleTemplateOptions (by decide)

/-! ## Defaulting: further lemmas and claims -/

/-- What a guarded write leaves under every key. -/
theorem setIfAbsent_get (m m' : StrMap) (k v k' : String) (h : setIfAbsent m k v = some m') :
    m'.get? k' = if k' = k then some ((m.get? k).getD v) else m.get? k' := by
  unfold setIfAbsent at h
  cases m with
  | none => simp [StrMap.get?, StrMap.set] at h
  | some kvs =>
    cases hl : lookupKV k kvs with
    | none =>
      simp only [StrMap.get?, hl, Option.isNone_none, if_true, StrMap.set, Option.some.injEq] at h
      subst h
      by_cases hk : k' = k
      · subst hk
        simp [StrMap.get?, lookupKV_insertKV_self, hl]
      · simp [StrMap.get?, lookupKV_insertKV_of_ne _ _ _ _ hk, hk]
    | some x =>
      simp only [StrMap.get?, hl, Option.isNone_some, Bool.false_eq_true, if_false,
        Option.some.injEq] at h
      subst h
      by_cases hk : k' = k
      · subst hk
        simp [StrMap.get?, hl]
      · simp [hk]

/-- The storage options after defaulting, key by key, when the device-mapper
block applies. -/
theorem defaultStorageOpts_get (s : DockerStorage) (o : StrMap)
    (hc : s.Driver = "devicemapper" ∧ s.DirectLVMBlockDevice.Path ≠ "")
    (h : defaultStorageOpts s = some o) :
    o.get? "dm.thinpooldev" = some ((s.Opts.get? "dm.thinpooldev").getD "/dev/mapper/docker-thinpool") ∧
    o.get? "dm.use_deferred_removal" = some ((s.Opts.get? "dm.use_deferred_removal").getD "true") ∧
    o.get? "dm.use_deferred_deletion" = some ((s.Opts.get? "dm.use_deferred_deletion").getD "false") ∧
    (∀ k, k ≠ "dm.thinpooldev" → k ≠ "dm.use_deferred_removal" → k ≠ "dm.use_deferred_deletion" →
      o.get? k = s.Opts.get? k) := by
  unfold defaultStorageOpts at h
  rw [if_pos hc] at h
  cases h1 : setIfAbsent s.Opts "dm.thinpooldev" "/dev/mapper/docker-thinpool" with
  | none => simp [h1] at h
  | some o1 =>
    rw [h1, Option.some_bind] at h
    cases h2 : setIfAbsent o1 "dm.use_deferred_removal" "true" with
    | none => simp [h2] at h
    | some o2 =>
      rw [h2, Option.some_bind] at h
      have g1 := fun k' => setIfAbsent_get _ _ _ _ k' h1
      have g2 := fun k' => setIfAbsent_get _ _ _ _ k' h2
      have g3 := fun k' => setIfAbsent_get _ _ _ _ k' h
      refine ⟨?_, ?_, ?_, ?_⟩
      · rw [g3, if_neg (by decide), g2, if_neg (by decide), g1, if_pos rfl]
      · rw [g3, if_neg (by decide), g2, if_pos rfl, g1, if_neg (by decide)]
      · rw [g3, if_pos rfl, g2, if_neg (by decide), g1, if_neg (by decide)]
      · intro k k1 k2 k3
        rw [g3, if_neg k3, g2, if_neg k2, g1, if_neg k1]

/-- C34: when the CNI block is absent, `setDefaults` creates it with provider
calico, Calico log level `info`, felix input MTU 1440, workload MTU 1500,
autodetection method `first-found`, and the Calico mode of the legacy
`Cluster.Networking.Type` when that is not empty and `overlay` otherwise.
This is the block of every plan `setDefaults` returns for such a plan, and
`setDefaults` does return one unless it has to write a storage option into a
nil map. -/
theorem C34_absent_cni_block_created :
    (∀ (c : PackageConstants) (P Q : Plan), P.AddOns.CNI = none → setDefaults c P = some Q →
      Q.AddOns.CNI = some
        { Provider := c.cniProviderCalico,
          Options := { Calico :=
            { Mode := if P.Cluster.Networking.Type_ ≠ "" then P.Cluster.Networking.Type_
                else "overlay",
              LogLevel := "info", WorkloadMTU := 1500, FelixInputMTU := 1440,
              IPAutodetectionMethod := "first-found" } } }) ∧
    (∀ (c : PackageConstants) (P : Plan), P.AddOns.CNI = none →
      ¬ (P.Docker.Storage.Driver = "devicemapper" ∧
        P.Docker.Storage.DirectLVMBlockDevice.Path ≠ "" ∧ P.Docker.Storage.Opts = none) →
      ∃ Q, setDefaults c P = some Q ∧ Q.AddOns.CNI = some
        { Provider := c.cniProviderCalico,
          Options := { Calico :=
            { Mode := if P.Cluster.Networking.Type_ ≠ "" then P.Cluster.Networking.Type_
                else "overlay",
              LogLevel := "info", WorkloadMTU := 1500, FelixInputMTU := 1440,
              IPAutodetectionMethod := "first-found" } } }) := by
  have key : ∀ (c : PackageConstants) (P Q : Plan), P.AddOns.CNI = none →
      setDefaults c P = some Q →
      Q.AddOns.CNI = some
        { Provider := c.cniProviderCalico,
          Options := { Calico :=
            { Mode := if P.Cluster.Networking.Type_ ≠ "" then P.Cluster.Networking.Type_
                else "overlay",
              LogLevel := "info", WorkloadMTU := 1500, FelixInputMTU := 1440,
              IPAutodetectionMethod := "first-found" } } } := by
    intro c P Q hcni hQ
    obtain ⟨o, -, rfl⟩ := (setDefaults_some_iff c P Q).1 hQ
    simp [setDefaults.closedForm, defaultCNI, hcni]
  refine ⟨key, ?_⟩
  intro c P hcni hok
  obtain ⟨Q, hQ⟩ := (setDefaults_completes_iff c P).2 hok
  exact ⟨Q, hQ, key c P Q hcni hQ⟩

/-- Witness for C34: `exampleRawPlan` has no CNI block and the legacy
networking type `routed`. -/
theorem C34_absent_cni_block_created_witness :
    ∃ Q, setDefaults exampleConstants exampleRawPlan = some Q ∧ Q.AddOns.CNI = some
      { Provider := exampleConstants.cniProviderCalico,
        Options := { Calico :=
          { Mode := if exampleRawPlan.Cluster.Networking.Type_ ≠ ""
              then exampleRawPlan.Cluster.Networking.Type_ else "overlay",
            LogLevel := "info", WorkloadMTU := 1500, FelixInputMTU := 1440,
            IPAutodetectionMethod := "first-found" } } } :=
  C34_absent_cni_block_created.2 exampleConstants exampleRawPlan rfl (by decide)

/-- C37 fails on the code: for a plan that creates a device-mapper block
device and has a nil `Docker.Storage.Opts`, `setDefaults` stops with a runtime
error at its first write to the map.  With an allocated map, also an empty
one, it completes and the map holds the three `dm.*` keys, each with the value
it already had or else its default, and every other entry unchanged; for
another driver or an empty path the options are unchanged. -/
theorem C37_nil_storage_options_stop_setDefaults :
    setDefaults exampleConstants exampleNilOptsPlan = none ∧
    (∀ (c : PackageConstants) (P : Plan), P.Docker.Storage.Driver = "devicemapper" →
      P.Docker.Storage.DirectLVMBlockDevice.Path ≠ "" → P.Docker.Storage.Opts = none →
        setDefaults c P = none) ∧
    (∀ (c : PackageConstants) (P : Plan) (kvs : List (String × String)),
      P.Docker.Storage.Driver = "devicemapper" →
      P.Docker.Storage.DirectLVMBlockDevice.Path ≠ "" → P.Docker.Storage.Opts = some kvs →
        ∃ Q, setDefaults c P = some Q ∧
          Q.Docker.Storage.Opts.get? "dm.thinpooldev" =
            some ((P.Docker.Storage.Opts.get? "dm.thinpooldev").getD "/dev/mapper/docker-thinpool") ∧
          Q.Docker.Storage.Opts.get? "dm.use_deferred_removal" =
            some ((P.Docker.Storage.Opts.get? "dm.use_deferred_removal").getD "true") ∧
          Q.Docker.Storage.Opts.get? "dm.use_deferred_deletion" =
            some ((P.Docker.Storage.Opts.get? "dm.use_deferred_deletion").getD "false") ∧
          (∀ k, k ≠ "dm.thinpooldev" → k ≠ "dm.use_deferred_removal" →
            k ≠ "dm.use_deferred_deletion" →
            Q.Docker.Storage.Opts.get? k = P.Docker.Storage.Opts.get? k)) ∧
    (∀ (c : PackageConstants) (P : Plan),
      ¬ (P.Docker.Storage.Driver = "devicemapper" ∧
        P.Docker.Storage.DirectLVMBlockDevice.Path ≠ "") →
        ∃ Q, setDefaults c P = some Q ∧ Q.Docker.Storage.Opts = P.Docker.Storage.Opts) := by
  refine ⟨by decide, ?_, ?_, ?_⟩
  · intro c P h1 h2 h3
    have : ¬ ∃ Q, setDefaults c P = some Q := by
      rw [setDefaults_completes_iff]
      exact fun hn => hn ⟨h1, h2, h3⟩
    cases hs : setDefaults c P with
    | none => rfl
    | some Q => exact absurd ⟨Q, hs⟩ this
  · intro c P kvs h1 h2 h3
    have hok : ∃ Q, setDefaults c P = some Q := by
      rw [setDefaults_completes_iff]
      rintro ⟨-, -, hn⟩
      rw [h3] at hn
      simp at hn
    obtain ⟨Q, hQ⟩ := hok
    refine ⟨Q, hQ, ?_⟩
    obtain ⟨o, ho, rfl⟩ := (setDefaults_some_iff c P Q).1 hQ
    exact defaultStorageOpts_get P.Docker.Storage o ⟨h1, h2⟩ ho
  · intro c P hn
    have hok : ∃ Q, setDefaults c P = some Q := by
      rw [setDefaults_completes_iff]
      rintro ⟨h1, h2, -⟩
      exact hn ⟨h1, h2⟩
    obtain ⟨Q, hQ⟩ := hok
    refine ⟨Q, hQ, ?_⟩
    obtain ⟨o, ho, rfl⟩ := (setDefaults_some_iff c P Q).1 hQ
    obtain ⟨hsame, -, -⟩ := defaultStorageOpts_spec P.Docker.Storage o ho
    exact hsame hn

/-- Witness for C37: `exampleOneOptPlan` has an allocated map with one of the
three keys. -/
theorem C37_nil_storage_options_stop_setDefaults_witness :
    ∃ Q, setDefaults exampleConstants exampleOneOptPlan = some Q ∧
      Q.Docker.Storage.Opts.get? "dm.thinpooldev" =
        some ((exampleOneOptPlan.Docker.Storage.Opts.get? "dm.thinpooldev").getD
          "/dev/mapper/docker-thinpool") ∧
      Q.Docker.Storage.Opts.get? "dm.use_deferred_removal" =
        some ((exampleOneOptPlan.Docker.Storage.Opts.get? "dm.use_deferred_removal").getD "true") ∧
      Q.Docker.Storage.Opts.get? "dm.use_deferred_deletion" =
        some ((exampleOneOptPlan.Docker.Storage.Opts.get? "dm.use_deferred_deletion").getD "false") ∧
      (∀ k, k ≠ "dm.thinpooldev" → k ≠ "dm.use_deferred_removal" →
        k ≠ "dm.use_deferred_deletion" →
        Q.Docker.Storage.Opts.get? k = exampleOneOptPlan.Docker.Storage.Opts.get? k) :=
  C37_nil_storage_options_stop_setDefaults.2.2.1 exampleConstants exampleOneOptPlan
    [("dm.use_deferred_deletion", "true")] rfl (by decide) rfl

/-- C38: the heapster fields of KET < v1.5.0 take precedence in `setDefaults`.
In the plan it returns, `Options.Heapster.Replicas` is the deprecated
`Options.HeapsterReplicas` when that is not zero, and otherwise the existing
value when that is not zero, and otherwise 2; `Options.InfluxDB.PVCName` is
the deprecated `Options.InfluxDBPVCName` when that is not empty and is
otherwise unchanged.  A plan without heapster block gets 2 replicas and the
empty claim name. -/
theorem C38_legacy_heapster_fields :
    (∀ (c : PackageConstants) (P Q : Plan) (hm0 : HeapsterMonitoring),
      P.AddOns.HeapsterMonitoring = some hm0 → setDefaults c P = some Q →
      ∃ hm, Q.AddOns.HeapsterMonitoring = some hm ∧
        (hm0.Options.HeapsterReplicas ≠ 0 →
          hm.Options.Heapster.Replicas = hm0.Options.HeapsterReplicas) ∧
        (hm0.Options.HeapsterReplicas = 0 → hm0.Options.Heapster.Replicas ≠ 0 →
          hm.Options.Heapster.Replicas = hm0.Options.Heapster.Replicas) ∧
        (hm0.Options.HeapsterReplicas = 0 → hm0.Options.Heapster.Replicas = 0 →
          hm.Options.Heapster.Replicas = 2) ∧
        (hm0.Options.InfluxDBPVCName ≠ "" →
          hm.Options.InfluxDB.PVCName = hm0.Options.InfluxDBPVCName) ∧
        (hm0.Options.InfluxDBPVCName = "" →
          hm.Options.InfluxDB.PVCName = hm0.Options.InfluxDB.PVCName)) ∧
    (∀ (c : PackageConstants) (P Q : Plan),
      P.AddOns.HeapsterMonitoring = none → setDefaults c P = some Q →
      ∃ hm, Q.AddOns.HeapsterMonitoring = some hm ∧
        hm.Options.Heapster.Replicas = 2 ∧ hm.Options.InfluxDB.PVCName = "") ∧
    (setDefaults exampleConstants exampleLegacyHeapsterPlan).map
        (fun q => q.AddOns.HeapsterMonitoring.map
          (fun hm => (hm.Options.Heapster.Replicas, hm.Options.InfluxDB.PVCName))) =
      some (some (5, "legacy")) := by
  refine ⟨?_, ?_, by decide⟩
  · intro c P Q hm0 hP hQ
    obtain ⟨o, -, rfl⟩ := (setDefaults_some_iff c P Q).1 hQ
    refine ⟨defaultHeapster (some hm0), by simp [setDefaults.closedForm, hP], ?_, ?_, ?_, ?_, ?_⟩
    · intro h
      simp [defaultHeapster, defaultHeapsterOptions, h]
    · intro h h'
      simp [defaultHeapster, defaultHeapsterOptions, h, orDefaultInt, h']
    · intro h h'
      simp [defaultHeapster, defaultHeapsterOptions, h, orDefaultInt, h']
    · intro h
      simp [defaultHeapster, defaultHeapsterOptions, h]
    · intro h
      simp [defaultHeapster, defaultHeapsterOptions, h]
  · intro c P Q hP hQ
    obtain ⟨o, -, rfl⟩ := (setDefaults_some_iff c P Q).1 hQ
    refine ⟨defaultHeapster none, by simp [setDefaults.closedForm, hP], ?_, ?_⟩
    · simp [defaultHeapster, defaultHeapsterOptions, orDefaultInt]
    · simp [defaultHeapster, defaultHeapsterOptions]

/-- Witness for C38: `exampleLegacyHeapsterPlan` sets both deprecated fields. -/
theorem C38_legacy_heapster_fields_witness :
    ∃ hm, (setDefaults.closedForm exampleConstants exampleLegacyHeapsterPlan
        none).AddOns.HeapsterMonitoring = some hm ∧
      ((5 : Int) ≠ 0 → hm.Options.Heapster.Replicas = 5) ∧
      ((5 : Int) = 0 → (3 : Int) ≠ 0 → hm.Options.Heapster.Replicas = 3) ∧
      ((5 : Int) = 0 → (3 : Int) = 0 → hm.Options.Heapster.Replicas = 2) ∧
      ("legacy" ≠ "" → hm.Options.InfluxDB.PVCName = "legacy") ∧
      ("legacy" = "" → hm.Options.InfluxDB.PVCName = "current") :=
  C38_legacy_heapster_fields.1 exampleConstants exampleLegacyHeapsterPlan
    (setDefaults.closedForm exampleConstants exampleLegacyHeapsterPlan none)
    exampleLegacyHeapster rfl (by decide)

/-- C39 fails on the code: `apply` hands `NewExecutor` the plan file of the
planner as `GeneratedAssetsDirectory`, not its generated directory.  For
`apply prod` that is `clusters/prod/kismatic-cluster.yaml`, where `step` on
the same input passes `clusters/prod/generated`; in `apply` the value is
`planner.PlanFile` for every planner. -/
theorem C39_apply_passes_plan_file_to_executor :
    NewCmdApply.RunE exampleCliCollaborators defaultInstallOpts ["prod"] =
      ([CliCall.NewExecutor "clusters/prod/kismatic-cluster.yaml",
        CliCall.applyCmdRun
          { PlanFile := "clusters/prod/kismatic-cluster.yaml", GeneratedDir := "clusters/prod/generated" }
          "clusters/prod/kismatic-cluster.yaml" "clusters/prod/generated"], none) ∧
    NewCmdStep.RunE exampleCliCollaborators defaultInstallOpts ["prod", "kubeconfig"] =
      ([CliCall.ValidatePlaybookExists "kubeconfig",
        CliCall.NewExecutor "clusters/prod/generated",
        CliCall.stepCmdRun
          { PlanFile := "clusters/prod/kismatic-cluster.yaml", GeneratedDir := "clusters/prod/generated" }
          "clusters/prod/kismatic-cluster.yaml" "clusters/prod/generated"], none) ∧
    NewCmdApply.RunE exampleCliCollaborators { PlanFile := "/tmp/p.yaml", GeneratedDir := "/tmp/g" } [] =
      ([CliCall.NewExecutor "/tmp/p.yaml",
        CliCall.applyCmdRun { PlanFile := "/tmp/p.yaml", GeneratedDir := "/tmp/g" }
          "/tmp/p.yaml" "/tmp/g"], none) ∧
    NewCmdStep.RunE exampleCliCollaborators { PlanFile := "/tmp/p.yaml", GeneratedDir := "/tmp/g" }
        ["kubeconfig"] =
      ([CliCall.ValidatePlaybookExists "kubeconfig", CliCall.NewExecutor "/tmp/g",
        CliCall.stepCmdRun { PlanFile := "/tmp/p.yaml" } "/tmp/p.yaml" "/tmp/g"], none) ∧
    (∀ (env : CliCollaborators) (planner : FilePlanner) (t : List CliCall),
      (NewCmdApply.run env planner t).1.take (t.length + 1) =
        t ++ [CliCall.NewExecutor planner.PlanFile]) := by
  refine ⟨by decide, by decide, by decide, by decide, ?_⟩
  intro env planner t
  unfold NewCmdApply.run
  cases env.NewExecutor planner.PlanFile with
  | some err => simp
  | none => simp [List.take_append_eq_append_take]

/-! ## The path stack of the scan loop: lemmas and claim -/

theorem keyLinesFrom_cons (processed : List String) (acc : List (Nat × String)) (l : String)
    (rest : List String) :
    keyLinesFrom processed acc (l :: rest) =
      match yamlKeyRE.FindStringSubmatch l with
      | some m =>
        if inEtcdBlock (processed ++ [l]) && stringsContains l "labels: \x7b\x7d" then
          keyLinesFrom (processed ++ [l]) acc rest
        else keyLinesFrom (processed ++ [l]) ((countBlanks m.1 / 2, m.2) :: acc) rest
      | none => keyLinesFrom (processed ++ [l]) acc rest := rfl

theorem keyLinesFrom_append (xs ys : List String) :
    ∀ (processed : List String) (acc : List (Nat × String)),
      keyLinesFrom processed acc (xs ++ ys) =
        keyLinesFrom (processed ++ xs) (keyLinesFrom processed acc xs) ys := by
  induction xs with
  | nil =>
    intro processed acc
    simp [keyLinesFrom]
  | cons x xs ih =>
    intro processed acc
    have e : processed ++ x :: xs = (processed ++ [x]) ++ xs := by simp
    rw [List.cons_append, keyLinesFrom_cons, keyLinesFrom_cons, e]
    cases yamlKeyRE.FindStringSubmatch x with
    | none => exact ih _ _
    | some m =>
      simp only
      split_ifs
      · exact ih _ _
      · exact ih _ _

/-- The key lines of a text with one more line. -/
theorem keyLines_concat (pre : List String) (l : String) :
    keyLines (pre ++ [l]) = keyLinesFrom pre (keyLines pre) [l] := by
  unfold keyLines
  rw [keyLinesFrom_append]
  simp

/-- Under the step condition the chain of the most recent key line has one
entry per level, and the keys that enclose a line of a level within the bound
are the first entries of that chain. -/
theorem enclosing_eq_take (ks : List (Nat × String)) (hwf : KeyLevelsStep ks) :
    (keyChain ks).length = keyLevelBound ks ∧
    ∀ i, i ≤ keyLevelBound ks → enclosing ks i = (keyChain ks).take i := by
  induction ks with
  | nil => simp [keyChain, keyLevelBound, enclosing]
  | cons e earlier ih =>
    obtain ⟨j, k⟩ := e
    obtain ⟨hj, hwf'⟩ := hwf
    obtain ⟨hlen, htake⟩ := ih hwf'
    have hlenj : (enclosing earlier j).length = j := by
      rw [htake j hj, List.length_take, hlen]
      omega
    refine ⟨by simp [keyChain, keyLevelBound, hlenj], ?_⟩
    intro i hi
    simp only [keyLevelBound] at hi
    by_cases hji : j < i
    · have : i = j + 1 := by omega
      subst this
      simp only [enclosing, keyChain, if_pos hji]
      rw [List.take_of_length_le]
      simp [hlenj]
    · have hij : i ≤ j := by omega
      simp only [enclosing, keyChain, if_neg hji]
      rw [List.take_append_of_le_length (by omega), htake i (by omega), htake j hj,
        List.take_take, Nat.min_eq_left hij]

/-- The pop loop with `n` iterations on a stack of at least `n` entries leaves
the entries below the `n` topmost. -/
theorem popLoop_take (n : Nat) : ∀ (s : List String), n ≤ s.length →
    popLoop n s = .ok (s.take (s.length - n)) := by
  induction n with
  | zero =>
    intro s _
    simp [popLoop]
  | succ n ih =>
    intro s hs
    have h0 : ¬ s.length = 0 := by omega
    unfold popLoop stackPop
    simp only [if_neg h0]
    rw [ih s.dropLast (by simp; omega)]
    rw [List.dropLast_eq_take, List.take_take]
    simp only [List.length_take]
    congr 2
    omega

theorem scanLine_print_prevIndent (st : ScanState) (text m1 : String) :
    (scanLine.print st text m1).prevIndent = st.prevIndent := by
  unfold scanLine.print
  cases st.oneTimeComments.get? (".".intercalate st.s) with
  | none => rfl
  | some cs => rfl

/-- One processed key line whose level is within the bound: no `Pop` fails, the
line is printed from the state in which the stack is the keys that enclose the
line followed by its key, and the level is recorded. -/
theorem scanLine_stack (pre : List String) (ks : List (Nat × String)) (st : ScanState)
    (l m0 m1 : String)
    (hetcd : st.etcdBlock = inEtcdBlock pre)
    (hprev : st.prevIndent = (keyLevelBound ks : Int) - 1)
    (hs : st.s = keyChain ks) (hwf : KeyLevelsStep ks)
    (hkey : yamlKeyRE.FindStringSubmatch l = some (m0, m1))
    (hshown : ¬ (inEtcdBlock (pre ++ [l]) = true ∧ stringsContains l "labels: \x7b\x7d" = true))
    (hstep : countBlanks m0 / 2 ≤ keyLevelBound ks) :
    ∃ pushed, scanLine st l = (scanLine.print pushed l m1, none) ∧
      pushed.s = enclosing ks (countBlanks m0 / 2) ++ [m1] ∧
      pushed.prevIndent = ((countBlanks m0 / 2 : Nat) : Int) := by
  obtain ⟨hlen, htake⟩ := enclosing_eq_take ks hwf
  have hflag := scanLine_etcd_flag pre st l m0 m1 hkey hetcd
  have hs1 : (scanLine.etcd st ((countBlanks m0 / 2 : Nat) : Int) l).s = st.s := by
    unfold scanLine.etcd
    split_ifs <;> rfl
  have hp1 : (scanLine.etcd st ((countBlanks m0 / 2 : Nat) : Int) l).prevIndent =
      st.prevIndent := by
    unfold scanLine.etcd
    split_ifs <;> rfl
  have hskip : ¬ (((scanLine.etcd st ((countBlanks m0 / 2 : Nat) : Int) l).etcdBlock &&
      stringsContains l "labels: \x7b\x7d") = true) := by
    rw [hflag]
    simpa using hshown
  have hscan : scanLine st l =
      match scanLine.pop (scanLine.leave (scanLine.etcd st ((countBlanks m0 / 2 : Nat) : Int) l)
          ((countBlanks m0 / 2 : Nat) : Int)) ((countBlanks m0 / 2 : Nat) : Int) with
      | .error err =>
        (scanLine.leave (scanLine.etcd st ((countBlanks m0 / 2 : Nat) : Int) l)
          ((countBlanks m0 / 2 : Nat) : Int), some err)
      | .ok s =>
        (scanLine.print (scanLine.push
          (scanLine.leave (scanLine.etcd st ((countBlanks m0 / 2 : Nat) : Int) l)
            ((countBlanks m0 / 2 : Nat) : Int)) s m1 ((countBlanks m0 / 2 : Nat) : Int)) l m1,
          none) := by
    unfold scanLine
    simp only [hkey]
    rw [if_neg hskip]
  generalize scanLine.etcd st ((countBlanks m0 / 2 : Nat) : Int) l = st1 at hs1 hp1 hscan
  have hs2 : (scanLine.leave st1 ((countBlanks m0 / 2 : Nat) : Int)).s = st.s := by
    unfold scanLine.leave
    split_ifs <;> exact hs1
  have hp2 : (scanLine.leave st1 ((countBlanks m0 / 2 : Nat) : Int)).prevIndent =
      st.prevIndent := by
    unfold scanLine.leave
    split_ifs <;> exact hp1
  generalize scanLine.leave st1 ((countBlanks m0 / 2 : Nat) : Int) = st2 at hs2 hp2 hscan
  have hpop : scanLine.pop st2 ((countBlanks m0 / 2 : Nat) : Int) =
      .ok (enclosing ks (countBlanks m0 / 2)) := by
    unfold scanLine.pop
    rw [hp2, hprev, hs2, hs, htake _ hstep]
    by_cases hle : ((countBlanks m0 / 2 : Nat) : Int) ≤ (keyLevelBound ks : Int) - 1
    · rw [if_pos hle, popLoop_take _ _ (by rw [hlen]; omega)]
      congr 2
      rw [hlen]
      omega
    · rw [if_neg hle]
      congr 1
      rw [List.take_of_length_le]
      rw [hlen]
      omega
  rw [hpop] at hscan
  exact ⟨_, hscan, rfl, rfl⟩

/-- The scan loop on a text whose key lines step by at most one level: it
returns no error, and at its end the recorded level and the stack are those of
the most recent processed key line. -/
theorem scanLoop_stack (comments : CommentTable) (pre : List String) :
    (∀ before l after, pre = before ++ l :: after → ∀ i, keyIndent l = some i →
      (i : Int) ≤ lastKeyIndent before + 1) →
    ∃ st, scanLoop (scanStart comments) pre = (st, none) ∧
      st.prevIndent = (keyLevelBound (keyLines pre) : Int) - 1 ∧
      st.s = keyChain (keyLines pre) ∧ KeyLevelsStep (keyLines pre) := by
  induction pre using List.reverseRecOn with
  | nil =>
    intro _
    exact ⟨scanStart comments, rfl, rfl, rfl, trivial⟩
  | append_singleton pre l ih =>
    intro h
    obtain ⟨st, hst, hprev, hs, hwf⟩ := ih (fun before x after e i hi =>
      h before x (after ++ [l]) (by rw [e]; simp) i hi)
    obtain ⟨-, hetcd⟩ := scanStart_invariants comments pre st hst
    have hlast : st.prevIndent = lastKeyIndent pre := by
      have := scanLoop_prevIndent pre [] (scanStart comments) st rfl hst
      simpa [lastKeyIndent, scanStart] using this
    rw [scanLoop_append pre [l] _ st hst, keyLines_concat, scanLoop_cons]
    cases hm : yamlKeyRE.FindStringSubmatch l with
    | none =>
      have e : scanLine st l = (scanLine.plain st l, none) := by
        unfold scanLine
        simp only [hm]
      rw [e]
      simp only [keyLinesFrom, hm]
      exact ⟨_, rfl, hprev, hs, hwf⟩
    | some m =>
      obtain ⟨m0, m1⟩ := m
      by_cases hskip : inEtcdBlock (pre ++ [l]) = true ∧
          stringsContains l "labels: \x7b\x7d" = true
      · rw [scanLine_omits pre st l m0 m1 hm hetcd hskip.2 hskip.1]
        simp only [keyLinesFrom, hm, hskip.1, hskip.2, Bool.and_self, if_true]
        exact ⟨_, rfl, hprev, hs, hwf⟩
      · have hstep : countBlanks m0 / 2 ≤ keyLevelBound (keyLines pre) := by
          have := h pre l [] rfl (countBlanks m0 / 2) (by simp [keyIndent, hm])
          rw [← hlast, hprev] at this
          omega
        obtain ⟨pushed, hscan, hps, hpp⟩ :=
          scanLine_stack pre (keyLines pre) st l m0 m1 hetcd hprev hs hwf hm hskip hstep
        rw [hscan]
        have hb : (inEtcdBlock (pre ++ [l]) && stringsContains l "labels: \x7b\x7d") = false := by
          simpa using hskip
        simp only [keyLinesFrom, hm, hb, Bool.false_eq_true, if_false]
        refine ⟨_, rfl, ?_, ?_, hstep, hwf⟩
        · rw [scanLine_print_prevIndent, hpp]
          simp [keyLevelBound]
        · rw [scanLine_print_stack, hps]
          rfl

/-- The step condition of a text, at the line that follows `before`. -/
theorem levelsStepByOne_at (lines before after : List String) (l : String)
    (hsteps : LevelsStepByOne lines) (e : lines = before ++ l :: after) (i : Nat)
    (hi : keyIndent l = some i) : (i : Int) ≤ lastKeyIndent before + 1 := by
  have h := hsteps before.length (by rw [e]; simp) i
  have h1 : lines.getD before.length "" = l := by
    rw [e, List.getD_eq_getElem?_getD, List.getElem?_append_right (le_refl _)]
    simp
  have h2 : lines.take before.length = before := by
    rw [e]
    simp
  rw [h1, h2] at h
  exact h hi

/-- The stack follows the levels the loop computes.  For every text in which
the computed levels step by at most one (`LevelsStepByOne`), the scan loop
returns no error, so `Pop` never gives `Empty Stack`; and for each line that
is matched and not left out the line is printed from a state whose stack is
the enclosing keys by the computed levels followed by the matched key, and
after the line the stack is that chain, has the computed level plus one
entries, and has the matched key on top. -/
theorem scanLoop_path_stack (comments : CommentTable) (lines : List String)
    (hsteps : LevelsStepByOne lines) :
    (scanLoop (scanStart comments) lines).2 = none ∧
    ∀ (before after : List String) (l m0 m1 : String), lines = before ++ l :: after →
      yamlKeyRE.FindStringSubmatch l = some (m0, m1) →
      ¬ (inEtcdBlock (before ++ [l]) = true ∧ stringsContains l "labels: \x7b\x7d" = true) →
      ∃ st0 pushed st, scanLoop (scanStart comments) before = (st0, none) ∧
        scanLine st0 l = (scanLine.print pushed l m1, none) ∧
        pushed.s = enclosingKeys before (countBlanks m0 / 2) ++ [m1] ∧
        scanLoop (scanStart comments) (before ++ [l]) = (st, none) ∧
        st.s = enclosingKeys before (countBlanks m0 / 2) ++ [m1] ∧
        st.s.length = countBlanks m0 / 2 + 1 ∧
        st.s.getLast? = some m1 := by
  constructor
  · obtain ⟨st, hst, -⟩ := scanLoop_stack comments lines
      (fun before l after e i hi => levelsStepByOne_at lines before after l hsteps e i hi)
    rw [hst]
  · intro before after l m0 m1 e hm hshown
    obtain ⟨st0, hst0, hprev, hs, hwf⟩ := scanLoop_stack comments before
      (fun b x a e' i hi =>
        levelsStepByOne_at lines b (a ++ l :: after) x hsteps (by rw [e, e']; simp) i hi)
    obtain ⟨-, hetcd⟩ := scanStart_invariants comments before st0 hst0
    have hlast : st0.prevIndent = lastKeyIndent before := by
      have := scanLoop_prevIndent before [] (scanStart comments) st0 rfl hst0
      simpa [lastKeyIndent, scanStart] using this
    have hstep : countBlanks m0 / 2 ≤ keyLevelBound (keyLines before) := by
      have := levelsStepByOne_at lines before after l hsteps e (countBlanks m0 / 2)
        (by simp [keyIndent, hm])
      rw [← hlast, hprev] at this
      omega
    obtain ⟨pushed, hscan, hps, -⟩ :=
      scanLine_stack before (keyLines before) st0 l m0 m1 hetcd hprev hs hwf hm hshown hstep
    have hlen : (enclosing (keyLines before) (countBlanks m0 / 2)).length =
        countBlanks m0 / 2 := by
      obtain ⟨hl, ht⟩ := enclosing_eq_take (keyLines before) hwf
      rw [ht _ hstep, List.length_take, hl]
      omega
    refine ⟨st0, pushed, scanLine.print pushed l m1, hst0, hscan, hps, ?_, ?_, ?_, ?_⟩
    · rw [scanLoop_append before [l] _ st0 hst0, scanLoop_cons, hscan]
      rfl
    · rw [scanLine_print_stack, hps]
      rfl
    · rw [scanLine_print_stack, hps]
      simp [hlen]
    · rw [scanLine_print_stack, hps]
      simp

set_option maxRecDepth 100000 in
/-- The lemma `scanLoop_path_stack` on `exampleBlocksText`, whose computed
levels step by at most one: at its line `pod_cidr_block` the stack is
`cluster`, `networking`, `pod_cidr_block`. -/
theorem scanLoop_path_stack_example :
    LevelsStepByOne exampleBlocksText ∧
    enclosingKeys ["cluster:", "  name: kubernetes", "  networking:"] 2 =
      ["cluster", "networking"] ∧
    ∃ st0 pushed st,
      scanLoop (scanStart (commentMap exampleQuotedMinorVersion))
        ["cluster:", "  name: kubernetes", "  networking:"] = (st0, none) ∧
      scanLine st0 "    pod_cidr_block: 172.16.0.0/16" =
        (scanLine.print pushed "    pod_cidr_block: 172.16.0.0/16" "pod_cidr_block", none) ∧
      pushed.s = enclosingKeys ["cluster:", "  name: kubernetes", "  networking:"]
        (countBlanks "    pod_cidr_block:" / 2) ++ ["pod_cidr_block"] ∧
      scanLoop (scanStart (commentMap exampleQuotedMinorVersion))
        (["cluster:", "  name: kubernetes", "  networking:"] ++
          ["    pod_cidr_block: 172.16.0.0/16"]) = (st, none) ∧
      st.s = enclosingKeys ["cluster:", "  name: kubernetes", "  networking:"]
        (countBlanks "    pod_cidr_block:" / 2) ++ ["pod_cidr_block"] ∧
      st.s.length = countBlanks "    pod_cidr_block:" / 2 + 1 ∧
      st.s.getLast? = some "pod_cidr_block" :=
  ⟨by decide, by decide,
    (scanLoop_path_stack (commentMap exampleQuotedMinorVersion) exampleBlocksText
      (by decide)).2 ["cluster:", "  name: kubernetes", "  networking:"]
      ["  certificates:", "    expiry: 17520h", "etcd:", "  expected_count: 1", "  nodes:",
        "  - host: etcd01", "    labels: \x7b\x7d", "worker:", "  expected_count: 1", "  nodes:",
        "  - host: worker01", "    labels: \x7b\x7d"]
      "    pod_cidr_block: 172.16.0.0/16" "    pod_cidr_block:" "pod_cidr_block"
      (by decide) (by decide) (by decide)⟩

/-! ## Writing a plan: the copy of the comment table -/

theorem CommentTable.get?_cons (e : String × List String) (m : CommentTable) (k : String) :
    CommentTable.get? (e :: m) k = if e.1 = k then some e.2 else CommentTable.get? m k := by
  obtain ⟨a, v⟩ := e
  rfl

theorem CommentTable.get?_delete (m : CommentTable) (k k' : String) :
    (m.delete k).get? k' = if k' = k then none else m.get? k' := by
  induction m with
  | nil => simp [CommentTable.delete, CommentTable.get?]
  | cons e m ih =>
    unfold CommentTable.delete at ih ⊢
    by_cases ha : e.1 = k
    · rw [List.filter_cons_of_neg (by simpa using ha), ih, CommentTable.get?_cons]
      by_cases hk : k' = k
      · simp [hk]
      · have : ¬ e.1 = k' := fun h => hk (h ▸ ha)
        simp [hk, this]
    · rw [List.filter_cons_of_pos (by simpa using ha), CommentTable.get?_cons,
        CommentTable.get?_cons, ih]
      by_cases hk : k' = k
      · have : ¬ e.1 = k' := fun h => ha (h.trans hk)
        simp [hk, this, ha]
      · simp [hk]

theorem CommentTable.get?_set (m : CommentTable) (k k' : String) (v : List String) :
    (m.set k v).get? k' = if k' = k then some v else m.get? k' := by
  unfold CommentTable.set
  rw [CommentTable.get?_cons, CommentTable.get?_delete]
  by_cases hk : k' = k
  · simp [hk]
  · have : ¬ k = k' := fun h => hk h.symm
    simp [hk, this]

/-- In a table with distinct keys a lookup finds exactly the entries. -/
theorem CommentTable.get?_eq_some_iff (m : CommentTable) (hk : (m.map Prod.fst).Nodup)
    (k : String) (v : List String) : m.get? k = some v ↔ (k, v) ∈ m := by
  induction m with
  | nil => simp [CommentTable.get?]
  | cons e m ih =>
    obtain ⟨a, w⟩ := e
    rw [List.map_cons, List.nodup_cons] at hk
    rw [CommentTable.get?_cons, List.mem_cons]
    by_cases ha : a = k
    · subst ha
      have hnot : (a, v) ∉ m := fun h => hk.1 (List.mem_map.2 ⟨_, h, rfl⟩)
      simp [hnot]
      exact eq_comm
    · have : ¬ (k, v) = (a, w) := fun h => ha (by rw [Prod.mk.injEq] at h; exact h.1.symm)
      simp [ha, this, ih hk.2]

/-- The map the copy loop builds from the entries `order` on top of `dst`. -/
theorem foldl_set_get? (order : List (String × List String)) :
    ∀ (dst : CommentTable), (order.map Prod.fst).Nodup → ∀ (k : String) (v : List String),
      ((order.foldl (fun m e => CommentTable.set m e.1 e.2) dst).get? k = some v ↔
        (k, v) ∈ order ∨ (k ∉ order.map Prod.fst ∧ dst.get? k = some v)) := by
  induction order with
  | nil => simp
  | cons e rest ih =>
    intro dst hk k v
    obtain ⟨a, w⟩ := e
    rw [List.map_cons, List.nodup_cons] at hk
    rw [List.foldl_cons, ih _ hk.2, CommentTable.get?_set]
    by_cases ha : k = a
    · subst ha
      have hnot : (k, v) ∉ rest := fun h => hk.1 (List.mem_map.2 ⟨_, h, rfl⟩)
      simp [hnot, hk.1]
      exact eq_comm
    · have : ¬ (k, v) = (a, w) := fun h => ha (by rw [Prod.mk.injEq] at h; exact h.1)
      simp [ha, this]

/-- The copy made from the entries of a map in any order answers every lookup
as the map does. -/
theorem copy_get? (m : CommentTable) (order : List (String × List String))
    (hk : (m.map Prod.fst).Nodup) (hp : order.Perm m) (k : String) :
    (order.foldl (fun m e => CommentTable.set m e.1 e.2) []).get? k = m.get? k := by
  have hko : (order.map Prod.fst).Nodup := ((hp.map Prod.fst).nodup_iff).2 hk
  apply Option.ext
  intro v
  rw [Option.mem_def, Option.mem_def, foldl_set_get? order [] hko, CommentTable.get?_eq_some_iff m hk,
    hp.mem_iff]
  simp [CommentTable.get?]

theorem sameButLayout_etcd (st st' : ScanState) (indent : Int) (text : String)
    (h : SameButLayout st st') :
    SameButLayout (scanLine.etcd st indent text) (scanLine.etcd st' indent text) := by
  obtain ⟨h1, h2, h3, h4, h5, h6⟩ := h
  unfold scanLine.etcd
  split_ifs
  · exact ⟨h1, h2, h3, rfl, h5, h6⟩
  · exact ⟨h1, h2, h3, h4, h5, h6⟩

theorem sameButLayout_leave (st st' : ScanState) (indent : Int) (h : SameButLayout st st') :
    SameButLayout (scanLine.leave st indent) (scanLine.leave st' indent) := by
  obtain ⟨h1, h2, h3, h4, h5, h6⟩ := h
  unfold scanLine.leave
  by_cases hlt : indent < st.prevIndent
  · have hlt' : indent < st'.prevIndent := h2 ▸ hlt
    rw [if_pos hlt, if_pos hlt']
    exact ⟨h1, h2, rfl, h4, congrArg (fun w => w ++ ["\n"]) h5, h6⟩
  · have hlt' : ¬ indent < st'.prevIndent := h2 ▸ hlt
    rw [if_neg hlt, if_neg hlt']
    exact ⟨h1, h2, h3, h4, h5, h6⟩

theorem sameButLayout_pop (st st' : ScanState) (indent : Int) (h : SameButLayout st st') :
    scanLine.pop st indent = scanLine.pop st' indent := by
  obtain ⟨h1, h2, -⟩ := h
  unfold scanLine.pop
  rw [h1, h2]

theorem sameButLayout_push (st st' : ScanState) (s : List String) (m1 : String) (indent : Int)
    (h : SameButLayout st st') :
    SameButLayout (scanLine.push st s m1 indent) (scanLine.push st' s m1 indent) := by
  obtain ⟨h1, h2, h3, h4, h5, h6⟩ := h
  exact ⟨rfl, rfl, h3, h4, h5, h6⟩

theorem sameButLayout_plain (st st' : ScanState) (text : String) (h : SameButLayout st st') :
    SameButLayout (scanLine.plain st text) (scanLine.plain st' text) := by
  obtain ⟨h1, h2, h3, h4, h5, h6⟩ := h
  unfold scanLine.plain
  exact ⟨h1, h2, rfl, h4, congrArg (fun w => w ++ [text ++ "\n"]) h5, h6⟩

theorem sameButLayout_print (st st' : ScanState) (text m1 : String) (h : SameButLayout st st') :
    SameButLayout (scanLine.print st text m1) (scanLine.print st' text m1) := by
  have hp := sameButLayout_plain st st' text h
  obtain ⟨h1, h2, h3, h4, h5, h6⟩ := h
  unfold scanLine.print
  have hk : st'.oneTimeComments.get? (".".intercalate st'.s) =
      st.oneTimeComments.get? (".".intercalate st.s) := by
    rw [← h6, h1]
  rw [hk]
  cases st.oneTimeComments.get? (".".intercalate st.s) with
  | none => exact hp
  | some cs =>
    refine ⟨h1, h2, rfl, h4, ?_, ?_⟩
    · show st.written ++ [getCommentedLine text cs st.addNewLineBeforeComment] =
        st'.written ++ [getCommentedLine text cs st'.addNewLineBeforeComment]
      rw [h5, h3]
    · intro k
      show (st.oneTimeComments.delete m1).get? k = (st'.oneTimeComments.delete m1).get? k
      rw [CommentTable.get?_delete, CommentTable.get?_delete, h6]

/-- One iteration of the scan loop does the same on two states that differ at
most in the layout of the comment table. -/
theorem scanLine_sameButLayout (st st' : ScanState) (text : String) (h : SameButLayout st st') :
    SameButLayout (scanLine st text).1 (scanLine st' text).1 ∧
      (scanLine st text).2 = (scanLine st' text).2 := by
  unfold scanLine
  cases yamlKeyRE.FindStringSubmatch text with
  | none => exact ⟨sameButLayout_plain st st' text h, rfl⟩
  | some m =>
    obtain ⟨m0, m1⟩ := m
    simp only
    have he := sameButLayout_etcd st st' ((countBlanks m0 / 2 : Nat) : Int) text h
    generalize scanLine.etcd st ((countBlanks m0 / 2 : Nat) : Int) text = a at he
    generalize scanLine.etcd st' ((countBlanks m0 / 2 : Nat) : Int) text = a' at he
    rw [he.2.2.2.1]
    split_ifs
    · exact ⟨he, rfl⟩
    · have hl := sameButLayout_leave a a' ((countBlanks m0 / 2 : Nat) : Int) he
      rw [sameButLayout_pop _ _ ((countBlanks m0 / 2 : Nat) : Int) hl]
      generalize scanLine.leave a ((countBlanks m0 / 2 : Nat) : Int) = b at hl
      generalize scanLine.leave a' ((countBlanks m0 / 2 : Nat) : Int) = b' at hl
      cases scanLine.pop b' ((countBlanks m0 / 2 : Nat) : Int) with
      | error err => exact ⟨hl, rfl⟩
      | ok s =>
        exact ⟨sameButLayout_print _ _ text m1 (sameButLayout_push b b' s m1 _ hl), rfl⟩

/-- The scan loop does the same on two states that differ at most in the layout
of the comment table. -/
theorem scanLoop_sameButLayout (lines : List String) :
    ∀ (st st' : ScanState), SameButLayout st st' →
      SameButLayout (scanLoop st lines).1 (scanLoop st' lines).1 ∧
        (scanLoop st lines).2 = (scanLoop st' lines).2 := by
  induction lines with
  | nil =>
    intro st st' h
    exact ⟨h, rfl⟩
  | cons text rest ih =>
    intro st st' h
    obtain ⟨hs, he⟩ := scanLine_sameButLayout st st' text h
    rw [scanLoop_cons, scanLoop_cons]
    rcases hA : scanLine st text with ⟨st1, err⟩
    rcases hB : scanLine st' text with ⟨st1', err'⟩
    rw [hA, hB] at hs he
    simp only at hs he
    subst he
    cases err with
    | none => exact ih st1 st1' hs
    | some e => exact ⟨hs, rfl⟩

/-- What a write puts out depends on the lookups of the comment table only. -/
theorem writeOutput_congr (env : WriteCollaborators) (c c' : CommentTable) (fp : FilePlanner)
    (p : Plan) (h : ∀ k, c.get? k = c'.get? k) :
    writeOutput env c fp p = writeOutput env c' fp p := by
  unfold writeOutput
  cases env.Marshal p with
  | error e => rfl
  | ok lines =>
    cases env.Create fp.PlanFile with
    | some err => rfl
    | none =>
      obtain ⟨hs, he⟩ := scanLoop_sameButLayout lines (scanStart c) (scanStart c')
        ⟨rfl, rfl, rfl, rfl, rfl, h⟩
      simp only [hs.2.2.2.2.1, he]

theorem mapHeap_read_new (heap : MapHeap) (m : CommentTable) :
    MapHeap.read (heap ++ [m]) heap.length = m := by
  simp [MapHeap.read, List.getD_eq_getElem?_getD]

theorem mapHeap_read_old (heap : MapHeap) (m : CommentTable) (a : Nat) (ha : a < heap.length) :
    MapHeap.read (heap ++ [m]) a = MapHeap.read heap a := by
  simp [MapHeap.read, List.getD_eq_getElem?_getD, List.getElem?_append_left ha]

theorem mapHeap_write_new (heap : MapHeap) (m m' : CommentTable) :
    MapHeap.write (heap ++ [m]) heap.length m' = heap ++ [m'] := by
  simp [MapHeap.write]

/-- The copy loop on a new object changes that object only. -/
theorem copyLoop_new (order : List (String × List String)) :
    ∀ (heap : MapHeap) (m : CommentTable),
      copyLoop heap.length order (heap ++ [m]) =
        heap ++ [order.foldl (fun m e => CommentTable.set m e.1 e.2) m] := by
  induction order with
  | nil =>
    intro heap m
    rfl
  | cons e rest ih =>
    intro heap m
    obtain ⟨k, v⟩ := e
    unfold copyLoop
    rw [mapHeap_read_new, mapHeap_write_new, ih]
    rfl

/-- A write adds one map object to the heap and puts out what a scan from the
copy of the global comment map puts out. -/
theorem writeOn_eq (env : WriteCollaborators) (range : CommentTable → List (String × List String))
    (commentMapAddr : Nat) (heap : MapHeap) (fp : FilePlanner) (p : Plan)
    (haddr : commentMapAddr < heap.length) :
    (∃ m, (FilePlanner.WriteOn env range commentMapAddr heap fp p).1 = heap ++ [m]) ∧
    (FilePlanner.WriteOn env range commentMapAddr heap fp p).2 =
      writeOutput env ((range (heap.read commentMapAddr)).foldl
        (fun m e => CommentTable.set m e.1 e.2) []) fp p := by
  unfold FilePlanner.WriteOn writeOutput MapHeap.make
  simp only [mapHeap_read_old heap [] commentMapAddr haddr, copyLoop_new, mapHeap_read_new,
    mapHeap_write_new]
  cases env.Marshal p with
  | error e => exact ⟨⟨_, rfl⟩, rfl⟩
  | ok lines =>
    cases env.Create fp.PlanFile with
    | some err => exact ⟨⟨_, rfl⟩, rfl⟩
    | none => exact ⟨⟨_, rfl⟩, rfl⟩

/-- The keys of `commentMap` are distinct. -/
theorem commentMap_keys_nodup (quotedMinorVersion : String) :
    ((commentMap quotedMinorVersion).map Prod.fst).Nodup := by
  have e : (commentMap quotedMinorVersion).map Prod.fst = (commentMap "").map Prod.fst := rfl
  rw [e]
  decide

set_option maxRecDepth 100000 in
/-- The deletions of a write reach the copy: after a write of
`exampleBlocksText` the new map object has lost the entry of `etcd`, which the
object of the global `commentMap` still has. -/
theorem writeOn_changes_copy :
    ((FilePlanner.WriteOn exampleWriteCollaborators id 0
        [commentMap exampleQuotedMinorVersion] {} examplePlan).1.read 1).get? "etcd" = none ∧
    (((FilePlanner.WriteOn exampleWriteCollaborators id 0
        [commentMap exampleQuotedMinorVersion] {} examplePlan).1.read 0).get? "etcd").isSome =
      true := by
  decide

/-- C35: `FilePlanner.Write` works on a copy of the comment table it makes
for the write.  Whatever the order in which the runtime yields the entries of a
map, a write leaves the object of the global `commentMap` as it was (and every
other map object that existed), and a second write of the same plan writes and
returns what the first one did; with the table of `plan.go` in the global that
is what `FilePlanner.Write` gives. -/
theorem C35_write_leaves_commentMap (env : WriteCollaborators)
    (range1 range2 : CommentTable → List (String × List String)) (commentMapAddr : Nat)
    (heap : MapHeap) (fp : FilePlanner) (p : Plan)
    (hrange1 : ∀ m, (range1 m).Perm m) (hrange2 : ∀ m, (range2 m).Perm m)
    (haddr : commentMapAddr < heap.length)
    (hkeys : ((heap.read commentMapAddr).map Prod.fst).Nodup) :
    (FilePlanner.WriteOn env range1 commentMapAddr heap fp p).1.read commentMapAddr =
      heap.read commentMapAddr ∧
    (∀ a, a < heap.length →
      (FilePlanner.WriteOn env range1 commentMapAddr heap fp p).1.read a = heap.read a) ∧
    (FilePlanner.WriteOn env range2 commentMapAddr
        (FilePlanner.WriteOn env range1 commentMapAddr heap fp p).1 fp p).2 =
      (FilePlanner.WriteOn env range1 commentMapAddr heap fp p).2 ∧
    (∀ quotedMinorVersion, heap.read commentMapAddr = commentMap quotedMinorVersion →
      (FilePlanner.WriteOn env range1 commentMapAddr heap fp p).2 =
        FilePlanner.Write env quotedMinorVersion fp p) := by
  obtain ⟨⟨m, hm⟩, hout⟩ := writeOn_eq env range1 commentMapAddr heap fp p haddr
  have hframe : ∀ a, a < heap.length →
      (FilePlanner.WriteOn env range1 commentMapAddr heap fp p).1.read a = heap.read a := by
    intro a ha
    rw [hm, mapHeap_read_old heap m a ha]
  have hfirst : (FilePlanner.WriteOn env range1 commentMapAddr heap fp p).2 =
      writeOutput env (heap.read commentMapAddr) fp p := by
    rw [hout]
    exact writeOutput_congr env _ _ fp p
      (copy_get? (heap.read commentMapAddr) _ hkeys (hrange1 _))
  refine ⟨hframe _ haddr, hframe, ?_, ?_⟩
  · have haddr' : commentMapAddr <
        (FilePlanner.WriteOn env range1 commentMapAddr heap fp p).1.length := by
      rw [hm, List.length_append]
      omega
    obtain ⟨-, hout'⟩ := writeOn_eq env range2 commentMapAddr
      (FilePlanner.WriteOn env range1 commentMapAddr heap fp p).1 fp p haddr'
    rw [hout', hfirst, hframe _ haddr]
    exact writeOutput_congr env _ _ fp p
      (copy_get? (heap.read commentMapAddr) _ hkeys (hrange2 _))
  · intro q hq
    rw [hfirst, hq]
    rfl

set_option maxRecDepth 100000 in
/-- Witness for C35: two writes with the table of `plan.go` as the only map
object, the first ranging over it in the order of the listing and the second
in the opposite order. -/
theorem C35_write_leaves_commentMap_witness :
    (FilePlanner.WriteOn exampleWriteCollaborators id 0
        [commentMap exampleQuotedMinorVersion] {} examplePlan).1.read 0 =
      MapHeap.read [commentMap exampleQuotedMinorVersion] 0 ∧
    (∀ a, a < [commentMap exampleQuotedMinorVersion].length →
      (FilePlanner.WriteOn exampleWriteCollaborators id 0
          [commentMap exampleQuotedMinorVersion] {} examplePlan).1.read a =
        MapHeap.read [commentMap exampleQuotedMinorVersion] a) ∧
    (FilePlanner.WriteOn exampleWriteCollaborators List.reverse 0
        (FilePlanner.WriteOn exampleWriteCollaborators id 0
          [commentMap exampleQuotedMinorVersion] {} examplePlan).1 {} examplePlan).2 =
      (FilePlanner.WriteOn exampleWriteCollaborators id 0
        [commentMap exampleQuotedMinorVersion] {} examplePlan).2 ∧
    (∀ quotedMinorVersion,
      MapHeap.read [commentMap exampleQuotedMinorVersion] 0 = commentMap quotedMinorVersion →
      (FilePlanner.WriteOn exampleWriteCollaborators id 0
          [commentMap exampleQuotedMinorVersion] {} examplePlan).2 =
        FilePlanner.Write exampleWriteCollaborators quotedMinorVersion {} examplePlan) :=
  C35_write_leaves_commentMap exampleWriteCollaborators id List.reverse 0
    [commentMap exampleQuotedMinorVersion] {} examplePlan
    (fun m => List.Perm.refl m) (fun m => List.reverse_perm m) (by decide) (by decide)

/-! ## The scan loop on label keys that hold a slash -/

set_option maxRecDepth 100000 in
/-- C20 fails on the code: on `exampleSlashLabelText` the path `worker` is
registered in the comment table, the line `worker:` has the stack `worker`, and
the loop writes that line with nothing before it.  The match of `yamlKeyRE` on
the label line `      node-role.kubernetes.io/worker: ""` starts at the slash,
so the loop takes that line, nested three levels under `master`, for a key
`worker` of level 0: it writes the comment of `worker` before the label line,
with six blanks, and deletes the entry. -/
theorem C20_comment_spent_on_label_line :
    (commentMap exampleQuotedMinorVersion).get? "worker" =
      some ["Worker nodes are the ones that will run your workloads on the cluster."] ∧
    yamlKeyRE.FindStringSubmatch "      node-role.kubernetes.io/worker: \"\"" =
      some ("/worker:", "worker") ∧
    exampleSlashLabelText.drop 6 =
      ["      node-role.kubernetes.io/worker: \"\"", "worker:", "  expected_count: 1"] ∧
    (scanLoop (scanStart (commentMap exampleQuotedMinorVersion))
        (exampleSlashLabelText.take 7)).1.written =
      (scanLoop (scanStart (commentMap exampleQuotedMinorVersion))
        (exampleSlashLabelText.take 6)).1.written ++
        ["\n", "      # Worker nodes are the ones that will run your workloads on the cluster.\n" ++
          "      node-role.kubernetes.io/worker: \"\"\n"] ∧
    (scanLoop (scanStart (commentMap exampleQuotedMinorVersion))
        (exampleSlashLabelText.take 7)).1.oneTimeComments.get? "worker" = none ∧
    (scanLoop (scanStart (commentMap exampleQuotedMinorVersion))
        (exampleSlashLabelText.take 8)).1.s = ["worker"] ∧
    (scanLoop (scanStart (commentMap exampleQuotedMinorVersion))
        (exampleSlashLabelText.take 8)).1.written =
      (scanLoop (scanStart (commentMap exampleQuotedMinorVersion))
        (exampleSlashLabelText.take 7)).1.written ++ ["worker:\n"] ∧
    (scanLoop (scanStart (commentMap exampleQuotedMinorVersion)) exampleSlashLabelText).2 =
      none := by
  refine ⟨by decide, by decide, by decide, by decide, by decide, by decide, by decide, by decide⟩

set_option maxRecDepth 100000 in
/-- C21 fails on the code: on `exampleEtcdSlashLabelText` the line
`    labels: {}` of the second etcd node is written, although the only line
without indentation before it is `etcd:`.  The match of `yamlKeyRE` on the
label line `      kismatic/zone: a` of the first node starts at the slash, so
the loop computes level 0 for that line and resets `etcdBlock`. -/
theorem C21_labels_written_in_etcd_block :
    exampleEtcdSlashLabelText.drop 7 = ["    labels: \x7b\x7d", "master:"] ∧
    (exampleEtcdSlashLabelText.take 7).filter (fun l => countLeadingSpace l = 0) = ["etcd:"] ∧
    yamlKeyRE.FindStringSubmatch "      kismatic/zone: a" = some ("/zone:", "zone") ∧
    (scanLoop (scanStart (commentMap exampleQuotedMinorVersion))
        (exampleEtcdSlashLabelText.take 5)).1.etcdBlock = true ∧
    (scanLoop (scanStart (commentMap exampleQuotedMinorVersion))
        (exampleEtcdSlashLabelText.take 6)).1.etcdBlock = false ∧
    (scanLoop (scanStart (commentMap exampleQuotedMinorVersion))
        (exampleEtcdSlashLabelText.take 7)).1.etcdBlock = false ∧
    (scanLoop (scanStart (commentMap exampleQuotedMinorVersion)) exampleEtcdSlashLabelText).2 =
      none ∧
    fileContent (scanLoop (scanStart (commentMap exampleQuotedMinorVersion))
        exampleEtcdSlashLabelText).1.written =
      textOf ["",
        "# Etcd nodes are the ones that run the etcd distributed key-value database.", "etcd:",
        "  expected_count: 2", "",
        "  # Provide the hostname and IP of each node. If the node has an IP for internal",
        "  # traffic, provide it in the internalip field. Otherwise, that field can be",
        "  # left blank.", "  nodes:", "  - host: e1", "    labels:", "",
        "      kismatic/zone: a", "  - host: e2", "    labels: \x7b\x7d", "",
        "# Master nodes are the ones that run the Kubernetes control plane components.",
        "master:"] := by
  refine ⟨by decide, by decide, by decide, by decide, by decide, by decide, by decide, by decide⟩

set_option maxRecDepth 100000 in
/-- C22 fails on the code: on `exampleSlashLabelText`, which has no empty
line, the line `worker:` of level 0 follows a line of level 3 and is written
with no empty line before it; the empty line the loop writes is before the
label line `      node-role.kubernetes.io/worker: ""`, which is indented more
than the line before it.  The match of `yamlKeyRE` on the label line starts at
the slash, so the loop computes level 0 for the label line. -/
theorem C22_no_blank_line_before_worker_block :
    (∀ l ∈ exampleSlashLabelText, l ≠ "") ∧
    exampleSlashLabelText.map (fun l => countLeadingSpace l / 2) = [0, 1, 1, 1, 2, 2, 3, 0, 1] ∧
    yamlKeyRE.FindStringSubmatch "      node-role.kubernetes.io/worker: \"\"" =
      some ("/worker:", "worker") ∧
    (scanLoop (scanStart (commentMap exampleQuotedMinorVersion))
        (exampleSlashLabelText.take 6)).1.prevIndent = 2 ∧
    (scanLoop (scanStart (commentMap exampleQuotedMinorVersion))
        (exampleSlashLabelText.take 7)).1.prevIndent = 0 ∧
    (scanLoop (scanStart (commentMap exampleQuotedMinorVersion)) exampleSlashLabelText).2 =
      none ∧
    fileContent (scanLoop (scanStart (commentMap exampleQuotedMinorVersion))
        exampleSlashLabelText).1.written =
      textOf ["",
        "# Master nodes are the ones that run the Kubernetes control plane components.",
        "master:", "  expected_count: 1", "  nodes:", "  - host: m1", "    ip: 10.0.0.1",
        "    labels:", "",
        "      # Worker nodes are the ones that will run your workloads on the cluster.",
        "      node-role.kubernetes.io/worker: \"\"", "worker:", "  expected_count: 1"] := by
  refine ⟨by decide, by decide, by decide, by decide, by decide, by decide, by decide⟩

set_option maxRecDepth 100000 in
/-- C36 fails on the code: in `exampleTwoLabelsText` the first line has level
0 and no line is indented more than one level deeper than the line before it,
yet the loop returns `Empty Stack` at the last line, which it does not write.
The match of `yamlKeyRE` on the label line `      kismatic/cni: calico` starts
at the slash, so the loop takes that line, of level 3, for a key `cni` of
level 0: after it the stack is `cni` alone, where the enclosing keys are
`worker`, `host` and `labels`; the next line, of level 3, makes it `cni`,
`zone` with the level 3 recorded, and the three pops at `  - host: w2` empty
it. -/
theorem C36_stack_lost_after_label_key :
    exampleTwoLabelsText.map (fun l => countLeadingSpace l / 2) = [0, 1, 1, 1, 2, 3, 3, 1] ∧
    yamlKeyRE.FindStringSubmatch "      kismatic/cni: calico" = some ("/cni:", "cni") ∧
    (scanLoop (scanStart (commentMap exampleQuotedMinorVersion))
        (exampleTwoLabelsText.take 5)) =
      ((scanLoop (scanStart (commentMap exampleQuotedMinorVersion))
        (exampleTwoLabelsText.take 5)).1, none) ∧
    (scanLoop (scanStart (commentMap exampleQuotedMinorVersion))
        (exampleTwoLabelsText.take 5)).1.s = ["worker", "host", "labels"] ∧
    (scanLoop (scanStart (commentMap exampleQuotedMinorVersion))
        (exampleTwoLabelsText.take 6)).1.s = ["cni"] ∧
    (scanLoop (scanStart (commentMap exampleQuotedMinorVersion))
        (exampleTwoLabelsText.take 6)).1.prevIndent = 0 ∧
    (scanLoop (scanStart (commentMap exampleQuotedMinorVersion))
        (exampleTwoLabelsText.take 7)).1.s = ["cni", "zone"] ∧
    (scanLoop (scanStart (commentMap exampleQuotedMinorVersion))
        (exampleTwoLabelsText.take 7)).1.prevIndent = 3 ∧
    (scanLoop (scanStart (commentMap exampleQuotedMinorVersion)) exampleTwoLabelsText).2 =
      some "Empty Stack" ∧
    fileContent (scanLoop (scanStart (commentMap exampleQuotedMinorVersion))
        exampleTwoLabelsText).1.written =
      textOf ["",
        "# Worker nodes are the ones that will run your workloads on the cluster.", "worker:",
        "  expected_count: 2", "  nodes:", "  - host: w1", "    labels:", "",
        "      kismatic/cni: calico", "      zone: a", ""] := by
  refine ⟨by decide, by decide, Prod.ext rfl (by decide), by decide, by decide, by decide,
    by decide, by decide, by decide, by decide⟩

end Kismatic
